import Mathlib

/-!
# Verification of `libc/calls/readwrite-nt.c`

`sys_readwrite_nt` is the code shared by read/write/pread/pwrite on Windows.
It talks to the platform (asynchronous i/o, events), to the signal subsystem
and to the thread cancelation subsystem.  The embedding below keeps the control
flow of the C function and makes every answer of those collaborators an
explicit input (`Answers`, one record per pass through `RestartOperation`),
and every call made to them an explicit output (`Event`, in program order).

`GetLastError()` reads thread-local state of the platform that the calls made
in between may change, so each of its two reads (lines 116 and 178) is an
answer of the environment.  A relayed signal handler runs user code on the
calling thread: it may return, leave by a non-local jump, and perform i/o on
the very descriptor of the call, which moves its cursor (`RelayAnswer`).

`ssize_t`, `int64_t` and `int` values are integers, `size_t`, `uint32_t` and
`uint64_t` values are natural numbers.  The one addition of the function,
`offset + exchanged` at line 171, is made in `ssize_t`: a sum outside the range
of that type is an overflow, which C leaves undefined and which the machine
addition wraps around (`wrapSsize`).
-/

namespace ReadwriteNt

/-! ## Constants and types declared outside `readwrite-nt.c` -/

/-- Modelled from the spec: `kNtErrorIoPending` of libc/nt/errors.h, the
platform's "pending" report (ERROR_IO_PENDING). -/
def kNtErrorIoPending : Nat := 997

/-- Modelled from the spec: `kNtErrorOperationAborted` of libc/nt/errors.h, the
platform's "operation aborted" report (ERROR_OPERATION_ABORTED). -/
def kNtErrorOperationAborted : Nat := 995

/-- Modelled from the spec: `kNtFileTypeDisk` of libc/nt/enum/filetype.h
(FILE_TYPE_DISK). -/
def kNtFileTypeDisk : Nat := 1

/-- Modelled from the spec: `_O_NONBLOCK` of libc/sysv/consts/o.h, the
non-blocking bit of `f->flags`. -/
def _O_NONBLOCK : Nat := 0x800

/-- Modelled from the spec: `SI_KERNEL` of libc/sysv/consts/sicode.h. -/
def SI_KERNEL : Int := 128

/-- Modelled from the spec: the descriptor kinds of `struct Fd` that the
function tells apart (regular file / null device / anything else). -/
inductive FdKind
  | kFdFile
  | kFdDevNull
  | kFdOther
  deriving DecidableEq, Repr

/-- Modelled from the spec: the fields of `struct Fd` (`g_fds.p[fd]`) that the
function reads or writes: kind, flags and the cursor `pointer`. -/
structure Fd where
  kind : FdKind
  flags : Nat
  pointer : Int
  deriving DecidableEq, Repr

/-- Modelled from the spec: the two fields of `struct NtOverlapped` that the
function initialises (line 111): the completion event and the offset. -/
structure NtOverlapped where
  hEvent : Int
  Pointer : Int
  deriving DecidableEq, Repr

/-- The `struct ReadwriteResources` of lines 46-49. -/
structure ReadwriteResources where
  handle : Int
  overlap : NtOverlapped
  deriving DecidableEq, Repr

/-- The errno values raised by the return paths of the function
(`espipe()`, `eagain()`, `ecanceled()`, `eintr()`). -/
inductive Errno
  | ESPIPE
  | EAGAIN
  | ECANCELED
  | EINTR
  deriving DecidableEq, Repr

/-- Modelled from the spec: the three ways `_check_cancel()` can go, as listed
in the comment of lines 123-126. -/
inductive CancelCheck
  /-- returns 0: no thread cancelation happened -/
  | fine
  /-- calls `pthread_exit()`: cancelation was deferred; cleanup handlers run
  and the call never returns -/
  | exits
  /-- returns -1 and raises ECANCELED: cancelation was masked -/
  | masked
  deriving DecidableEq, Repr

/-! ## What the function does to its environment -/

/-- One call made by the function to a collaborator, with its arguments (and,
for the calls whose result steers the function, the result). -/
inductive Event
  | GetFileType (handle : Int)
  | CreateEvent (hEvent : Int)
  | ReadOrWriteFile (handle : Int) (size : Nat) (overlap : NtOverlapped)
  | GetLastError (err : Nat)
  | CancelIoEx (handle : Int) (overlap : NtOverlapped)
  | _check_cancel (r : CancelCheck)
  | __sig_get (waitmask : Nat) (sig : Int)
  /-- lines 136-141: `pt_blkmask`, `pt_iohandle`, `pt_ioverlap` are stored and
  `pt_blocker` is set to `PT_BLOCKER_IO` -/
  | publish (blkmask : Nat) (iohandle : Int) (ioverlap : NtOverlapped)
  | WaitForSingleObject (hEvent : Int)
  /-- line 143: `pt_blocker` is set back to 0 -/
  | unpublish
  | GetOverlappedResult (handle : Int) (overlap : NtOverlapped) (wait : Bool)
  | CloseHandle (hEvent : Int)
  | __sig_relay (sig : Int) (sic : Int) (waitmask : Nat) (result : Option Int)
  deriving DecidableEq, Repr

/-- What one `__sig_relay()` call does: `result` is the value it returns
(`none` when the handler leaves by a non-local jump and the call never returns),
`seek` is the cursor the handler leaves in `f->pointer` when it performs i/o
or a seek on this very descriptor (`none` when it leaves the cursor alone). -/
structure RelayAnswer where
  result : Option Int
  seek : Option Int
  deriving DecidableEq, Repr

/-- The answers of the environment during one pass through `RestartOperation`,
in the order of the calls that may ask for them. -/
structure Answers where
  /-- `CreateEvent(0, 1, 0, 0)`, line 111 -/
  hEvent : Int
  /-- `ReadOrWriteFile(handle, data, size, 0, &overlap)`, line 115 -/
  submitOk : Bool
  /-- `GetLastError()`, line 116 -/
  submitErr : Nat
  /-- `_check_cancel()`, line 122 -/
  cancel1 : CancelCheck
  /-- `__sig_get(waitmask)`, line 129 -/
  sigGet1 : Int
  /-- `GetOverlappedResult(handle, &overlap, &exchanged, true)`, line 148 -/
  collectOk : Bool
  /-- the value stored in `exchanged` by line 148 -/
  exchanged : Nat
  /-- `__sig_relay(sig, SI_KERNEL, waitmask)`, line 162 -/
  relay1 : RelayAnswer
  /-- `_check_cancel()`, line 163 -/
  cancel2 : CancelCheck
  /-- `GetLastError()`, line 178 -/
  finalErr : Nat
  /-- `__sig_get(waitmask)`, line 187 -/
  sigGet2 : Int
  /-- `__sig_relay(sig, SI_KERNEL, waitmask)`, line 188 -/
  relay2 : RelayAnswer
  /-- `_check_cancel()`, line 189 -/
  cancel3 : CancelCheck
  deriving DecidableEq, Repr

/-- The environment of one call: the answer of `GetFileType(handle)` and the
answers for each pass through `RestartOperation`. -/
structure Env where
  fileType : Nat
  attempts : List Answers
  deriving DecidableEq, Repr

/-- How a call ends. -/
inductive Outcome
  /-- the function returns `rc`; `raised` is the errno raised on that return
  path (`none`: no errno is raised there) -/
  | ret (rc : Int) (raised : Option Errno)
  /-- `_check_cancel()` acted on a deferred cancelation: the thread exits -/
  | threadExit
  /-- the relayed signal handler left by a non-local jump -/
  | handlerJump
  /-- the function jumped to `RestartOperation` and the environment has given
  no answers for that pass: the call is still in progress -/
  | running
  deriving DecidableEq, Repr

/-- The local variables that live across `goto RestartOperation`, and the
descriptor's cursor. -/
structure Frame where
  sig : Int
  eagained : Bool
  canceled : Bool
  /-- `f->pointer` -/
  pointer : Int
  deriving DecidableEq, Repr

/-- What is fixed once line 106 is passed. -/
structure Call where
  flags : Nat
  size : Nat
  offset : Int
  handle : Int
  waitmask : Nat
  pwriting : Bool
  seekable : Bool
  deriving DecidableEq, Repr

/-- Lines 51-57: the cleanup hook, cancel then wait then release. -/
def UnwindReadwrite (rwc : ReadwriteResources) : List Event :=
  [Event.CancelIoEx rwc.handle rwc.overlap,
   Event.GetOverlappedResult rwc.handle rwc.overlap true,
   Event.CloseHandle rwc.overlap.hEvent]

/-- State after the branch of lines 116-146. -/
structure Branch where
  events : List Event
  sig : Int
  eagained : Bool
  canceled : Bool
  /-- `_check_cancel()` of line 122 called `pthread_exit()` -/
  exited : Bool
  deriving DecidableEq, Repr

/-- Lines 117-144: the submission was reported pending. -/
def whenPending (c : Call) (s : Frame) (overlap : NtOverlapped) (a : Answers) : Branch :=
  if c.flags &&& _O_NONBLOCK ≠ 0 then
    { events := [Event.CancelIoEx c.handle overlap],
      sig := s.sig, eagained := true, canceled := s.canceled, exited := false }
  else
    match a.cancel1 with
    | CancelCheck.masked =>
      { events := [Event._check_cancel CancelCheck.masked, Event.CancelIoEx c.handle overlap],
        sig := s.sig, eagained := s.eagained, canceled := true, exited := false }
    | CancelCheck.exits =>
      { events := [Event._check_cancel CancelCheck.exits],
        sig := s.sig, eagained := s.eagained, canceled := s.canceled, exited := true }
    | CancelCheck.fine =>
      if a.sigGet1 ≠ 0 then
        { events := [Event._check_cancel CancelCheck.fine, Event.__sig_get c.waitmask a.sigGet1,
                     Event.CancelIoEx c.handle overlap],
          sig := a.sigGet1, eagained := s.eagained, canceled := s.canceled, exited := false }
      else
        { events := [Event._check_cancel CancelCheck.fine, Event.__sig_get c.waitmask a.sigGet1,
                     Event.publish c.waitmask c.handle overlap,
                     Event.WaitForSingleObject overlap.hEvent,
                     Event.unpublish],
          sig := a.sigGet1, eagained := s.eagained, canceled := s.canceled, exited := false }

/-- The test of line 116: `!ok && GetLastError() == kNtErrorIoPending`. -/
def reportedPending (a : Answers) : Bool :=
  !a.submitOk && a.submitErr == kNtErrorIoPending

/-- State after line 151. -/
structure Settled where
  events : List Event
  sig : Int
  eagained : Bool
  canceled : Bool
  ok : Bool
  exited : Bool
  deriving DecidableEq, Repr

/-- Lines 111-151: create the event, submit, settle the submission, collect
the result and close the event.  When `_check_cancel()` exits the thread inside
the cleanup window, the pushed hook `UnwindReadwrite` runs instead. -/
def settle (c : Call) (s : Frame) (a : Answers) : Settled :=
  let overlap : NtOverlapped := { hEvent := a.hEvent, Pointer := c.offset }
  let rwc : ReadwriteResources := { handle := c.handle, overlap := overlap }
  let submit := [Event.CreateEvent a.hEvent, Event.ReadOrWriteFile c.handle c.size overlap]
  let asked := if a.submitOk then [] else [Event.GetLastError a.submitErr]
  let b : Branch :=
    if reportedPending a then whenPending c s overlap a
    else { events := [], sig := s.sig, eagained := s.eagained, canceled := s.canceled,
           exited := false }
  if b.exited then
    { events := submit ++ asked ++ b.events ++ UnwindReadwrite rwc,
      sig := b.sig, eagained := b.eagained, canceled := b.canceled, ok := false, exited := true }
  else
    let ok1 := if reportedPending a then true else a.submitOk
    let collect := if ok1 then [Event.GetOverlappedResult c.handle overlap true] else []
    let ok2 := if ok1 then a.collectOk else ok1
    { events := submit ++ asked ++ b.events ++ collect ++ [Event.CloseHandle overlap.hEvent],
      sig := b.sig, eagained := b.eagained, canceled := b.canceled, ok := ok2, exited := false }

/-- What a pass through `RestartOperation` ends with. -/
inductive Step
  | restart
  | done (o : Outcome)
  deriving DecidableEq, Repr

/-- One pass through `RestartOperation`: the calls made, the frame left and
the way the pass ends. -/
structure Pass where
  events : List Event
  frame : Frame
  step : Step
  deriving DecidableEq, Repr

/-- A `__sig_relay(sig, SI_KERNEL, waitmask)` call followed by the test
`_check_cancel() == -1` (lines 162-163 and 188-189). -/
structure Relayed where
  events : List Event
  pointer : Int
  /-- the pass ends here (`some`), or goes on (`none`) -/
  ended : Option Outcome
  handler_was_called : Int
  deriving DecidableEq, Repr

/-- Lines 162-163 and 188-189. -/
def relay (c : Call) (pointer : Int) (sig : Int) (r : RelayAnswer) (cc : CancelCheck) : Relayed :=
  match r.result with
  | none =>
    { events := [Event.__sig_relay sig SI_KERNEL c.waitmask none],
      pointer := r.seek.getD pointer, ended := some Outcome.handlerJump, handler_was_called := 0 }
  | some h =>
    { events := [Event.__sig_relay sig SI_KERNEL c.waitmask (some h), Event._check_cancel cc],
      pointer := r.seek.getD pointer,
      ended := match cc with
        | CancelCheck.fine => none
        | CancelCheck.exits => some Outcome.threadExit
        | CancelCheck.masked => some (Outcome.ret (-1) (some Errno.ECANCELED)),
      handler_was_called := h }

/-- Lines 177-199: the i/o did not succeed. -/
def failed (c : Call) (s : Frame) (handler_was_called : Int) (a : Answers) : Pass :=
  if a.finalErr = kNtErrorOperationAborted then
    if s.eagained then
      { events := [Event.GetLastError a.finalErr], frame := s,
        step := Step.done (Outcome.ret (-1) (some Errno.EAGAIN)) }
    else if handler_was_called = 0 then
      if a.sigGet2 ≠ 0 then
        let r := relay c s.pointer a.sigGet2 a.relay2 a.cancel3
        { events := [Event.GetLastError a.finalErr, Event.__sig_get c.waitmask a.sigGet2] ++ r.events,
          frame := { s with sig := a.sigGet2, pointer := r.pointer },
          step := match r.ended with
            | some o => Step.done o
            | none =>
              if r.handler_was_called ≠ 1 then Step.restart
              else Step.done (Outcome.ret (-1) (some Errno.EINTR)) }
      else
        { events := [Event.GetLastError a.finalErr, Event.__sig_get c.waitmask a.sigGet2],
          frame := { s with sig := a.sigGet2 },
          step := Step.restart }
    else
      { events := [Event.GetLastError a.finalErr], frame := s,
        step := if handler_was_called ≠ 1 then Step.restart
                else Step.done (Outcome.ret (-1) (some Errno.EINTR)) }
  else
    { events := [Event.GetLastError a.finalErr], frame := s,
      step := Step.done (Outcome.ret (-2) none) }

/-- The value that an `ssize_t` / `int64_t` object holds after an arithmetic
result `x` is stored in it: `x` itself when it lies between `-2^63` and
`2^63 - 1`, and otherwise `x` wrapped around modulo `2^64` (two's complement),
as the 64-bit addition of line 171 does on overflow. -/
def wrapSsize (x : Int) : Int :=
  (x + 9223372036854775808) % 18446744073709551616 - 9223372036854775808

/-- The integer is a value of `ssize_t`: it lies between `-2^63` and
`2^63 - 1`. -/
def fitsSsize (x : Int) : Prop :=
  -9223372036854775808 ≤ x ∧ x ≤ 9223372036854775807

instance (x : Int) : Decidable (fitsSsize x) :=
  inferInstanceAs (Decidable (-9223372036854775808 ≤ x ∧ x ≤ 9223372036854775807))

/-- Lines 168-199: return the result of the i/o, or deal with its failure. -/
def conclude (c : Call) (s : Frame) (ok : Bool) (handler_was_called : Int) (a : Answers) : Pass :=
  if ok then
    { events := [],
      frame := { s with pointer := if !c.pwriting && c.seekable
                                   then wrapSsize (c.offset + a.exchanged)
                                   else s.pointer },
      step := Step.done (Outcome.ret a.exchanged none) }
  else failed c s handler_was_called a

/-- Lines 153-199: what follows the release of the event. -/
def reconcile (c : Call) (s : Frame) (ok : Bool) (a : Answers) : Pass :=
  if s.canceled then
    { events := [], frame := s, step := Step.done (Outcome.ret (-1) (some Errno.ECANCELED)) }
  else if s.sig ≠ 0 then
    let r := relay c s.pointer s.sig a.relay1 a.cancel2
    match r.ended with
    | some o => { events := r.events, frame := { s with pointer := r.pointer }, step := Step.done o }
    | none =>
      let p := conclude c { s with pointer := r.pointer } ok r.handler_was_called a
      { p with events := r.events ++ p.events }
  else conclude c s ok 0 a

/-- Lines 108-199: one pass through `RestartOperation`. -/
def attempt (c : Call) (s : Frame) (a : Answers) : Pass :=
  let t := settle c s a
  let s1 : Frame := { sig := t.sig, eagained := t.eagained, canceled := t.canceled,
                      pointer := s.pointer }
  if t.exited then
    { events := t.events, frame := s1, step := Step.done Outcome.threadExit }
  else
    let p := reconcile c s1 t.ok a
    { p with events := t.events ++ p.events }

/-- The result of a call: the calls made to the environment in program order,
the cursor `f->pointer` left behind, and the way the call ends. -/
structure Run where
  events : List Event
  pointer : Int
  outcome : Outcome
  deriving DecidableEq, Repr

/-- The `goto RestartOperation` loop: one `Answers` record is used per pass. -/
def loop (c : Call) : Frame → List Answers → Run
  | s, [] => { events := [], pointer := s.pointer, outcome := Outcome.running }
  | s, a :: rest =>
    match (attempt c s a).step with
    | Step.restart =>
      let r := loop c (attempt c s a).frame rest
      { r with events := (attempt c s a).events ++ r.events }
    | Step.done o =>
      { events := (attempt c s a).events, pointer := (attempt c s a).frame.pointer, outcome := o }

/-- Line 88-90: the descriptor is seekable. -/
def isSeekable (f : Fd) (fileType : Nat) : Bool :=
  (f.kind == FdKind.kFdFile && fileType == kNtFileTypeDisk) || f.kind == FdKind.kFdDevNull

/-- Lines 65-200, `sys_readwrite_nt(fd, data, size, offset, handle, waitmask,
ReadOrWriteFile)`: `f` is `g_fds.p + fd`; the buffer `data` is only handed on
to `ReadOrWriteFile`, whose answers are in `env`. -/
def sys_readwrite_nt (f : Fd) (size : Nat) (offset : Int) (handle : Int) (waitmask : Nat)
    (env : Env) : Run :=
  let size := min size 0x7ffff000
  let pwriting := offset != -1
  let seekable := isSeekable f env.fileType
  let probe := if f.kind = FdKind.kFdFile then [Event.GetFileType handle] else []
  if pwriting && !seekable then
    { events := probe, pointer := f.pointer, outcome := Outcome.ret (-1) (some Errno.ESPIPE) }
  else
    let offset := if !pwriting then (if seekable then f.pointer else 0) else offset
    let r := loop { flags := f.flags, size := size, offset := offset, handle := handle,
                    waitmask := waitmask, pwriting := pwriting, seekable := seekable }
                  { sig := 0, eagained := false, canceled := false, pointer := f.pointer }
                  env.attempts
    { r with events := probe ++ r.events }

/-! ## Reading the trace -/

/-- The event is an i/o submission. -/
def Event.isSubmit : Event → Bool
  | Event.ReadOrWriteFile _ _ _ => true
  | _ => false

/-- The event creates a completion event. -/
def Event.isCreate : Event → Bool
  | Event.CreateEvent _ => true
  | _ => false

/-- The event releases a completion event. -/
def Event.isClose : Event → Bool
  | Event.CloseHandle _ => true
  | _ => false

/-- The event is a cancel of the in-flight operation. -/
def Event.isCancel : Event → Bool
  | Event.CancelIoEx _ _ => true
  | _ => false

/-- The event is a dequeue from the pending signals. -/
def Event.isDequeue : Event → Bool
  | Event.__sig_get _ _ => true
  | _ => false

/-- The event is the relay of a signal. -/
def Event.isRelay : Event → Bool
  | Event.__sig_relay _ _ _ _ => true
  | _ => false

/-- The event consults the cancelation state of the thread. -/
def Event.isCancelCheck : Event → Bool
  | Event._check_cancel _ => true
  | _ => false

/-- The cursor that a pass leaves, given the way it ends: `base` plus the byte
count, as an `ssize_t`, after a successful transfer that is not positional on
a seekable descriptor, the cursor `entry` it started with otherwise. -/
def cursorAfter (positional seekable : Bool) (base entry : Int) : Step → Int
  | Step.done (Outcome.ret rc _) =>
    if 0 ≤ rc ∧ positional = false ∧ seekable = true then wrapSsize (base + rc) else entry
  | _ => entry

/-- No relayed handler of the pass writes the cursor. -/
def Answers.cursorUntouched (a : Answers) : Prop :=
  a.relay1.seek = none ∧ a.relay2.seek = none

/-! ## The entry of the call, checks on traces, concrete environments -/

/-- The `Call` record that `sys_readwrite_nt` enters the loop with. -/
def entryCall (f : Fd) (size : Nat) (offset handle : Int) (waitmask : Nat) (fileType : Nat) :
    Call :=
  { flags := f.flags, size := min size 0x7ffff000,
    offset := if !(offset != -1) then (if isSeekable f fileType then f.pointer else 0) else offset,
    handle := handle, waitmask := waitmask, pwriting := offset != -1,
    seekable := isSeekable f fileType }

/-- The `Frame` that `sys_readwrite_nt` enters the loop with. -/
def entryFrame (f : Fd) : Frame :=
  { sig := 0, eagained := false, canceled := false, pointer := f.pointer }

/-- The `GetFileType` probe of line 89, made for regular files only. -/
def probe (f : Fd) (handle : Int) : List Event :=
  if f.kind = FdKind.kFdFile then [Event.GetFileType handle] else []

/-- A regular file on disk, blocking, with its cursor at 100. -/
def regularFile100 : Fd := { kind := FdKind.kFdFile, flags := 0, pointer := 100 }

/-- A pipe-like descriptor (neither regular file nor null device), blocking. -/
def pipeFd : Fd := { kind := FdKind.kFdOther, flags := 0, pointer := 0 }

/-- A non-blocking pipe-like descriptor. -/
def nonblockFd : Fd := { kind := FdKind.kFdOther, flags := _O_NONBLOCK, pointer := 0 }

/-- The platform completes the submission at once with 10 bytes; nothing is
pending, no cancelation, no signal. -/
def syncTen : Answers :=
  { hEvent := 7, submitOk := true, submitErr := 0, cancel1 := CancelCheck.fine, sigGet1 := 0,
    collectOk := true, exchanged := 10, relay1 := { result := some 0, seek := none },
    cancel2 := CancelCheck.fine, finalErr := 0, sigGet2 := 0,
    relay2 := { result := some 0, seek := none }, cancel3 := CancelCheck.fine }

instance (a : Answers) : Decidable a.cursorUntouched :=
  inferInstanceAs (Decidable (a.relay1.seek = none ∧ a.relay2.seek = none))

/-- The calls that a pass makes while its completion event exists. -/
def Event.isPlatform : Event → Bool
  | Event.CreateEvent _ => true
  | Event.ReadOrWriteFile _ _ _ => true
  | Event.CancelIoEx _ _ => true
  | Event.GetOverlappedResult _ _ _ => true
  | Event.CloseHandle _ => true
  | Event.publish _ _ _ => true
  | Event.WaitForSingleObject _ => true
  | Event.unpublish => true
  | Event.GetFileType _ => true
  | _ => false

/-- The ways in which a pass through `RestartOperation` can end the call: a
byte count or -2 with no errno raised, -1 with EAGAIN, ECANCELED or EINTR, a
thread exit, or a handler that jumps away. -/
def Outcome.isPassEnd : Outcome → Prop
  | Outcome.ret rc none => 0 ≤ rc ∨ rc = -2
  | Outcome.ret rc (some e) => rc = -1 ∧ e ≠ Errno.ESPIPE
  | Outcome.threadExit => True
  | Outcome.handlerJump => True
  | Outcome.running => False

/-- The submission is reported pending; the platform then collects the
transfer as completed with 10 bytes (it finished before the cancel took effect). -/
def pendingThenDone : Answers :=
  { syncTen with submitOk := false, submitErr := kNtErrorIoPending }

/-- The submission is reported pending and the operation is then collected as
failed with "operation aborted". -/
def pendingThenAborted : Answers :=
  { syncTen with submitOk := false, submitErr := kNtErrorIoPending, collectOk := false,
                 exchanged := 0, finalErr := kNtErrorOperationAborted }

/-- The submission is reported pending, `_check_cancel()` reports a masked
cancelation, and the platform nevertheless collects the transfer as completed
with 10 bytes. -/
def pendingCanceledDone : Answers :=
  { syncTen with submitOk := false, submitErr := kNtErrorIoPending,
                 cancel1 := CancelCheck.masked }

/-- The platform completes the submission at once with 10 bytes while a signal
is pending against the caller's mask (`__sig_get` would return 14) and a
cancelation is armed (`_check_cancel()` would report it). -/
def syncTenSignalPending : Answers :=
  { syncTen with sigGet1 := 14, sigGet2 := 14, cancel1 := CancelCheck.masked,
                 cancel2 := CancelCheck.masked, cancel3 := CancelCheck.masked,
                 relay1 := { result := some 1, seek := none },
                 relay2 := { result := some 1, seek := none } }

/-- Walks a trace with the completion event that is live, if any:
`CreateEvent` is only made when none is live and makes its result the live one;
a submission is made with the live event; `CloseHandle` closes the live event;
a signal is relayed only when none is live; and none is live at the end. -/
def eventDiscipline : Option Int → List Event → Bool
  | live, [] => live.isNone
  | live, Event.CreateEvent h :: es => live.isNone && eventDiscipline (some h) es
  | live, Event.ReadOrWriteFile _ _ ov :: es =>
    (live == some ov.hEvent) && eventDiscipline live es
  | live, Event.CloseHandle h :: es => (live == some h) && eventDiscipline none es
  | live, Event.__sig_relay _ _ _ _ :: es => live.isNone && eventDiscipline live es
  | live, Event.GetFileType _ :: es => eventDiscipline live es
  | live, Event.GetLastError _ :: es => eventDiscipline live es
  | live, Event.CancelIoEx _ _ :: es => eventDiscipline live es
  | live, Event._check_cancel _ :: es => eventDiscipline live es
  | live, Event.__sig_get _ _ :: es => eventDiscipline live es
  | live, Event.publish _ _ _ :: es => eventDiscipline live es
  | live, Event.WaitForSingleObject _ :: es => eventDiscipline live es
  | live, Event.unpublish :: es => eventDiscipline live es
  | live, Event.GetOverlappedResult _ _ _ :: es => eventDiscipline live es

/-- The events that must come right after `CancelIoEx(handle, overlap)`: the
blocking collection of the result of that operation, then the release of its
completion event. -/
def followsCancel (handle : Int) (overlap : NtOverlapped) : List Event → Bool
  | Event.GetOverlappedResult h ov wait :: Event.CloseHandle e :: _ =>
    (h == handle) && (ov == overlap) && wait && (e == overlap.hEvent)
  | _ => false

/-- Every cancel of the trace is followed at once by the blocking collection
of the cancelled operation and then by the release of its completion event. -/
def cancelWaitRelease : List Event → Bool
  | [] => true
  | Event.CancelIoEx h ov :: es => followsCancel h ov es && cancelWaitRelease es
  | _ :: es => cancelWaitRelease es

/-- The submission is reported pending on a blocking descriptor, with no
cancelation armed and no signal pending: the thread waits, and the transfer
then completes with 10 bytes. -/
def pendingWaitDone : Answers :=
  { syncTen with submitOk := false, submitErr := kNtErrorIoPending }

/-- The submission is reported pending on a blocking descriptor and
`_check_cancel()` acts on a deferred cancelation: the thread exits. -/
def pendingThreadExit : Answers :=
  { syncTen with submitOk := false, submitErr := kNtErrorIoPending,
                 cancel1 := CancelCheck.exits }

/-- The submission fails at once (it is not reported pending) with "operation
aborted"; a signal is then found pending, and its handler has no auto-restart
disposition. -/
def syncAbortedSignal : Answers :=
  { syncTen with submitOk := false, submitErr := kNtErrorOperationAborted, collectOk := false,
                 exchanged := 0, finalErr := kNtErrorOperationAborted, sigGet2 := 14,
                 relay2 := { result := some 1, seek := none } }

/-- A relay of the trace returned 1: a signal handler ran, and it has no
auto-restart disposition. -/
def interruptedBy (es : List Event) : Bool :=
  es.any fun e =>
    match e with
    | Event.__sig_relay _ _ _ r => r == some 1
    | _ => false

/-- No `_check_cancel()` of the trace reports a cancelation. -/
def noCancelObserved (es : List Event) : Bool :=
  es.all fun e =>
    match e with
    | Event._check_cancel r => r == CancelCheck.fine
    | _ => true

/-- Every relay of the trace returns to the function. -/
def handlersReturn (es : List Event) : Bool :=
  es.all fun e =>
    match e with
    | Event.__sig_relay _ _ _ r => r.isSome
    | _ => true

/-- The submission is reported pending on a blocking descriptor, a signal (14)
is found pending and the operation is cancelled and collected as failed with
"operation aborted"; the relayed handler has auto-restart disposition (the
relay returns 2). -/
def pendingSignalRestart : Answers :=
  { syncTen with submitOk := false, submitErr := kNtErrorIoPending, sigGet1 := 14,
                 collectOk := false, exchanged := 0, finalErr := kNtErrorOperationAborted,
                 relay1 := { result := some 2, seek := none } }

/-- As `pendingSignalRestart`, with a handler that has no auto-restart
disposition (the relay returns 1). -/
def pendingSignalInterrupt : Answers :=
  { pendingSignalRestart with relay1 := { result := some 1, seek := none } }

/-- As `pendingSignalRestart`, with a handler that itself reads 50 bytes from
the descriptor and so leaves its cursor at 150. -/
def pendingSignalHandlerReads : Answers :=
  { pendingSignalRestart with relay1 := { result := some 2, seek := some 150 } }

/-- The submissions of a trace, in order. -/
def submissions (es : List Event) : List Event :=
  es.filter Event.isSubmit

/-- The event is a dequeue that found a signal: `__sig_get` returned non-zero. -/
def Event.isSignalFound : Event → Bool
  | Event.__sig_get _ sig => sig != 0
  | _ => false

/-- The event publishes the blocked-on-i/o state of the thread. -/
def Event.isPublish : Event → Bool
  | Event.publish _ _ _ => true
  | _ => false

/-- The event suspends the thread on the completion event. -/
def Event.isWait : Event → Bool
  | Event.WaitForSingleObject _ => true
  | _ => false

/-- An in-flight record: handle 3, completion event 7, offset 0. -/
def sampleResources : ReadwriteResources :=
  { handle := 3, overlap := { hEvent := 7, Pointer := 0 } }

/-- The submission completes at once with 10 bytes; were a signal relayed in
this pass, its handler would run and return with auto-restart disposition. -/
def syncTenHandlerRuns : Answers :=
  { syncTen with relay1 := { result := some 2, seek := none } }

/-- The submission fails at once with the platform error 5 (access denied). -/
def syncFailsDenied : Answers :=
  { syncTen with submitOk := false, submitErr := 5, collectOk := false, exchanged := 0,
                 finalErr := 5 }

/-- A regular file on disk, blocking, with its cursor at the largest value of
`ssize_t`, `2^63 - 1`. -/
def regularFileMax : Fd :=
  { kind := FdKind.kFdFile, flags := 0, pointer := 9223372036854775807 }

/-- The first pass of a transfer is aborted because of a pending signal whose
handler has auto-restart disposition (its relay returns 2): the transfer fails
and the platform reports "operation aborted" at line 178, and either

* the submission is pending on a blocking descriptor, the signal is found at
  line 129, the transfer is cancelled, and the relay of line 162 returns 2; or
* the submission is pending on a blocking descriptor, no signal is found at
  line 129, the thread waits, the transfer is aborted by another thread, and
  the signal is found at line 187, whose relay returns 2; or
* the submission is not pending and it, or the collection of its result, fails
  at once, and the signal is found at line 187, whose relay returns 2; or
* as in the first case, but the relay of line 162 calls no handler (it
  returns 0), and a signal is then found at line 187, whose relay returns 2;

with no thread cancelation observed by the `_check_cancel()` calls made. -/
def abortedWithAutoRestart (flags : Nat) (a : Answers) : Prop :=
  a.finalErr = kNtErrorOperationAborted
  ∧ ((reportedPending a = true ∧ flags &&& _O_NONBLOCK = 0 ∧ a.cancel1 = CancelCheck.fine
        ∧ a.sigGet1 ≠ 0 ∧ a.collectOk = false
        ∧ a.relay1.result = some 2 ∧ a.cancel2 = CancelCheck.fine)
     ∨ (reportedPending a = true ∧ flags &&& _O_NONBLOCK = 0 ∧ a.cancel1 = CancelCheck.fine
        ∧ a.sigGet1 = 0 ∧ a.collectOk = false
        ∧ a.sigGet2 ≠ 0 ∧ a.relay2.result = some 2 ∧ a.cancel3 = CancelCheck.fine)
     ∨ (reportedPending a = false ∧ (a.submitOk = false ∨ a.collectOk = false)
        ∧ a.sigGet2 ≠ 0 ∧ a.relay2.result = some 2 ∧ a.cancel3 = CancelCheck.fine)
     ∨ (reportedPending a = true ∧ flags &&& _O_NONBLOCK = 0 ∧ a.cancel1 = CancelCheck.fine
        ∧ a.sigGet1 ≠ 0 ∧ a.collectOk = false
        ∧ a.relay1.result = some 0 ∧ a.cancel2 = CancelCheck.fine
        ∧ a.sigGet2 ≠ 0 ∧ a.relay2.result = some 2 ∧ a.cancel3 = CancelCheck.fine))

instance (flags : Nat) (a : Answers) : Decidable (abortedWithAutoRestart flags a) := by
  unfold abortedWithAutoRestart
  infer_instance

/-- The submission is reported pending on a blocking descriptor and no signal
is pending: the thread waits; the transfer is then aborted by another thread
that sent a signal (14), which is found at line 187; its handler has
auto-restart disposition and itself reads 50 bytes from the descriptor, leaving
its cursor at 150. -/
def waitAbortedHandlerReads : Answers :=
  { syncTen with submitOk := false, submitErr := kNtErrorIoPending, collectOk := false,
                 exchanged := 0, finalErr := kNtErrorOperationAborted, sigGet2 := 14,
                 relay2 := { result := some 2, seek := some 150 } }

/-- The submission fails at once with "operation aborted" and a signal (14) is
found at line 187; its handler has auto-restart disposition. -/
def syncAbortedSignalRestart : Answers :=
  { syncTen with submitOk := false, submitErr := kNtErrorOperationAborted, collectOk := false,
                 exchanged := 0, finalErr := kNtErrorOperationAborted, sigGet2 := 14,
                 relay2 := { result := some 2, seek := none } }

end ReadwriteNt

/-! # Verification of `net/http/parsehttprequest.c`

`ParseHttpRequest` is a byte-at-a-time state machine over the first
`MIN(n, LIMIT)` bytes of the buffer `p`; its state lives in `struct HttpRequest`
so that a call can resume where the previous one stopped.  A buffer is a list
of bytes; the bytes read by the `for` loop, `p[r->i]` for `r->i < n`, are the
elements of `(p.take n).drop r.i` in order (the caller passes `n` no larger
than the buffer).  `c = p[r->i] & 0xff` is the byte itself.
-/

namespace Http

/-- Line 29: `#define LIMIT (SHRT_MAX - 1)`. -/
def LIMIT : Nat := 32766

/-- Line 31: the states of the parser. -/
inductive ParserState
  | START
  | METHOD
  | URI
  | VERSION
  | HKEY
  | HSEP
  | HVAL
  | CR1
  | LF1
  | LF2
  deriving DecidableEq, Repr

/-- Modelled from the spec: `struct HttpRequestSlice` of net/http/http.h, the
bounds `a` (first byte) and `b` (one past the last byte) of a part of the
message. -/
structure HttpRequestSlice where
  a : Nat
  b : Nat
  deriving DecidableEq, Repr

/-- Modelled from the spec: the fields of `struct HttpRequest` of
net/http/http.h that the parser and its tests use.  `headers` is the array
`headers[kHttpHeadersMax]`, indexed by the result of `GetHttpHeader`. -/
structure HttpRequest where
  i : Nat
  t : ParserState
  a : Nat
  h : Int
  method : Int
  uri : HttpRequestSlice
  version : HttpRequestSlice
  headers : Int → HttpRequestSlice

/-- Lines 36-38: `memset(r, 0, sizeof(*r))`. -/
def InitHttpRequest : HttpRequest :=
  { i := 0, t := ParserState.START, a := 0, h := 0, method := 0,
    uri := { a := 0, b := 0 }, version := { a := 0, b := 0 },
    headers := fun _ => { a := 0, b := 0 } }

/-- What `ParseHttpRequest` returns: an `int` value, or the result of
`ebadmsg()`, which is -1 with errno set to EBADMSG. -/
inductive Ret
  | value (rc : Int)
  | ebadmsg
  deriving DecidableEq, Repr

/-- The `n` bytes of the buffer that start at `p + a`. -/
def bytesAt (p : List UInt8) (a n : Nat) : List UInt8 :=
  (p.drop a).take n

/-- How the body of the `for` loop ends for one byte. -/
inductive Flow
  /-- `break`: the loop goes on with `++r->i` -/
  | next (r : HttpRequest)
  /-- `return ++r->i` -/
  | ret (rc : Int) (r : HttpRequest)
  /-- `return ebadmsg()` -/
  | bad (r : HttpRequest)

/-- Lines 55-64: `case METHOD`. -/
def caseMETHOD (GetHttpMethod : List UInt8 → Int) (p : List UInt8) (c : UInt8)
    (r : HttpRequest) : Flow :=
  if c = 32 then
    if GetHttpMethod (bytesAt p r.a (r.i - r.a)) ≠ -1 then
      Flow.next { r with method := GetHttpMethod (bytesAt p r.a (r.i - r.a)),
                         uri := { r.uri with a := r.i + 1 },
                         t := ParserState.URI }
    else
      Flow.bad { r with method := GetHttpMethod (bytesAt p r.a (r.i - r.a)) }
  else Flow.next r

/-- Lines 114-122: `case HVAL`. -/
def caseHVAL (c : UInt8) (r : HttpRequest) : Flow :=
  if c = 13 ∨ c = 10 then
    Flow.next { r with headers := if r.h ≠ -1 then
                                    Function.update r.headers r.h { a := r.a, b := r.i }
                                  else r.headers,
                       t := if c = 13 then ParserState.CR1 else ParserState.LF1 }
  else Flow.next r

/-- Lines 46-130: the body of the `for` loop for the byte `c = p[r->i]`; the
bytes are 13 (CR), 10 (LF), 32 (space), 9 (tab) and 58 (colon).  The table
lookups `GetHttpMethod` and `GetHttpHeader` (gperf tables that are not among
the sources) are parameters; they return -1 for a token they do not know. -/
def body (GetHttpMethod GetHttpHeader : List UInt8 → Int) (p : List UInt8) (c : UInt8)
    (r : HttpRequest) : Flow :=
  match r.t with
  | ParserState.START =>
    if c = 13 ∨ c = 10 then Flow.next { r with a := r.a + 1 }
    else caseMETHOD GetHttpMethod p c { r with t := ParserState.METHOD }
  | ParserState.METHOD => caseMETHOD GetHttpMethod p c r
  | ParserState.URI =>
    if c = 32 ∨ c = 13 ∨ c = 10 then
      if r.i = r.uri.a then Flow.bad r
      else if c = 32 then
        Flow.next { r with uri := { r.uri with b := r.i },
                           version := { r.version with a := r.i + 1 },
                           t := ParserState.VERSION }
      else if c = 13 then
        Flow.next { r with uri := { r.uri with b := r.i }, t := ParserState.CR1 }
      else
        Flow.next { r with uri := { r.uri with b := r.i }, t := ParserState.LF1 }
    else Flow.next r
  | ParserState.VERSION =>
    if c = 13 ∨ c = 10 then
      Flow.next { r with version := { r.version with b := r.i },
                         t := if c = 13 then ParserState.CR1 else ParserState.LF1 }
    else Flow.next r
  | ParserState.CR1 =>
    if c ≠ 10 then Flow.bad r else Flow.next { r with t := ParserState.LF1 }
  | ParserState.LF1 =>
    if c = 13 then Flow.next { r with t := ParserState.LF2 }
    else if c = 10 then Flow.ret (r.i + 1) { r with i := r.i + 1 }
    else if c = 58 then Flow.bad r
    else if c = 32 ∨ c = 9 then Flow.bad r
    else Flow.next { r with a := r.i, t := ParserState.HKEY }
  | ParserState.HKEY =>
    if c = 58 then
      Flow.next { r with h := GetHttpHeader (bytesAt p r.a (r.i - r.a)),
                         t := ParserState.HSEP }
    else Flow.next r
  | ParserState.HSEP =>
    if c = 32 ∨ c = 9 then Flow.next r
    else caseHVAL c { r with a := r.i, t := ParserState.HVAL }
  | ParserState.HVAL => caseHVAL c r
  | ParserState.LF2 =>
    if c = 10 then Flow.ret (r.i + 1) { r with i := r.i + 1 } else Flow.bad r

/-- Lines 45-131: the `for` loop over the bytes still to read; `none` when the
loop runs to its end, `some` when the body returns. -/
def scan (GetHttpMethod GetHttpHeader : List UInt8 → Int) (p : List UInt8) :
    List UInt8 → HttpRequest → Option Ret × HttpRequest
  | [], r => (none, r)
  | c :: cs, r =>
    match body GetHttpMethod GetHttpHeader p c r with
    | Flow.next r1 => scan GetHttpMethod GetHttpHeader p cs { r1 with i := r1.i + 1 }
    | Flow.ret rc r1 => (some (Ret.value rc), r1)
    | Flow.bad r1 => (some Ret.ebadmsg, r1)

/-- Lines 43-137: `ParseHttpRequest(r, p, n)`, the value returned and the
parser state left in `*r`. -/
def ParseHttpRequest (GetHttpMethod GetHttpHeader : List UInt8 → Int) (r : HttpRequest)
    (p : List UInt8) (n : Nat) : Ret × HttpRequest :=
  match scan GetHttpMethod GetHttpHeader p ((p.take (min n LIMIT)).drop r.i) r with
  | (some ret, r1) => (ret, r1)
  | (none, r1) => if r1.i < LIMIT then (Ret.value 0, r1) else (Ret.ebadmsg, r1)

/-- The bytes that a slice denotes in the message `m` (the `slice` helper of
the tests). -/
def sliceOf (m : List UInt8) (s : HttpRequestSlice) : List UInt8 :=
  (m.drop s.a).take (s.b - s.a)

/-- The bytes of an ASCII string. -/
def bytes (s : String) : List UInt8 :=
  s.toList.map Char.toUInt8

/-- Modelled from the spec: a stand-in for the gperf table behind
`GetHttpMethod`, knowing GET (`kHttpGet`, 1) and POST (`kHttpPost`, 3). -/
def sampleGetHttpMethod (tok : List UInt8) : Int :=
  if tok = bytes "GET" then 1 else if tok = bytes "POST" then 3 else -1

/-- Modelled from the spec: a stand-in for the gperf table behind
`GetHttpHeader`, knowing Host (0), Content-Length (1), Etag (2) and
User-Agent (3). -/
def sampleGetHttpHeader (tok : List UInt8) : Int :=
  if tok = bytes "Host" then 0
  else if tok = bytes "Content-Length" then 1
  else if tok = bytes "Etag" then 2
  else if tok = bytes "User-Agent" then 3
  else -1

/-- `ParseHttpRequest` on a freshly initialised parser, given the whole
message. -/
def parse (GetHttpMethod GetHttpHeader : List UInt8 → Int) (m : List UInt8) :
    Ret × HttpRequest :=
  ParseHttpRequest GetHttpMethod GetHttpHeader InitHttpRequest m m.length

/-! ## Well-formed messages -/

/-- The bytes for which the parser stays in its state `t` with nothing but the
position changed. -/
def idle (t : ParserState) (c : UInt8) : Prop :=
  match t with
  | ParserState.METHOD => c ≠ 32
  | ParserState.URI => c ≠ 32 ∧ c ≠ 13 ∧ c ≠ 10
  | ParserState.VERSION => c ≠ 13 ∧ c ≠ 10
  | ParserState.HKEY => c ≠ 58
  | ParserState.HSEP => c = 32 ∨ c = 9
  | ParserState.HVAL => c ≠ 13 ∧ c ≠ 10
  | _ => False

/-- The end of a line: CR LF, or a bare LF. -/
def eol (crlf : Bool) : List UInt8 :=
  if crlf then [13, 10] else [10]

/-- A request line `M SP U SP V` or, without version (HTTP/0.9), `M SP U`,
and the kind of line end that follows it. -/
structure RequestLine where
  method : List UInt8
  uri : List UInt8
  version : Option (List UInt8)
  crlf : Bool

/-- The part of the request line that follows the uri. -/
def versionPart : Option (List UInt8) → List UInt8
  | some v => 32 :: v
  | none => []

/-- The bytes of a request line, line end included. -/
def RequestLine.encode (l : RequestLine) : List UInt8 :=
  l.method ++ 32 :: (l.uri ++ (versionPart l.version ++ eol l.crlf))

/-- The conditions on a request line: `GetHttpMethod` knows the method, which
contains no space and does not start with CR or LF; the uri is not empty and
contains no space, CR or LF; the version contains no CR or LF. -/
def RequestLine.wellFormed (GetHttpMethod : List UInt8 → Int) (l : RequestLine) : Prop :=
  GetHttpMethod l.method ≠ -1
  ∧ (∀ c ∈ l.method, c ≠ 32)
  ∧ (∀ c ∈ l.method.head?, c ≠ 13 ∧ c ≠ 10)
  ∧ l.uri ≠ []
  ∧ (∀ c ∈ l.uri, c ≠ 32 ∧ c ≠ 13 ∧ c ≠ 10)
  ∧ (∀ v ∈ l.version, ∀ c ∈ v, c ≠ 13 ∧ c ≠ 10)

/-- A header line `Name ":" optional-spaces-and-tabs Value` and the kind of
line end that follows it. -/
structure HeaderLine where
  name : List UInt8
  ows : List UInt8
  value : List UInt8
  crlf : Bool
  deriving DecidableEq

/-- The bytes of a header line, line end included. -/
def HeaderLine.encode (l : HeaderLine) : List UInt8 :=
  l.name ++ 58 :: (l.ows ++ (l.value ++ eol l.crlf))

/-- The conditions on a header line: the name has a first byte, which is not
a space, a tab, a colon, CR or LF, and contains no colon; the optional
whitespace is spaces and tabs; the value contains no CR or LF. -/
def HeaderLine.wellFormed (l : HeaderLine) : Prop :=
  (∀ c ∈ l.name.head?, c ≠ 32 ∧ c ≠ 9 ∧ c ≠ 58 ∧ c ≠ 13 ∧ c ≠ 10)
  ∧ l.name ≠ []
  ∧ (∀ c ∈ l.name, c ≠ 58)
  ∧ (∀ c ∈ l.ows, c = 32 ∨ c = 9)
  ∧ (∀ c ∈ l.value, c ≠ 13 ∧ c ≠ 10)

/-- The byte is a space or a tab. -/
def isBlank (c : UInt8) : Bool :=
  c == 32 || c == 9

/-- A value with its leading spaces and tabs removed. -/
def stripBlanks (v : List UInt8) : List UInt8 :=
  v.dropWhile isBlank

/-- The bytes of the header lines, in order. -/
def encodeLines : List HeaderLine → List UInt8
  | [] => []
  | l :: ls => l.encode ++ encodeLines ls

/-- The bytes of a request: request line, header lines, empty line. -/
def encodeRequest (rl : RequestLine) (hs : List HeaderLine) (crlf : Bool) : List UInt8 :=
  rl.encode ++ (encodeLines hs ++ eol crlf)

/-- Where the recorded value of a header line starts, for a line that starts at
position `i`: after the name, the colon and the spaces and tabs that follow. -/
def HeaderLine.valueStart (l : HeaderLine) (i : Nat) : Nat :=
  i + l.name.length + 1 + l.ows.length + (l.value.takeWhile isBlank).length

/-- Where the value of a header line ends, for a line that starts at position
`i`. -/
def HeaderLine.valueEnd (l : HeaderLine) (i : Nat) : Nat :=
  i + l.name.length + 1 + l.ows.length + l.value.length

/-- Each header that `GetHttpHeader` knows occurs at most once among the
lines. -/
def distinctHeaders (GetHttpHeader : List UInt8 → Int) (hs : List HeaderLine) : Prop :=
  hs.Pairwise fun l1 l2 =>
    GetHttpHeader l1.name ≠ -1 → GetHttpHeader l1.name ≠ GetHttpHeader l2.name

instance (GetHttpMethod : List UInt8 → Int) (l : RequestLine) :
    Decidable (l.wellFormed GetHttpMethod) := by
  unfold RequestLine.wellFormed
  infer_instance

instance (l : HeaderLine) : Decidable l.wellFormed := by
  unfold HeaderLine.wellFormed
  infer_instance

instance (GetHttpHeader : List UInt8 → Int) (hs : List HeaderLine) :
    Decidable (distinctHeaders GetHttpHeader hs) := by
  unfold distinctHeaders
  infer_instance

/-! ## Moving a message by `k` positions -/

/-- A position of the message moved by `k`; the position 0 of the zeroed
parser state, which stands for "not recorded", is left alone. -/
def shiftIdx (k x : Nat) : Nat :=
  if x = 0 then 0 else x + k

/-- A slice moved by `k` positions. -/
def shiftSlice (k : Nat) (s : HttpRequestSlice) : HttpRequestSlice :=
  { a := shiftIdx k s.a, b := shiftIdx k s.b }

/-- The parser state moved by `k` positions: the position `i` and the token
start `a` advance by `k`, and so does every recorded end of a slice. -/
def shiftReq (k : Nat) (r : HttpRequest) : HttpRequest :=
  { r with
    i := r.i + k,
    a := r.a + k,
    uri := shiftSlice k r.uri,
    version := shiftSlice k r.version,
    headers := shiftSlice k ∘ r.headers }

/-- The outcome of one step moved by `k` positions. -/
def shiftFlow (k : Nat) : Flow → Flow
  | Flow.next r => Flow.next (shiftReq k r)
  | Flow.ret rc r => Flow.ret (rc + k) (shiftReq k r)
  | Flow.bad r => Flow.bad (shiftReq k r)

/-- What holds of the parser state throughout a call on a freshly initialised
parser: past the method the position is positive, the start of the slice or of
the token being read is positive, and a slice whose end is recorded has its
start recorded. -/
def positive (r : HttpRequest) : Prop :=
  (r.t ≠ ParserState.START → r.t ≠ ParserState.METHOD → 1 ≤ r.i)
  ∧ (r.t = ParserState.URI → 1 ≤ r.uri.a)
  ∧ (r.t = ParserState.VERSION → 1 ≤ r.version.a)
  ∧ (r.t = ParserState.HVAL → 1 ≤ r.a)
  ∧ (r.uri.b ≠ 0 → r.uri.a ≠ 0)
  ∧ (r.version.b ≠ 0 → r.version.a ≠ 0)
  ∧ ∀ h, (r.headers h).b ≠ 0 → (r.headers h).a ≠ 0

/-! ## Messages of the tests -/

/-- The request line of `testSomeHeaders`. -/
def someHeadersLine : RequestLine :=
  { method := bytes "POST", uri := bytes "/foo?bar%20hi", version := some (bytes "HTTP/1.0"),
    crlf := true }

/-- The header lines of `testSomeHeaders`. -/
def someHeadersLines : List HeaderLine :=
  [{ name := bytes "Host", ows := [32], value := bytes "foo.example", crlf := true },
   { name := bytes "Content-Length", ows := [32], value := bytes "0", crlf := true }]

/-- The request line of `testLineFolding_isRejected` and
`testEmptyHeaderName_isRejected`. -/
def userAgentLine : RequestLine :=
  { method := bytes "GET", uri := bytes "/foo?bar%20hi", version := some (bytes "HTTP/1.0"),
    crlf := true }

/-- The header line of `testLineFolding_isRejected` and
`testEmptyHeaderName_isRejected`. -/
def userAgentLines : List HeaderLine :=
  [{ name := bytes "User-Agent", ows := [32], value := bytes "hi", crlf := true }]

end Http

namespace ReadwriteNt

/-! ## Lemmas -/

theorem relay_quiet (c : Call) (p sig : Int) (r : RelayAnswer) (cc : CancelCheck)
    (h : r.seek = none) : (relay c p sig r cc).pointer = p := by
  unfold relay
  split <;> simp [h]

theorem relay_ended_ret (c : Call) (p sig : Int) (r : RelayAnswer) (cc : CancelCheck)
    (rc : Int) (e : Option Errno) (h : (relay c p sig r cc).ended = some (Outcome.ret rc e)) :
    rc = -1 := by
  unfold relay at h
  split at h
  · simp at h
  · cases cc <;> simp at h
    exact h.1.symm

theorem failed_cursor (c : Call) (s : Frame) (hwc : Int) (a : Answers)
    (h2 : a.relay2.seek = none) :
    (failed c s hwc a).frame.pointer
      = cursorAfter c.pwriting c.seekable c.offset s.pointer (failed c s hwc a).step := by
  unfold failed
  split_ifs with h1 h3 h4 h5 h6 <;> simp [cursorAfter, relay_quiet, h2]
  · cases hr : (relay c s.pointer a.sigGet2 a.relay2 a.cancel3).ended with
    | none => simp; split_ifs <;> simp
    | some o =>
      cases o with
      | ret rc e => simp [relay_ended_ret _ _ _ _ _ _ _ hr]
      | _ => simp

theorem conclude_cursor (c : Call) (s : Frame) (ok : Bool) (hwc : Int) (a : Answers)
    (h2 : a.relay2.seek = none) :
    (conclude c s ok hwc a).frame.pointer
      = cursorAfter c.pwriting c.seekable c.offset s.pointer (conclude c s ok hwc a).step := by
  cases ok with
  | true => cases hp : c.pwriting <;> cases hs : c.seekable <;> simp [conclude, cursorAfter, hp, hs]
  | false => simpa [conclude] using failed_cursor c s hwc a h2

theorem reconcile_cursor (c : Call) (s : Frame) (ok : Bool) (a : Answers)
    (h : a.cursorUntouched) :
    (reconcile c s ok a).frame.pointer
      = cursorAfter c.pwriting c.seekable c.offset s.pointer (reconcile c s ok a).step := by
  unfold reconcile
  split_ifs with h1 h2
  · simp [cursorAfter]
  · simp only []
    split
    · next o hr =>
      cases o with
      | ret rc e => simp [cursorAfter, relay_ended_ret _ _ _ _ _ _ _ hr, relay_quiet, h.1]
      | _ => simp [cursorAfter, relay_quiet, h.1]
    · have := conclude_cursor c { s with pointer := (relay c s.pointer s.sig a.relay1 a.cancel2).pointer }
        ok (relay c s.pointer s.sig a.relay1 a.cancel2).handler_was_called a h.2
      simpa [relay_quiet, h.1] using this
  · exact conclude_cursor c s ok 0 a h.2

theorem attempt_cursor (c : Call) (s : Frame) (a : Answers) (h : a.cursorUntouched) :
    (attempt c s a).frame.pointer
      = cursorAfter c.pwriting c.seekable c.offset s.pointer (attempt c s a).step := by
  unfold attempt
  simp only []
  split_ifs with h1
  · simp [cursorAfter]
  · exact reconcile_cursor c _ _ a h

theorem loop_cursor (c : Call) (l : List Answers) :
    ∀ s : Frame, (∀ a ∈ l, a.cursorUntouched) →
      (loop c s l).pointer
        = cursorAfter c.pwriting c.seekable c.offset s.pointer (Step.done (loop c s l).outcome) := by
  induction l with
  | nil => intro s _; simp [loop, cursorAfter]
  | cons a rest ih =>
    intro s h
    have ha := attempt_cursor c s a (h a (List.mem_cons_self a rest))
    unfold loop
    split
    · next hs =>
      rw [hs] at ha
      simp only [cursorAfter] at ha
      have := ih (attempt c s a).frame (fun b hb => h b (List.mem_cons_of_mem a hb))
      simpa [ha] using this
    · next o hs =>
      rw [hs] at ha
      simpa using ha

theorem sys_espipe (f : Fd) (size : Nat) (offset handle : Int) (waitmask : Nat) (env : Env)
    (h : (offset != -1 && !isSeekable f env.fileType) = true) :
    sys_readwrite_nt f size offset handle waitmask env
      = { events := probe f handle, pointer := f.pointer,
          outcome := Outcome.ret (-1) (some Errno.ESPIPE) } := by
  unfold sys_readwrite_nt
  simp only [h, if_true, probe]

theorem sys_loop (f : Fd) (size : Nat) (offset handle : Int) (waitmask : Nat) (env : Env)
    (h : (offset != -1 && !isSeekable f env.fileType) = false) :
    sys_readwrite_nt f size offset handle waitmask env
      = { events := probe f handle ++
            (loop (entryCall f size offset handle waitmask env.fileType) (entryFrame f)
              env.attempts).events,
          pointer := (loop (entryCall f size offset handle waitmask env.fileType) (entryFrame f)
              env.attempts).pointer,
          outcome := (loop (entryCall f size offset handle waitmask env.fileType) (entryFrame f)
              env.attempts).outcome } := by
  unfold sys_readwrite_nt
  simp only [h, probe, entryCall, entryFrame]
  rfl

theorem relay_events_not_platform (c : Call) (p sig : Int) (r : RelayAnswer) (cc : CancelCheck) :
    ∀ e ∈ (relay c p sig r cc).events, e.isPlatform = false := by
  unfold relay
  split <;> simp [Event.isPlatform]

theorem failed_events_not_platform (c : Call) (s : Frame) (hwc : Int) (a : Answers) :
    ∀ e ∈ (failed c s hwc a).events, e.isPlatform = false := by
  have hr := relay_events_not_platform c s.pointer a.sigGet2 a.relay2 a.cancel3
  unfold failed
  split_ifs <;> simp [Event.isPlatform]
  exact hr

theorem conclude_events_not_platform (c : Call) (s : Frame) (ok : Bool) (hwc : Int) (a : Answers) :
    ∀ e ∈ (conclude c s ok hwc a).events, e.isPlatform = false := by
  cases ok with
  | true => simp [conclude]
  | false => simpa [conclude] using failed_events_not_platform c s hwc a

theorem reconcile_events_not_platform (c : Call) (s : Frame) (ok : Bool) (a : Answers) :
    ∀ e ∈ (reconcile c s ok a).events, e.isPlatform = false := by
  have hr := relay_events_not_platform c s.pointer s.sig a.relay1 a.cancel2
  unfold reconcile
  split_ifs
  · simp
  · simp only []
    split
    · exact hr
    · intro e he
      simp only [List.mem_append] at he
      rcases he with he | he
      · exact hr e he
      · exact conclude_events_not_platform _ _ _ _ _ e he
  · exact conclude_events_not_platform _ _ _ _ _

theorem countP_zero_of_not_platform (P : Event → Bool)
    (hP : ∀ e, P e = true → e.isPlatform = true) (l : List Event)
    (h : ∀ e ∈ l, e.isPlatform = false) : l.countP P = 0 := by
  rw [List.countP_eq_zero]
  intro e he hpe
  have := hP e hpe
  rw [h e he] at this
  exact Bool.noConfusion this

theorem isCancel_platform (e : Event) (h : e.isCancel = true) : e.isPlatform = true := by
  cases e <;> simp_all [Event.isCancel, Event.isPlatform]

theorem isSubmit_platform (e : Event) (h : e.isSubmit = true) : e.isPlatform = true := by
  cases e <;> simp_all [Event.isSubmit, Event.isPlatform]

theorem isCreate_platform (e : Event) (h : e.isCreate = true) : e.isPlatform = true := by
  cases e <;> simp_all [Event.isCreate, Event.isPlatform]

theorem isClose_platform (e : Event) (h : e.isClose = true) : e.isPlatform = true := by
  cases e <;> simp_all [Event.isClose, Event.isPlatform]

theorem loop_done (c : Call) (s : Frame) (a : Answers) (rest : List Answers) (o : Outcome)
    (h : (attempt c s a).step = Step.done o) :
    loop c s (a :: rest)
      = { events := (attempt c s a).events, pointer := (attempt c s a).frame.pointer,
          outcome := o } := by
  rw [loop]
  simp only [h]

theorem loop_restart (c : Call) (s : Frame) (a : Answers) (rest : List Answers)
    (h : (attempt c s a).step = Step.restart) :
    loop c s (a :: rest)
      = { events := (attempt c s a).events ++ (loop c (attempt c s a).frame rest).events,
          pointer := (loop c (attempt c s a).frame rest).pointer,
          outcome := (loop c (attempt c s a).frame rest).outcome } := by
  rw [loop]
  simp only [h]

theorem failed_eagained (c : Call) (s : Frame) (hwc : Int) (a : Answers)
    (h : s.eagained = true) :
    (failed c s hwc a).step
      = Step.done (if a.finalErr = kNtErrorOperationAborted then
          Outcome.ret (-1) (some Errno.EAGAIN) else Outcome.ret (-2) none) := by
  unfold failed
  split_ifs <;> simp_all

theorem reconcile_eagained_done (c : Call) (s : Frame) (ok : Bool) (a : Answers)
    (h : s.eagained = true) : ∃ o, (reconcile c s ok a).step = Step.done o := by
  unfold reconcile
  split_ifs
  · exact ⟨_, rfl⟩
  · simp only []
    split
    · exact ⟨_, rfl⟩
    · cases ok with
      | true => exact ⟨_, rfl⟩
      | false => exact ⟨_, by simp only [conclude]; exact failed_eagained c _ _ a h⟩
  · cases ok with
    | true => exact ⟨_, rfl⟩
    | false => exact ⟨_, by simp only [conclude]; exact failed_eagained c _ _ a h⟩

theorem relay_passEnd (c : Call) (p sig : Int) (r : RelayAnswer) (cc : CancelCheck)
    (o : Outcome) (h : (relay c p sig r cc).ended = some o) : o.isPassEnd := by
  unfold relay at h
  split at h
  · simp at h
    subst h
    trivial
  · cases cc <;> simp at h <;> subst h <;> simp [Outcome.isPassEnd]

theorem failed_passEnd (c : Call) (s : Frame) (hwc : Int) (a : Answers) (o : Outcome)
    (h : (failed c s hwc a).step = Step.done o) : o.isPassEnd := by
  have hr := relay_passEnd c s.pointer a.sigGet2 a.relay2 a.cancel3
  unfold failed at h
  split_ifs at h <;> simp at h
  · subst h; simp [Outcome.isPassEnd]
  · split at h
    · next o2 ho =>
      simp only [Step.done.injEq] at h
      subst h
      exact hr _ ho
    · split_ifs at h
      simp only [Step.done.injEq] at h
      subst h
      simp [Outcome.isPassEnd]
  · subst h; simp [Outcome.isPassEnd]
  · subst h; simp [Outcome.isPassEnd]

theorem conclude_passEnd (c : Call) (s : Frame) (ok : Bool) (hwc : Int) (a : Answers)
    (o : Outcome) (h : (conclude c s ok hwc a).step = Step.done o) : o.isPassEnd := by
  cases ok with
  | true =>
    simp [conclude] at h
    subst h
    simp [Outcome.isPassEnd]
  | false => exact failed_passEnd c s hwc a o (by simpa [conclude] using h)

theorem reconcile_passEnd (c : Call) (s : Frame) (ok : Bool) (a : Answers) (o : Outcome)
    (h : (reconcile c s ok a).step = Step.done o) : o.isPassEnd := by
  have hr := relay_passEnd c s.pointer s.sig a.relay1 a.cancel2
  unfold reconcile at h
  split_ifs at h
  · simp at h
    subst h
    simp [Outcome.isPassEnd]
  · simp only [] at h
    split at h
    · next o2 ho =>
      simp only [Step.done.injEq] at h
      subst h
      exact hr _ ho
    · exact conclude_passEnd _ _ _ _ _ o h
  · exact conclude_passEnd _ _ _ _ _ o h

theorem attempt_passEnd (c : Call) (s : Frame) (a : Answers) (o : Outcome)
    (h : (attempt c s a).step = Step.done o) : o.isPassEnd := by
  unfold attempt at h
  simp only [] at h
  split_ifs at h
  · simp at h
    subst h
    trivial
  · exact reconcile_passEnd _ _ _ _ o h

theorem attempt_not_running (c : Call) (s : Frame) (a : Answers) :
    (attempt c s a).step ≠ Step.done Outcome.running :=
  fun h => attempt_passEnd c s a _ h

theorem reconcile_no_signal (c : Call) (s : Frame) (ok : Bool) (a : Answers)
    (hc : s.canceled = false) (hsig : s.sig = 0) :
    reconcile c s ok a = conclude c s ok 0 a := by
  simp [reconcile, hc, hsig]

theorem failed_restart_frame (c : Call) (s : Frame) (hwc : Int) (a : Answers)
    (h : (failed c s hwc a).step = Step.restart) :
    s.eagained = false ∧ (failed c s hwc a).frame.eagained = s.eagained
    ∧ (failed c s hwc a).frame.canceled = s.canceled := by
  unfold failed at h ⊢
  split_ifs at h ⊢ <;> simp_all

theorem conclude_restart_frame (c : Call) (s : Frame) (ok : Bool) (hwc : Int) (a : Answers)
    (h : (conclude c s ok hwc a).step = Step.restart) :
    s.eagained = false ∧ (conclude c s ok hwc a).frame.eagained = s.eagained
    ∧ (conclude c s ok hwc a).frame.canceled = s.canceled := by
  cases ok with
  | true => simp [conclude] at h
  | false => simpa [conclude] using failed_restart_frame c s hwc a (by simpa [conclude] using h)

theorem reconcile_restart_frame (c : Call) (s : Frame) (ok : Bool) (a : Answers)
    (h : (reconcile c s ok a).step = Step.restart) :
    (reconcile c s ok a).frame.eagained = false ∧ (reconcile c s ok a).frame.canceled = false := by
  by_cases h1 : s.canceled = true
  · simp [reconcile, h1] at h
  · have h1f : s.canceled = false := by simpa using h1
    by_cases h2 : s.sig = 0
    · rw [reconcile_no_signal c s ok a h1f h2] at h ⊢
      obtain ⟨q1, q2, q3⟩ := conclude_restart_frame c s ok 0 a h
      exact ⟨q2.trans q1, q3.trans h1f⟩
    · cases hr : (relay c s.pointer s.sig a.relay1 a.cancel2).ended with
      | some o => simp [reconcile, h1f, h2, hr] at h
      | none =>
        have hrec : reconcile c s ok a
            = { events := (relay c s.pointer s.sig a.relay1 a.cancel2).events
                  ++ (conclude c ⟨s.sig, s.eagained, s.canceled,
                        (relay c s.pointer s.sig a.relay1 a.cancel2).pointer⟩ ok
                      (relay c s.pointer s.sig a.relay1 a.cancel2).handler_was_called a).events,
                frame := (conclude c ⟨s.sig, s.eagained, s.canceled,
                        (relay c s.pointer s.sig a.relay1 a.cancel2).pointer⟩ ok
                      (relay c s.pointer s.sig a.relay1 a.cancel2).handler_was_called a).frame,
                step := (conclude c ⟨s.sig, s.eagained, s.canceled,
                        (relay c s.pointer s.sig a.relay1 a.cancel2).pointer⟩ ok
                      (relay c s.pointer s.sig a.relay1 a.cancel2).handler_was_called a).step } := by
          simp [reconcile, h1f, h2, hr]
        rw [hrec] at h ⊢
        obtain ⟨q1, q2, q3⟩ := conclude_restart_frame c _ ok _ a h
        exact ⟨q2.trans q1, q3.trans h1f⟩

/-- At every jump to `RestartOperation` the locals `eagained` and `canceled`
are false: the passes that set them end the call. -/
theorem attempt_restart_frame (c : Call) (s : Frame) (a : Answers)
    (h : (attempt c s a).step = Step.restart) :
    (attempt c s a).frame.eagained = false ∧ (attempt c s a).frame.canceled = false := by
  unfold attempt at h ⊢
  simp only [] at h ⊢
  split_ifs at h ⊢
  exact reconcile_restart_frame c _ _ a h

theorem settle_discipline (c : Call) (s : Frame) (a : Answers) (tail : List Event) :
    eventDiscipline none ((settle c s a).events ++ tail) = eventDiscipline none tail := by
  cases hso : a.submitOk <;> by_cases hpe : a.submitErr = kNtErrorIoPending <;>
    by_cases hnb : c.flags &&& _O_NONBLOCK = 0 <;> cases hc : a.cancel1 <;>
    by_cases hsg : a.sigGet1 = 0 <;>
    simp [settle, whenPending, reportedPending, UnwindReadwrite, eventDiscipline, hso, hpe, hnb,
      hc, hsg]

theorem discipline_not_platform (l tail : List Event) (h : ∀ e ∈ l, e.isPlatform = false) :
    eventDiscipline none (l ++ tail) = eventDiscipline none tail := by
  induction l with
  | nil => rfl
  | cons e l ih =>
    have he := h e (List.mem_cons_self e l)
    have hl := ih (fun x hx => h x (List.mem_cons_of_mem e hx))
    cases e <;> simp_all [eventDiscipline, Event.isPlatform]

theorem attempt_events (c : Call) (s : Frame) (a : Answers) :
    ∃ post, (attempt c s a).events = (settle c s a).events ++ post
      ∧ ∀ e ∈ post, e.isPlatform = false := by
  unfold attempt
  simp only []
  split_ifs
  · exact ⟨[], by simp, by simp⟩
  · exact ⟨_, rfl, reconcile_events_not_platform _ _ _ _⟩

theorem attempt_discipline (c : Call) (s : Frame) (a : Answers) (tail : List Event) :
    eventDiscipline none ((attempt c s a).events ++ tail) = eventDiscipline none tail := by
  obtain ⟨post, hev, hpost⟩ := attempt_events c s a
  rw [hev, List.append_assoc, settle_discipline, discipline_not_platform _ _ hpost]

theorem loop_discipline (c : Call) (l : List Answers) :
    ∀ s : Frame, eventDiscipline none (loop c s l).events = true := by
  induction l with
  | nil => intro s; rfl
  | cons a rest ih =>
    intro s
    cases hst : (attempt c s a).step with
    | restart =>
      rw [loop_restart c s a rest hst]
      simp only []
      rw [attempt_discipline]
      exact ih _
    | done o =>
      rw [loop_done c s a rest o hst]
      simp only []
      have := attempt_discipline c s a []
      simpa [eventDiscipline] using this

theorem settle_counts (c : Call) (s : Frame) (a : Answers) :
    (settle c s a).events.countP Event.isCreate = 1
    ∧ (settle c s a).events.countP Event.isSubmit = 1
    ∧ (settle c s a).events.countP Event.isClose = 1 := by
  cases hso : a.submitOk <;> by_cases hpe : a.submitErr = kNtErrorIoPending <;>
    by_cases hnb : c.flags &&& _O_NONBLOCK = 0 <;> cases hc : a.cancel1 <;>
    by_cases hsg : a.sigGet1 = 0 <;>
    simp [settle, whenPending, reportedPending, UnwindReadwrite, Event.isCreate, Event.isSubmit,
      Event.isClose, List.countP_cons, hso, hpe, hnb, hc, hsg]

theorem attempt_counts (c : Call) (s : Frame) (a : Answers) :
    (attempt c s a).events.countP Event.isCreate = 1
    ∧ (attempt c s a).events.countP Event.isSubmit = 1
    ∧ (attempt c s a).events.countP Event.isClose = 1 := by
  obtain ⟨post, hev, hpost⟩ := attempt_events c s a
  obtain ⟨h1, h2, h3⟩ := settle_counts c s a
  rw [hev]
  simp only [List.countP_append, h1, h2, h3,
    countP_zero_of_not_platform _ isCreate_platform _ hpost,
    countP_zero_of_not_platform _ isSubmit_platform _ hpost,
    countP_zero_of_not_platform _ isClose_platform _ hpost]
  simp

theorem loop_counts (c : Call) (l : List Answers) :
    ∀ s : Frame,
      (loop c s l).events.countP Event.isCreate = (loop c s l).events.countP Event.isSubmit
      ∧ (loop c s l).events.countP Event.isClose = (loop c s l).events.countP Event.isSubmit := by
  induction l with
  | nil => intro s; simp [loop]
  | cons a rest ih =>
    intro s
    obtain ⟨h1, h2, h3⟩ := attempt_counts c s a
    cases hst : (attempt c s a).step with
    | restart =>
      rw [loop_restart c s a rest hst]
      obtain ⟨i1, i2⟩ := ih (attempt c s a).frame
      simp only [List.countP_append, h1, h2, h3, i1, i2]
      simp
    | done o =>
      rw [loop_done c s a rest o hst]
      simp only [h1, h2, h3]
      simp

theorem loop_not_espipe (c : Call) (l : List Answers) :
    ∀ s : Frame, ∀ rc : Int, (loop c s l).outcome ≠ Outcome.ret rc (some Errno.ESPIPE) := by
  induction l with
  | nil => intro s rc; simp [loop]
  | cons a rest ih =>
    intro s rc
    cases hst : (attempt c s a).step with
    | restart =>
      rw [loop_restart c s a rest hst]
      exact ih _ rc
    | done o =>
      rw [loop_done c s a rest o hst]
      intro h
      simp only [] at h
      subst h
      have := attempt_passEnd c s a _ hst
      simp [Outcome.isPassEnd] at this

theorem settle_cancelWaitRelease (c : Call) (s : Frame) (a : Answers) (tail : List Event) :
    cancelWaitRelease ((settle c s a).events ++ tail) = cancelWaitRelease tail := by
  cases hso : a.submitOk <;> by_cases hpe : a.submitErr = kNtErrorIoPending <;>
    by_cases hnb : c.flags &&& _O_NONBLOCK = 0 <;> cases hc : a.cancel1 <;>
    by_cases hsg : a.sigGet1 = 0 <;>
    simp [settle, whenPending, reportedPending, UnwindReadwrite, cancelWaitRelease,
      followsCancel, hso, hpe, hnb, hc, hsg]

theorem cancelWaitRelease_append_not_platform (l tail : List Event)
    (h : ∀ e ∈ l, e.isPlatform = false) :
    cancelWaitRelease (l ++ tail) = cancelWaitRelease tail := by
  induction l with
  | nil => rfl
  | cons e l ih =>
    have he := h e (List.mem_cons_self e l)
    have hl := ih (fun x hx => h x (List.mem_cons_of_mem e hx))
    cases e <;> simp_all [cancelWaitRelease, Event.isPlatform]

theorem attempt_cancelWaitRelease (c : Call) (s : Frame) (a : Answers) (tail : List Event) :
    cancelWaitRelease ((attempt c s a).events ++ tail) = cancelWaitRelease tail := by
  obtain ⟨post, hev, hpost⟩ := attempt_events c s a
  rw [hev, List.append_assoc, settle_cancelWaitRelease,
    cancelWaitRelease_append_not_platform _ _ hpost]

theorem loop_cancelWaitRelease (c : Call) (l : List Answers) :
    ∀ s : Frame, cancelWaitRelease (loop c s l).events = true := by
  induction l with
  | nil => intro s; rfl
  | cons a rest ih =>
    intro s
    cases hst : (attempt c s a).step with
    | restart =>
      rw [loop_restart c s a rest hst]
      simp only []
      rw [attempt_cancelWaitRelease]
      exact ih _
    | done o =>
      rw [loop_done c s a rest o hst]
      simp only []
      have := attempt_cancelWaitRelease c s a []
      simpa [cancelWaitRelease] using this

theorem settle_pending_shape (c : Call) (s : Frame) (a : Answers)
    (hp : reportedPending a = true) :
    ∃ pre, (settle c s a).events
        = pre ++ [Event.GetOverlappedResult c.handle { hEvent := a.hEvent, Pointer := c.offset } true,
                  Event.CloseHandle a.hEvent]
      ∧ pre.countP Event.isClose = 0 := by
  have hok : a.submitOk = false := by
    unfold reportedPending at hp
    cases h : a.submitOk <;> simp_all
  by_cases hnb : c.flags &&& _O_NONBLOCK = 0
  · cases hc : a.cancel1 with
    | fine =>
      by_cases hsg : a.sigGet1 = 0
      · exact ⟨[Event.CreateEvent a.hEvent,
            Event.ReadOrWriteFile c.handle c.size { hEvent := a.hEvent, Pointer := c.offset },
            Event.GetLastError a.submitErr, Event._check_cancel CancelCheck.fine,
            Event.__sig_get c.waitmask a.sigGet1,
            Event.publish c.waitmask c.handle { hEvent := a.hEvent, Pointer := c.offset },
            Event.WaitForSingleObject a.hEvent, Event.unpublish],
          by simp [settle, whenPending, hp, hok, hnb, hc, hsg],
          by simp [Event.isClose, List.countP_cons]⟩
      · exact ⟨[Event.CreateEvent a.hEvent,
            Event.ReadOrWriteFile c.handle c.size { hEvent := a.hEvent, Pointer := c.offset },
            Event.GetLastError a.submitErr, Event._check_cancel CancelCheck.fine,
            Event.__sig_get c.waitmask a.sigGet1,
            Event.CancelIoEx c.handle { hEvent := a.hEvent, Pointer := c.offset }],
          by simp [settle, whenPending, hp, hok, hnb, hc, hsg],
          by simp [Event.isClose, List.countP_cons]⟩
    | exits =>
      exact ⟨[Event.CreateEvent a.hEvent,
          Event.ReadOrWriteFile c.handle c.size { hEvent := a.hEvent, Pointer := c.offset },
          Event.GetLastError a.submitErr, Event._check_cancel CancelCheck.exits,
          Event.CancelIoEx c.handle { hEvent := a.hEvent, Pointer := c.offset }],
        by simp [settle, whenPending, UnwindReadwrite, hp, hok, hnb, hc],
        by simp [Event.isClose, List.countP_cons]⟩
    | masked =>
      exact ⟨[Event.CreateEvent a.hEvent,
          Event.ReadOrWriteFile c.handle c.size { hEvent := a.hEvent, Pointer := c.offset },
          Event.GetLastError a.submitErr, Event._check_cancel CancelCheck.masked,
          Event.CancelIoEx c.handle { hEvent := a.hEvent, Pointer := c.offset }],
        by simp [settle, whenPending, hp, hok, hnb, hc],
        by simp [Event.isClose, List.countP_cons]⟩
  · exact ⟨[Event.CreateEvent a.hEvent,
        Event.ReadOrWriteFile c.handle c.size { hEvent := a.hEvent, Pointer := c.offset },
        Event.GetLastError a.submitErr,
        Event.CancelIoEx c.handle { hEvent := a.hEvent, Pointer := c.offset }],
      by simp [settle, whenPending, hp, hok, hnb],
      by simp [Event.isClose, List.countP_cons]⟩

theorem attempt_quiet (c : Call) (s : Frame) (a : Answers) (hp : reportedPending a = false)
    (h : (a.submitOk = true ∧ a.collectOk = true) ∨ a.finalErr ≠ kNtErrorOperationAborted) :
    (attempt c s a).events.countP Event.isDequeue = 0
    ∧ (s.sig = 0 → (attempt c s a).events.countP Event.isRelay = 0) := by
  have hset : (settle c s a).exited = false ∧ (settle c s a).sig = s.sig
      ∧ (settle c s a).ok = (a.submitOk && a.collectOk)
      ∧ (settle c s a).events.countP Event.isDequeue = 0
      ∧ (settle c s a).events.countP Event.isRelay = 0 := by
    cases hso : a.submitOk <;>
      simp [settle, hp, hso, Event.isDequeue, Event.isRelay, List.countP_cons]
  obtain ⟨h1, h2, h3, h4, h5⟩ := hset
  have hcon : ∀ (fr2 : Frame) (hwc : Int),
      (conclude c fr2 (a.submitOk && a.collectOk) hwc a).events = []
      ∨ (conclude c fr2 (a.submitOk && a.collectOk) hwc a).events
          = [Event.GetLastError a.finalErr] := by
    intro fr2 hwc
    rcases h with h | h
    · simp [conclude, h.1, h.2]
    · cases hok : (a.submitOk && a.collectOk)
      · right
        simp [conclude, failed, h]
      · simp [conclude]
  have hcd : ∀ (fr2 : Frame) (hwc : Int),
      (conclude c fr2 (a.submitOk && a.collectOk) hwc a).events.countP Event.isDequeue = 0
      ∧ (conclude c fr2 (a.submitOk && a.collectOk) hwc a).events.countP Event.isRelay = 0 := by
    intro fr2 hwc
    rcases hcon fr2 hwc with h | h <;> simp [h, Event.isDequeue, Event.isRelay, List.countP_cons]
  have hrd : ∀ (p sig : Int) (r : RelayAnswer) (cc : CancelCheck),
      (relay c p sig r cc).events.countP Event.isDequeue = 0 := by
    intro p sig r cc
    unfold relay
    split <;> simp [Event.isDequeue, List.countP_cons]
  have hrec : ∀ fr : Frame, fr.sig = s.sig →
      (reconcile c fr (a.submitOk && a.collectOk) a).events.countP Event.isDequeue = 0
      ∧ (s.sig = 0 →
          (reconcile c fr (a.submitOk && a.collectOk) a).events.countP Event.isRelay = 0) := by
    intro fr hfr
    unfold reconcile
    split_ifs with hc hs
    · simp
    · simp only []
      split
      · exact ⟨hrd _ _ _ _, fun h0 => absurd (hfr.trans h0) hs⟩
      · refine ⟨?_, fun h0 => absurd (hfr.trans h0) hs⟩
        simp only [List.countP_append, hrd, (hcd _ _).1]
    · exact ⟨(hcd _ _).1, fun _ => (hcd _ _).2⟩
  unfold attempt
  simp only [h1, Bool.false_eq_true, if_false, h3]
  obtain ⟨r1, r2⟩ := hrec
    ⟨(settle c s a).sig, (settle c s a).eagained, (settle c s a).canceled, s.pointer⟩ h2
  refine ⟨?_, fun h0 => ?_⟩
  · simp only [List.countP_append, h4, r1]
  · simp only [List.countP_append, h5, r2 h0]

theorem relay_interruptedBy (c : Call) (p sig : Int) (r : RelayAnswer) (cc : CancelCheck) :
    interruptedBy (relay c p sig r cc).events = (r.result == some 1) := by
  unfold relay
  split
  · next h => simp [interruptedBy, h]
  · next h hr => simp [interruptedBy, hr]

theorem failed_aborted_step (c : Call) (s : Frame) (hwc : Int) (a : Answers)
    (herr : a.finalErr = kNtErrorOperationAborted) (hea : s.eagained = false)
    (hcc : noCancelObserved (failed c s hwc a).events = true)
    (hret : handlersReturn (failed c s hwc a).events = true) :
    (failed c s hwc a).step
      = if hwc = 1 ∨ interruptedBy (failed c s hwc a).events = true then
          Step.done (Outcome.ret (-1) (some Errno.EINTR))
        else Step.restart := by
  by_cases h0 : hwc = 0 <;> by_cases hs : a.sigGet2 = 0 <;>
    rcases hr : a.relay2.result with _ | h2 <;> cases hc3 : a.cancel3 <;>
    simp [failed, relay, noCancelObserved, handlersReturn, interruptedBy, herr, hea, h0, hs, hr,
      hc3] at hcc hret ⊢

theorem interruptedBy_append (l1 l2 : List Event) :
    interruptedBy (l1 ++ l2) = (interruptedBy l1 || interruptedBy l2) := by
  simp [interruptedBy]

theorem noCancelObserved_append (l1 l2 : List Event) :
    noCancelObserved (l1 ++ l2) = (noCancelObserved l1 && noCancelObserved l2) := by
  simp [noCancelObserved]

theorem handlersReturn_append (l1 l2 : List Event) :
    handlersReturn (l1 ++ l2) = (handlersReturn l1 && handlersReturn l2) := by
  simp [handlersReturn]

theorem reconcile_aborted_step (c : Call) (s : Frame) (a : Answers)
    (hc : s.canceled = false) (hea : s.eagained = false)
    (herr : a.finalErr = kNtErrorOperationAborted)
    (hcc : noCancelObserved (reconcile c s false a).events = true)
    (hret : handlersReturn (reconcile c s false a).events = true) :
    (reconcile c s false a).step
      = if interruptedBy (reconcile c s false a).events = true then
          Step.done (Outcome.ret (-1) (some Errno.EINTR))
        else Step.restart := by
  by_cases hs : s.sig = 0
  · have hrec : reconcile c s false a = failed c s 0 a := by
      simp [reconcile, hc, hs, conclude]
    rw [hrec] at hcc hret ⊢
    rw [failed_aborted_step c s 0 a herr hea hcc hret]
    simp
  · rcases hr : a.relay1.result with _ | h
    · exfalso
      simp [reconcile, hc, hs, relay, hr, handlersReturn] at hret
    · cases hc2 : a.cancel2 with
      | fine =>
        have hrec : reconcile c s false a
            = { events := [Event.__sig_relay s.sig SI_KERNEL c.waitmask (some h),
                           Event._check_cancel CancelCheck.fine]
                  ++ (failed c { s with pointer := a.relay1.seek.getD s.pointer } h a).events,
                frame := (failed c { s with pointer := a.relay1.seek.getD s.pointer } h a).frame,
                step := (failed c { s with pointer := a.relay1.seek.getD s.pointer } h a).step } := by
          simp [reconcile, hc, hs, relay, hr, hc2, conclude]
        rw [hrec] at hcc hret ⊢
        simp only [] at hcc hret ⊢
        rw [noCancelObserved_append, Bool.and_eq_true] at hcc
        rw [handlersReturn_append, Bool.and_eq_true] at hret
        rw [failed_aborted_step c
          { sig := s.sig, eagained := s.eagained, canceled := s.canceled,
            pointer := a.relay1.seek.getD s.pointer } h a herr hea hcc.2 hret.2,
          interruptedBy_append]
        by_cases h1 : h = 1 <;> simp [interruptedBy, h1]
      | exits =>
        exfalso
        simp [reconcile, hc, hs, relay, hr, hc2, noCancelObserved] at hcc
      | masked =>
        exfalso
        simp [reconcile, hc, hs, relay, hr, hc2, noCancelObserved] at hcc

theorem settle_not_interrupted (c : Call) (s : Frame) (a : Answers) :
    interruptedBy (settle c s a).events = false := by
  cases hso : a.submitOk <;> by_cases hpe : a.submitErr = kNtErrorIoPending <;>
    by_cases hnb : c.flags &&& _O_NONBLOCK = 0 <;> cases hc : a.cancel1 <;>
    by_cases hsg : a.sigGet1 = 0 <;>
    simp [settle, whenPending, reportedPending, UnwindReadwrite, interruptedBy, hso, hpe, hnb,
      hc, hsg]

theorem attempt_aborted_step (c : Call) (s : Frame) (a : Answers)
    (hfail : a.submitOk = true ∨ reportedPending a = true → a.collectOk = false)
    (herr : a.finalErr = kNtErrorOperationAborted)
    (hnb : s.eagained = false ∧ ¬ (reportedPending a = true ∧ c.flags &&& _O_NONBLOCK ≠ 0))
    (hc : s.canceled = false)
    (hcc : noCancelObserved (attempt c s a).events = true)
    (hret : handlersReturn (attempt c s a).events = true) :
    (attempt c s a).step
      = if interruptedBy (attempt c s a).events = true then
          Step.done (Outcome.ret (-1) (some Errno.EINTR))
        else Step.restart := by
  obtain ⟨hea, hnb⟩ := hnb
  have hni := settle_not_interrupted c s a
  have hset : (settle c s a).exited = false ∧ (settle c s a).canceled = false
      ∧ (settle c s a).eagained = false ∧ (settle c s a).ok = false := by
    by_cases hp : reportedPending a = true
    · have hb : c.flags &&& _O_NONBLOCK = 0 := by
        by_contra hne
        exact hnb ⟨hp, hne⟩
      have hcol := hfail (Or.inr hp)
      have hso : a.submitOk = false := by
        unfold reportedPending at hp
        cases h : a.submitOk <;> simp_all
      cases hc1 : a.cancel1 with
      | fine =>
        by_cases hsg : a.sigGet1 = 0 <;>
          simp [settle, whenPending, hp, hb, hc1, hsg, hc, hea, hcol]
      | exits =>
        exfalso
        simp [attempt, settle, whenPending, hp, hb, hc1, hso, noCancelObserved,
          UnwindReadwrite] at hcc
      | masked =>
        exfalso
        simp [attempt, settle, whenPending, hp, hb, hc1, hso, noCancelObserved, reconcile] at hcc
    · have hp2 : reportedPending a = false := by simpa using hp
      cases hso : a.submitOk with
      | false => simp [settle, hp2, hc, hea, hso]
      | true => simp [settle, hp2, hc, hea, hso, hfail (Or.inl hso)]
  obtain ⟨h1, h2, h3, h4⟩ := hset
  have hat : attempt c s a
      = { events := (settle c s a).events
            ++ (reconcile c ⟨(settle c s a).sig, (settle c s a).eagained,
                  (settle c s a).canceled, s.pointer⟩ false a).events,
          frame := (reconcile c ⟨(settle c s a).sig, (settle c s a).eagained,
                  (settle c s a).canceled, s.pointer⟩ false a).frame,
          step := (reconcile c ⟨(settle c s a).sig, (settle c s a).eagained,
                  (settle c s a).canceled, s.pointer⟩ false a).step } := by
    simp [attempt, h1, h4]
  rw [hat] at hcc hret ⊢
  simp only [] at hcc hret ⊢
  rw [noCancelObserved_append, Bool.and_eq_true] at hcc
  rw [handlersReturn_append, Bool.and_eq_true] at hret
  rw [reconcile_aborted_step c _ a h2 h3 herr hcc.2 hret.2, interruptedBy_append, hni]
  simp

theorem relay_ended_errno (c : Call) (p sig : Int) (r : RelayAnswer) (cc : CancelCheck)
    (rc : Int) (e : Errno) (h : (relay c p sig r cc).ended = some (Outcome.ret rc (some e))) :
    e = Errno.ECANCELED := by
  unfold relay at h
  split at h
  · simp at h
  · cases cc <;> simp at h
    exact h.2.symm

theorem relay_result (c : Call) (p sig : Int) (r : RelayAnswer) (cc : CancelCheck)
    (ho : (relay c p sig r cc).ended = none) :
    r.result = some (relay c p sig r cc).handler_was_called := by
  unfold relay at ho ⊢
  split at ho
  · simp at ho
  · next h hres => simp [hres]

theorem failed_eintr (c : Call) (s : Frame) (hwc : Int) (a : Answers) (rc : Int)
    (h : (failed c s hwc a).step = Step.done (Outcome.ret rc (some Errno.EINTR))) :
    hwc = 1 ∨ interruptedBy (failed c s hwc a).events = true := by
  have hr := relay_ended_errno c s.pointer a.sigGet2 a.relay2 a.cancel3 rc Errno.EINTR
  have hi := relay_interruptedBy c s.pointer a.sigGet2 a.relay2 a.cancel3
  by_cases h1 : hwc = 1
  · exact Or.inl h1
  · right
    unfold failed at h ⊢
    split_ifs at h ⊢ with h2 h3 h4 h5
    · simp at h
    · simp only [] at h ⊢
      split at h
      · next o ho =>
        simp only [Step.done.injEq] at h
        subst h
        exact absurd (hr ho) (by decide)
      · next ho =>
        split_ifs at h with h6
        rw [interruptedBy_append, hi, relay_result _ _ _ _ _ ho]
        have h7 : (relay c s.pointer a.sigGet2 a.relay2 a.cancel3).handler_was_called = 1 := by
          simpa using h6
        simp [h7]
    · simp at h

theorem reconcile_eintr (c : Call) (s : Frame) (ok : Bool) (a : Answers) (rc : Int)
    (h : (reconcile c s ok a).step = Step.done (Outcome.ret rc (some Errno.EINTR))) :
    interruptedBy (reconcile c s ok a).events = true := by
  have hr := relay_ended_errno c s.pointer s.sig a.relay1 a.cancel2 rc Errno.EINTR
  have hcon : ∀ (fr : Frame) (hwc : Int),
      (conclude c fr ok hwc a).step = Step.done (Outcome.ret rc (some Errno.EINTR)) →
      hwc = 1 ∨ interruptedBy (conclude c fr ok hwc a).events = true := by
    intro fr hwc hst
    cases ok with
    | true => simp [conclude] at hst
    | false => exact failed_eintr c fr hwc a rc (by simpa [conclude] using hst)
  unfold reconcile at h ⊢
  split_ifs at h ⊢ with h1 h2
  · simp at h
  · simp only [] at h ⊢
    split at h
    · next o ho =>
      simp only [Step.done.injEq] at h
      subst h
      exact absurd (hr ho) (by decide)
    · next ho =>
      simp only [ho]
      rw [interruptedBy_append, relay_interruptedBy, relay_result _ _ _ _ _ ho]
      rcases hcon _ _ h with h3 | h3
      · simp [h3]
      · simp [h3]
  · rcases hcon _ _ h with h3 | h3
    · exact absurd h3 (by decide)
    · exact h3

theorem attempt_eintr (c : Call) (s : Frame) (a : Answers) (rc : Int)
    (h : (attempt c s a).step = Step.done (Outcome.ret rc (some Errno.EINTR))) :
    interruptedBy (attempt c s a).events = true := by
  unfold attempt at h ⊢
  simp only [] at h ⊢
  split_ifs at h ⊢
  · simp at h
  · simp only [interruptedBy_append]
    simp [reconcile_eintr c _ _ a rc h]

theorem failed_eagain (c : Call) (s : Frame) (hwc : Int) (a : Answers) (rc : Int)
    (h : (failed c s hwc a).step = Step.done (Outcome.ret rc (some Errno.EAGAIN))) :
    s.eagained = true := by
  have hr := relay_ended_errno c s.pointer a.sigGet2 a.relay2 a.cancel3 rc Errno.EAGAIN
  by_cases he : s.eagained = true
  · exact he
  · exfalso
    unfold failed at h
    split_ifs at h with h2 h4 h5
    · simp only [] at h
      split at h
      · next o ho =>
        simp only [Step.done.injEq] at h
        subst h
        exact absurd (hr ho) (by decide)
      · split_ifs at h
        simp at h
    · simp at h
    · simp at h

theorem reconcile_eagain (c : Call) (s : Frame) (ok : Bool) (a : Answers) (rc : Int)
    (h : (reconcile c s ok a).step = Step.done (Outcome.ret rc (some Errno.EAGAIN))) :
    s.eagained = true := by
  have hr := relay_ended_errno c s.pointer s.sig a.relay1 a.cancel2 rc Errno.EAGAIN
  have hcon : ∀ (fr : Frame) (hwc : Int),
      (conclude c fr ok hwc a).step = Step.done (Outcome.ret rc (some Errno.EAGAIN)) →
      fr.eagained = true := by
    intro fr hwc hst
    cases ok with
    | true => simp [conclude] at hst
    | false => exact failed_eagain c fr hwc a rc (by simpa [conclude] using hst)
  by_cases h1 : s.canceled = true
  · simp [reconcile, h1] at h
  · have h1f : s.canceled = false := by simpa using h1
    by_cases h2 : s.sig = 0
    · rw [reconcile_no_signal c s ok a h1f h2] at h
      exact hcon _ _ h
    · cases hrel : (relay c s.pointer s.sig a.relay1 a.cancel2).ended with
      | some o =>
        simp only [reconcile, h1f, Bool.false_eq_true, if_false, h2, ne_eq, not_false_eq_true,
          if_true, hrel, Step.done.injEq] at h
        subst h
        exact absurd (hr hrel) (by decide)
      | none =>
        simp only [reconcile, h1f, Bool.false_eq_true, if_false, h2, ne_eq, not_false_eq_true,
          if_true, hrel] at h
        exact hcon ⟨s.sig, s.eagained, false,
          (relay c s.pointer s.sig a.relay1 a.cancel2).pointer⟩ _ h

theorem attempt_eagain (c : Call) (s : Frame) (a : Answers) (rc : Int)
    (h : (attempt c s a).step = Step.done (Outcome.ret rc (some Errno.EAGAIN))) :
    (settle c s a).eagained = true := by
  unfold attempt at h
  simp only [] at h
  split_ifs at h
  · simp at h
  · exact reconcile_eagain c _ _ a rc h

theorem attempt_cancels (c : Call) (s : Frame) (a : Answers) :
    (attempt c s a).events.countP Event.isCancel
      = (settle c s a).events.countP Event.isCancel := by
  obtain ⟨post, hev, hpost⟩ := attempt_events c s a
  rw [hev, List.countP_append, countP_zero_of_not_platform _ isCancel_platform _ hpost]
  rfl

theorem settle_not_pending (c : Call) (s : Frame) (a : Answers)
    (hp : reportedPending a = false) :
    (settle c s a).eagained = s.eagained
    ∧ (settle c s a).events.countP Event.isCancel = 0 := by
  cases hso : a.submitOk <;> simp [settle, hp, hso, Event.isCancel, List.countP_cons]

theorem settle_nonblock_pending (c : Call) (s : Frame) (a : Answers)
    (hnb : c.flags &&& _O_NONBLOCK ≠ 0) (hp : reportedPending a = true) :
    settle c s a
      = { events := [Event.CreateEvent a.hEvent,
                     Event.ReadOrWriteFile c.handle c.size { hEvent := a.hEvent, Pointer := c.offset },
                     Event.GetLastError a.submitErr,
                     Event.CancelIoEx c.handle { hEvent := a.hEvent, Pointer := c.offset },
                     Event.GetOverlappedResult c.handle { hEvent := a.hEvent, Pointer := c.offset } true,
                     Event.CloseHandle a.hEvent],
          sig := s.sig, eagained := true, canceled := s.canceled, ok := a.collectOk,
          exited := false } := by
  have hok : a.submitOk = false := by
    unfold reportedPending at hp
    cases h : a.submitOk <;> simp_all
  simp [settle, whenPending, hp, hnb, hok]

theorem attempt_nonblock_pending_done (c : Call) (s : Frame) (a : Answers)
    (hnb : c.flags &&& _O_NONBLOCK ≠ 0) (hp : reportedPending a = true) :
    ∃ o, (attempt c s a).step = Step.done o := by
  obtain ⟨o, ho⟩ := reconcile_eagained_done c
    { sig := s.sig, eagained := true, canceled := s.canceled, pointer := s.pointer } a.collectOk a rfl
  refine ⟨o, ?_⟩
  simp only [attempt, settle_nonblock_pending c s a hnb hp]
  simpa using ho

/-- On a non-blocking descriptor a call issues at most one cancel, and exactly
one when it returns -1 with EAGAIN. -/
theorem loop_nonblock_cancels (c : Call) (hnb : c.flags &&& _O_NONBLOCK ≠ 0)
    (l : List Answers) :
    ∀ s : Frame, s.eagained = false →
      (loop c s l).events.countP Event.isCancel ≤ 1
      ∧ (∀ rc, (loop c s l).outcome = Outcome.ret rc (some Errno.EAGAIN) →
          (loop c s l).events.countP Event.isCancel = 1) := by
  induction l with
  | nil => intro s _; simp [loop]
  | cons a rest ih =>
    intro s hs
    by_cases hp : reportedPending a = true
    · obtain ⟨o, ho⟩ := attempt_nonblock_pending_done c s a hnb hp
      rw [loop_done c s a rest o ho]
      have hc : (attempt c s a).events.countP Event.isCancel = 1 := by
        rw [attempt_cancels, settle_nonblock_pending c s a hnb hp]
        simp [Event.isCancel, List.countP_cons]
      simp [hc]
    · have hp2 : reportedPending a = false := by simpa using hp
      obtain ⟨q1, q2⟩ := settle_not_pending c s a hp2
      have hc : (attempt c s a).events.countP Event.isCancel = 0 := by
        rw [attempt_cancels, q2]
      cases hst : (attempt c s a).step with
      | restart =>
        rw [loop_restart c s a rest hst]
        obtain ⟨i1, i2⟩ := ih _ (attempt_restart_frame c s a hst).1
        simp only [List.countP_append, hc, Nat.zero_add]
        exact ⟨i1, i2⟩
      | done o =>
        rw [loop_done c s a rest o hst]
        refine ⟨by simp [hc], ?_⟩
        intro rc hrc
        simp only [] at hrc
        subst hrc
        have := attempt_eagain c s a rc hst
        rw [q1, hs] at this
        exact absurd this (by decide)

theorem settle_last (c : Call) (s : Frame) (a : Answers) :
    (settle c s a).events.getLast? = some (Event.CloseHandle a.hEvent) := by
  cases hso : a.submitOk <;> by_cases hpe : a.submitErr = kNtErrorIoPending <;>
    by_cases hnb : c.flags &&& _O_NONBLOCK = 0 <;> cases hc : a.cancel1 <;>
    by_cases hsg : a.sigGet1 = 0 <;>
    simp [settle, whenPending, reportedPending, UnwindReadwrite, hso, hpe, hnb, hc, hsg]

theorem settle_close_last (c : Call) (s : Frame) (a : Answers) :
    ∃ pre, (settle c s a).events = pre ++ [Event.CloseHandle a.hEvent]
      ∧ pre.countP Event.isClose = 0 := by
  have hl := settle_last c s a
  have hc := (settle_counts c s a).2.2
  refine ⟨(settle c s a).events.dropLast, ?_, ?_⟩
  · exact (List.dropLast_append_getLast? _ hl).symm
  · have h2 : (settle c s a).events
        = (settle c s a).events.dropLast ++ [Event.CloseHandle a.hEvent] :=
      (List.dropLast_append_getLast? _ hl).symm
    rw [h2, List.countP_append] at hc
    have h3 : [Event.CloseHandle a.hEvent].countP Event.isClose = 1 := by
      simp [Event.isClose, List.countP_cons]
    omega

theorem settle_exited (c : Call) (s : Frame) (a : Answers) (h : (settle c s a).exited = true) :
    (settle c s a).events
      = [Event.CreateEvent a.hEvent,
         Event.ReadOrWriteFile c.handle c.size { hEvent := a.hEvent, Pointer := c.offset },
         Event.GetLastError a.submitErr, Event._check_cancel CancelCheck.exits]
        ++ UnwindReadwrite
            { handle := c.handle, overlap := { hEvent := a.hEvent, Pointer := c.offset } } := by
  revert h
  cases hso : a.submitOk <;> by_cases hpe : a.submitErr = kNtErrorIoPending <;>
    by_cases hnb : c.flags &&& _O_NONBLOCK = 0 <;> cases hc : a.cancel1 <;>
    by_cases hsg : a.sigGet1 = 0 <;>
    simp [settle, whenPending, reportedPending, UnwindReadwrite, hso, hpe, hnb, hc, hsg]

theorem loop_passEnd (c : Call) (l : List Answers) :
    ∀ s : Frame, (loop c s l).outcome = Outcome.running ∨ (loop c s l).outcome.isPassEnd := by
  induction l with
  | nil => intro s; left; rfl
  | cons a rest ih =>
    intro s
    cases hst : (attempt c s a).step with
    | restart =>
      rw [loop_restart c s a rest hst]
      exact ih _
    | done o =>
      rw [loop_done c s a rest o hst]
      right
      exact attempt_passEnd c s a o hst

theorem failed_other_error (c : Call) (s : Frame) (hwc : Int) (a : Answers)
    (herr : a.finalErr ≠ kNtErrorOperationAborted) :
    failed c s hwc a
      = { events := [Event.GetLastError a.finalErr], frame := s,
          step := Step.done (Outcome.ret (-2) none) } := by
  simp [failed, herr]

theorem reconcile_other_error (c : Call) (s : Frame) (a : Answers)
    (hc : s.canceled = false) (herr : a.finalErr ≠ kNtErrorOperationAborted)
    (hcc : noCancelObserved (reconcile c s false a).events = true)
    (hret : handlersReturn (reconcile c s false a).events = true) :
    (reconcile c s false a).step = Step.done (Outcome.ret (-2) none)
    ∧ (a.relay1.seek = none → (reconcile c s false a).frame.pointer = s.pointer) := by
  by_cases hs : s.sig = 0
  · simp [reconcile, hc, hs, conclude, failed_other_error c _ _ a herr]
  · rcases hr : a.relay1.result with _ | h
    · exfalso
      simp [reconcile, hc, hs, relay, hr, handlersReturn] at hret
    · cases hc2 : a.cancel2 with
      | fine =>
        simp [reconcile, hc, hs, relay, hr, hc2, conclude, failed_other_error c _ _ a herr]
        intro hq
        simp [hq]
      | exits =>
        exfalso
        simp [reconcile, hc, hs, relay, hr, hc2, noCancelObserved] at hcc
      | masked =>
        exfalso
        simp [reconcile, hc, hs, relay, hr, hc2, noCancelObserved] at hcc

theorem attempt_other_error (c : Call) (s : Frame) (a : Answers)
    (hfail : a.submitOk = true ∨ reportedPending a = true → a.collectOk = false)
    (herr : a.finalErr ≠ kNtErrorOperationAborted)
    (hc : s.canceled = false)
    (hcc : noCancelObserved (attempt c s a).events = true)
    (hret : handlersReturn (attempt c s a).events = true) :
    (attempt c s a).step = Step.done (Outcome.ret (-2) none)
    ∧ (a.relay1.seek = none → (attempt c s a).frame.pointer = s.pointer) := by
  have hset : (settle c s a).exited = false ∧ (settle c s a).canceled = false
      ∧ (settle c s a).ok = false := by
    by_cases hp : reportedPending a = true
    · have hcol := hfail (Or.inr hp)
      have hso : a.submitOk = false := by
        unfold reportedPending at hp
        cases h : a.submitOk <;> simp_all
      by_cases hb : c.flags &&& _O_NONBLOCK = 0
      · cases hc1 : a.cancel1 with
        | fine =>
          by_cases hsg : a.sigGet1 = 0 <;>
            simp [settle, whenPending, hp, hb, hc1, hsg, hc, hcol]
        | exits =>
          exfalso
          simp [attempt, settle, whenPending, hp, hb, hc1, hso, noCancelObserved,
            UnwindReadwrite] at hcc
        | masked =>
          exfalso
          simp [attempt, settle, whenPending, hp, hb, hc1, hso, noCancelObserved, reconcile]
            at hcc
      · simp [settle, whenPending, hp, hb, hc, hcol]
    · have hp2 : reportedPending a = false := by simpa using hp
      cases hso : a.submitOk with
      | false => simp [settle, hp2, hc, hso]
      | true => simp [settle, hp2, hc, hso, hfail (Or.inl hso)]
  obtain ⟨h1, h2, h4⟩ := hset
  have hat : attempt c s a
      = { events := (settle c s a).events
            ++ (reconcile c ⟨(settle c s a).sig, (settle c s a).eagained,
                  (settle c s a).canceled, s.pointer⟩ false a).events,
          frame := (reconcile c ⟨(settle c s a).sig, (settle c s a).eagained,
                  (settle c s a).canceled, s.pointer⟩ false a).frame,
          step := (reconcile c ⟨(settle c s a).sig, (settle c s a).eagained,
                  (settle c s a).canceled, s.pointer⟩ false a).step } := by
    simp [attempt, h1, h4]
  rw [hat] at hcc hret ⊢
  simp only [] at hcc hret ⊢
  rw [noCancelObserved_append, Bool.and_eq_true] at hcc
  rw [handlersReturn_append, Bool.and_eq_true] at hret
  exact reconcile_other_error c _ a h2 herr hcc.2 hret.2

theorem wrapSsize_of_fits (x : Int) (h : fitsSsize x) : wrapSsize x = x := by
  unfold fitsSsize at h
  unfold wrapSsize
  omega

theorem settle_submissions (c : Call) (s : Frame) (a : Answers) :
    submissions (settle c s a).events
      = [Event.ReadOrWriteFile c.handle c.size { hEvent := a.hEvent, Pointer := c.offset }] := by
  cases hso : a.submitOk <;> by_cases hpe : a.submitErr = kNtErrorIoPending <;>
    by_cases hnb : c.flags &&& _O_NONBLOCK = 0 <;> cases hc : a.cancel1 <;>
    by_cases hsg : a.sigGet1 = 0 <;>
    simp [settle, whenPending, reportedPending, UnwindReadwrite, submissions, Event.isSubmit,
      List.filter, hso, hpe, hnb, hc, hsg]

theorem submissions_not_platform (l : List Event) (h : ∀ e ∈ l, e.isPlatform = false) :
    submissions l = [] := by
  unfold submissions
  rw [List.filter_eq_nil_iff]
  intro e he hs
  have := isSubmit_platform e hs
  rw [h e he] at this
  exact Bool.noConfusion this

/-- Every pass makes one submission, at the offset fixed before the label
`RestartOperation`. -/
theorem attempt_submissions (c : Call) (s : Frame) (a : Answers) :
    submissions (attempt c s a).events
      = [Event.ReadOrWriteFile c.handle c.size { hEvent := a.hEvent, Pointer := c.offset }] := by
  obtain ⟨post, hev, hpost⟩ := attempt_events c s a
  have h1 := settle_submissions c s a
  have h2 := submissions_not_platform post hpost
  unfold submissions at h1 h2 ⊢
  rw [hev, List.filter_append, h1, h2]
  rfl

/-- A pass that starts with no signal held and is aborted because of a pending
signal whose handler has auto-restart disposition jumps to
`RestartOperation`. -/
theorem attempt_aborted_restarts (c : Call) (s : Frame) (a : Answers)
    (hsig : s.sig = 0) (he : s.eagained = false) (hc : s.canceled = false)
    (h : abortedWithAutoRestart c.flags a) : (attempt c s a).step = Step.restart := by
  obtain ⟨herr, h⟩ := h
  rcases h with ⟨hp, hb, hc1, hs1, hco, hr1, hc2⟩ | ⟨hp, hb, hc1, hs1, hco, hs2, hr2, hc3⟩
    | ⟨hp, hfail, hs2, hr2, hc3⟩ | ⟨hp, hb, hc1, hs1, hco, hr1, hc2, hs2, hr2, hc3⟩
  · simp [attempt, settle, whenPending, reconcile, relay, conclude, failed, hp, hb, hc1, hs1,
      hco, hr1, hc2, herr, he, hc]
  · simp [attempt, settle, whenPending, reconcile, relay, conclude, failed, hp, hb, hc1, hs1,
      hco, hs2, hr2, hc3, herr, he, hc]
  · rcases hfail with hso | hco
    · simp [attempt, settle, reconcile, relay, conclude, failed, hp, hso, hs2, hr2, hc3, herr,
        he, hc, hsig]
    · cases hso : a.submitOk <;>
        simp [attempt, settle, reconcile, relay, conclude, failed, hp, hso, hco, hs2, hr2, hc3,
          herr, he, hc, hsig]
  · simp [attempt, settle, whenPending, reconcile, relay, conclude, failed, hp, hb, hc1, hs1,
      hco, hr1, hc2, hs2, hr2, hc3, herr, he, hc]

/-- A pass whose transfer is collected as completed, in which no cancelation
is acknowledged or observed and a relayed handler returns, ends the call with
the byte count of the pass; when the call is not positional and the descriptor
is seekable the cursor becomes the offset of the call plus that count, as an
`ssize_t`. -/
theorem attempt_completes (c : Call) (s : Frame) (a : Answers)
    (he : s.canceled = false)
    (hpw : c.pwriting = false) (hsk : c.seekable = true)
    (hok : a.collectOk = true ∧ (a.submitOk = true ∨ reportedPending a = true))
    (hcancel : a.cancel1 = CancelCheck.fine ∧ a.cancel2 = CancelCheck.fine)
    (hret : a.relay1.result ≠ none) :
    (attempt c s a).step = Step.done (Outcome.ret a.exchanged none)
      ∧ (attempt c s a).frame.pointer = wrapSsize (c.offset + a.exchanged) := by
  obtain ⟨h2, hr2⟩ : ∃ h2, a.relay1.result = some h2 := by
    cases h : a.relay1.result with
    | none => exact absurd h hret
    | some v => exact ⟨v, rfl⟩
  obtain ⟨hco, hso | hp⟩ := hok
  · have hnp : reportedPending a = false := by simp [reportedPending, hso]
    by_cases hsg : s.sig = 0 <;>
      simp [attempt, settle, reconcile, relay, conclude, hnp, hso, hco, hr2, hcancel.2, hpw, hsk,
        he, hsg]
  · have hso : a.submitOk = false := by
      unfold reportedPending at hp
      cases h : a.submitOk <;> simp_all
    by_cases hnb : c.flags &&& _O_NONBLOCK = 0
    · by_cases hs2 : a.sigGet1 = 0
      · simp [attempt, settle, whenPending, reconcile, relay, conclude, hp, hso, hco, hs2,
          hcancel.1, hnb, hpw, hsk, he]
      · simp [attempt, settle, whenPending, reconcile, relay, conclude, hp, hso, hco, hs2, hr2,
          hcancel.1, hcancel.2, hnb, hpw, hsk, he]
    · by_cases hsg : s.sig = 0 <;>
        simp [attempt, settle, whenPending, reconcile, relay, conclude, hp, hso, hco, hr2,
          hcancel.2, hnb, hpw, hsk, he, hsg]

/-! ## C1: the cursor -/

/-- C2: a call with an explicit offset (offset other than -1) on a descriptor
that is not seekable (neither a regular file whose handle is a disk file, nor
the null device) returns -1 with ESPIPE, leaves the cursor unchanged, and
makes no call to the platform but the `GetFileType` probe of a regular file:
no submission, no completion event, no cancel. -/
theorem C2_positional_not_seekable (f : Fd) (size : Nat) (offset handle : Int) (waitmask : Nat)
    (env : Env) (hpos : offset ≠ -1)
    (hfile : ¬ (f.kind = FdKind.kFdFile ∧ env.fileType = kNtFileTypeDisk))
    (hnull : f.kind ≠ FdKind.kFdDevNull) :
    (sys_readwrite_nt f size offset handle waitmask env).outcome
        = Outcome.ret (-1) (some Errno.ESPIPE)
    ∧ (sys_readwrite_nt f size offset handle waitmask env).pointer = f.pointer
    ∧ (∀ e ∈ (sys_readwrite_nt f size offset handle waitmask env).events,
        e = Event.GetFileType handle)
    ∧ (sys_readwrite_nt f size offset handle waitmask env).events.countP Event.isSubmit = 0
    ∧ (sys_readwrite_nt f size offset handle waitmask env).events.countP Event.isCreate = 0
    ∧ (sys_readwrite_nt f size offset handle waitmask env).events.countP Event.isCancel = 0 := by
  have hs : isSeekable f env.fileType = false := by
    unfold isSeekable
    cases hk : f.kind <;> simp_all
  have hgo : (offset != -1 && !isSeekable f env.fileType) = true := by simp [hs, hpos]
  rw [sys_espipe _ _ _ _ _ _ hgo]
  by_cases hk : f.kind = FdKind.kFdFile <;>
    simp [probe, hk, Event.isSubmit, Event.isCreate, Event.isCancel]

/-- C2 on a pipe-like descriptor with explicit offset 0, and on a regular file
whose handle is not a disk file. -/
theorem C2_positional_not_seekable_witness :
    (sys_readwrite_nt pipeFd 10 0 3 0 { fileType := 3, attempts := [syncTen] }).outcome
        = Outcome.ret (-1) (some Errno.ESPIPE)
    ∧ (sys_readwrite_nt regularFile100 10 0 3 0 { fileType := 3, attempts := [syncTen] }).events
        = [Event.GetFileType 3] :=
  ⟨(C2_positional_not_seekable pipeFd 10 0 3 0 { fileType := 3, attempts := [syncTen] }
      (by decide) (by decide) (by decide)).1,
   by decide⟩

/-! ## C3: non-blocking descriptors -/

/-- C3 fails as stated: on a non-blocking descriptor whose submission is
reported pending, the call issues the cancel and then collects the result; when
the transfer is collected as completed, the call returns its byte count (here
10) and not -1 with EAGAIN. -/
theorem C3_counterexample :
    nonblockFd.flags &&& _O_NONBLOCK ≠ 0
    ∧ reportedPending pendingThenDone = true
    ∧ (sys_readwrite_nt nonblockFd 10 (-1) 3 0
        { fileType := 0, attempts := [pendingThenDone] }).outcome = Outcome.ret 10 none
    ∧ (sys_readwrite_nt nonblockFd 10 (-1) 3 0
        { fileType := 0, attempts := [pendingThenDone] }).outcome
          ≠ Outcome.ret (-1) (some Errno.EAGAIN) := by
  decide

/-- C3 as amended: on a descriptor whose non-blocking flag is set, a pass whose
submission is reported pending issues exactly one cancel before the call ends,
and the call ends in that pass; when the pass was entered with no acknowledged
cancelation and no signal carried over (as the first pass of a call is), the
call returns -1 with EAGAIN if the cancelled operation is collected as failed
with "operation aborted", the byte count if it is collected as completed, and
-2 if it failed with another platform error.  Over a whole call on such a
descriptor at most one cancel is issued, and exactly one has been issued
whenever the call returns -1 with EAGAIN. -/
theorem C3_nonblocking_pending (c : Call) (s : Frame) (a : Answers) (rest : List Answers)
    (f : Fd) (size : Nat) (offset handle : Int) (waitmask : Nat) (env : Env)
    (hnb : c.flags &&& _O_NONBLOCK ≠ 0) (hp : reportedPending a = true) :
    (loop c s (a :: rest)).events.countP Event.isCancel = 1
    ∧ (loop c s (a :: rest)).events.countP Event.isSubmit = 1
    ∧ (loop c s (a :: rest)).outcome ≠ Outcome.running
    ∧ (s.canceled = false → s.sig = 0 →
        (loop c s (a :: rest)).outcome
          = if a.collectOk then Outcome.ret a.exchanged none
            else if a.finalErr = kNtErrorOperationAborted then
              Outcome.ret (-1) (some Errno.EAGAIN)
            else Outcome.ret (-2) none)
    ∧ (f.flags &&& _O_NONBLOCK ≠ 0 →
        (sys_readwrite_nt f size offset handle waitmask env).events.countP Event.isCancel ≤ 1
        ∧ ∀ rc, (sys_readwrite_nt f size offset handle waitmask env).outcome
              = Outcome.ret rc (some Errno.EAGAIN) →
            (sys_readwrite_nt f size offset handle waitmask env).events.countP Event.isCancel
              = 1) := by
  obtain ⟨o, hstep⟩ := attempt_nonblock_pending_done c s a hnb hp
  have hs := settle_nonblock_pending c s a hnb hp
  have hcancel : (attempt c s a).events.countP Event.isCancel = 1 := by
    rw [attempt_cancels, hs]
    simp [Event.isCancel, List.countP_cons]
  rw [loop_done c s a rest o hstep]
  refine ⟨hcancel, (attempt_counts c s a).2.1, ?_, ?_, ?_⟩
  · cases o with
    | running => exact absurd hstep (attempt_not_running c s a)
    | _ => simp
  · intro hc hsig
    have ho : (reconcile c
        { sig := s.sig, eagained := true, canceled := s.canceled, pointer := s.pointer }
        a.collectOk a).step = Step.done o := by
      have h2 := hstep
      simp only [attempt, hs] at h2
      simpa using h2
    have hrec := reconcile_no_signal c
      { sig := s.sig, eagained := true, canceled := s.canceled, pointer := s.pointer }
      a.collectOk a hc hsig
    rw [hrec] at ho
    cases hco : a.collectOk with
    | true =>
      rw [hco] at ho
      simp only [conclude, if_true, Step.done.injEq] at ho
      simp [← ho]
    | false =>
      rw [hco] at ho
      simp only [conclude, Bool.false_eq_true, if_false] at ho
      rw [failed_eagained c _ _ a rfl] at ho
      simp only [Step.done.injEq] at ho
      simp [← ho]
  · intro hf
    have hprobe : (probe f handle).countP Event.isCancel = 0 := by
      unfold probe
      split_ifs <;> simp [Event.isCancel, List.countP_cons]
    cases h : (offset != -1 && !isSeekable f env.fileType) with
    | true =>
      rw [sys_espipe _ _ _ _ _ _ h]
      simp [hprobe]
    | false =>
      rw [sys_loop _ _ _ _ _ _ h]
      obtain ⟨i1, i2⟩ := loop_nonblock_cancels
        (entryCall f size offset handle waitmask env.fileType) hf env.attempts (entryFrame f) rfl
      simp only [List.countP_append, hprobe, Nat.zero_add]
      exact ⟨i1, i2⟩

/-- C3 as amended, on the non-blocking descriptor whose submission is reported
pending and then collected as failed with "operation aborted": the call
returns -1 with EAGAIN after exactly one cancel. -/
theorem C3_nonblocking_pending_witness :
    nonblockFd.flags &&& _O_NONBLOCK ≠ 0
    ∧ reportedPending pendingThenAborted = true
    ∧ (sys_readwrite_nt nonblockFd 10 (-1) 3 0
        { fileType := 0, attempts := [pendingThenAborted] }).outcome
          = Outcome.ret (-1) (some Errno.EAGAIN)
    ∧ (sys_readwrite_nt nonblockFd 10 (-1) 3 0
        { fileType := 0, attempts := [pendingThenAborted] }).events.countP Event.isCancel = 1 :=
  ⟨by decide, by decide,
   (congrArg Run.outcome
      (sys_loop nonblockFd 10 (-1) 3 0 { fileType := 0, attempts := [pendingThenAborted] }
        (by decide))).trans
     (((C3_nonblocking_pending (entryCall nonblockFd 10 (-1) 3 0 0) (entryFrame nonblockFd)
        pendingThenAborted [] nonblockFd 10 (-1) 3 0
        { fileType := 0, attempts := [pendingThenAborted] }
        (by decide) (by decide)).2.2.2.1 rfl rfl).trans (by decide)),
   ((C3_nonblocking_pending (entryCall nonblockFd 10 (-1) 3 0 0) (entryFrame nonblockFd)
      pendingThenAborted [] nonblockFd 10 (-1) 3 0
      { fileType := 0, attempts := [pendingThenAborted] }
      (by decide) (by decide)).2.2.2.2 (by decide)).2 (-1)
     (by decide)⟩

/-! ## C4: an armed cancelation -/

/-- C4: on a blocking descriptor, a pass whose submission is reported pending
while `_check_cancel()` reports an armed (masked) cancelation makes the call
return -1 with ECANCELED, whatever the collection of the result reports
(`a.collectOk`, `a.exchanged` and `a.finalErr` are arbitrary), whatever the
frame the pass was entered with; the cursor is left as it was, the call ends in
that pass, and the pass neither dequeues nor relays a signal. -/
theorem C4_armed_cancelation (c : Call) (s : Frame) (a : Answers) (rest : List Answers)
    (hb : c.flags &&& _O_NONBLOCK = 0) (hp : reportedPending a = true)
    (hc : a.cancel1 = CancelCheck.masked) :
    (loop c s (a :: rest)).outcome = Outcome.ret (-1) (some Errno.ECANCELED)
    ∧ (loop c s (a :: rest)).pointer = s.pointer
    ∧ (loop c s (a :: rest)).events.countP Event.isDequeue = 0
    ∧ (loop c s (a :: rest)).events.countP Event.isRelay = 0
    ∧ (loop c s (a :: rest)).events
        = [Event.CreateEvent a.hEvent,
           Event.ReadOrWriteFile c.handle c.size { hEvent := a.hEvent, Pointer := c.offset },
           Event.GetLastError a.submitErr,
           Event._check_cancel CancelCheck.masked,
           Event.CancelIoEx c.handle { hEvent := a.hEvent, Pointer := c.offset },
           Event.GetOverlappedResult c.handle { hEvent := a.hEvent, Pointer := c.offset } true,
           Event.CloseHandle a.hEvent] := by
  have hok : a.submitOk = false := by
    unfold reportedPending at hp
    cases h : a.submitOk <;> simp_all
  have hs : settle c s a
      = { events := [Event.CreateEvent a.hEvent,
                     Event.ReadOrWriteFile c.handle c.size { hEvent := a.hEvent, Pointer := c.offset },
                     Event.GetLastError a.submitErr,
                     Event._check_cancel CancelCheck.masked,
                     Event.CancelIoEx c.handle { hEvent := a.hEvent, Pointer := c.offset },
                     Event.GetOverlappedResult c.handle { hEvent := a.hEvent, Pointer := c.offset } true,
                     Event.CloseHandle a.hEvent],
          sig := s.sig, eagained := s.eagained, canceled := true, ok := a.collectOk,
          exited := false } := by
    simp [settle, whenPending, hp, hb, hok, hc]
  have hat : attempt c s a
      = { events := [Event.CreateEvent a.hEvent,
                     Event.ReadOrWriteFile c.handle c.size { hEvent := a.hEvent, Pointer := c.offset },
                     Event.GetLastError a.submitErr,
                     Event._check_cancel CancelCheck.masked,
                     Event.CancelIoEx c.handle { hEvent := a.hEvent, Pointer := c.offset },
                     Event.GetOverlappedResult c.handle { hEvent := a.hEvent, Pointer := c.offset } true,
                     Event.CloseHandle a.hEvent],
          frame := { sig := s.sig, eagained := s.eagained, canceled := true, pointer := s.pointer },
          step := Step.done (Outcome.ret (-1) (some Errno.ECANCELED)) } := by
    simp [attempt, hs, reconcile]
  rw [loop_done c s a rest _ (by rw [hat])]
  simp [hat, Event.isDequeue, Event.isRelay]

/-- C4 on a blocking pipe-like descriptor: the transfer completed with 10
bytes, yet the call returns -1 with ECANCELED. -/
theorem C4_armed_cancelation_witness :
    pipeFd.flags &&& _O_NONBLOCK = 0
    ∧ reportedPending pendingCanceledDone = true
    ∧ pendingCanceledDone.collectOk = true
    ∧ (sys_readwrite_nt pipeFd 10 (-1) 3 0
        { fileType := 0, attempts := [pendingCanceledDone] }).outcome
          = Outcome.ret (-1) (some Errno.ECANCELED) :=
  ⟨by decide, by decide, by decide,
   (congrArg Run.outcome
      (sys_loop pipeFd 10 (-1) 3 0 { fileType := 0, attempts := [pendingCanceledDone] }
        (by decide))).trans
     (C4_armed_cancelation (entryCall pipeFd 10 (-1) 3 0 0) (entryFrame pipeFd)
        pendingCanceledDone [] (by decide) (by decide) (by decide)).1⟩

/-! ## C5: restart or EINTR -/

/-- C5: take a pass whose transfer fails (the submission fails at once, or
the collection of its result fails) with the platform error "operation
aborted", not caused by non-blocking mode, entered with no acknowledged
cancelation, in which no `_check_cancel()` reports a cancelation and every
relayed handler returns.  If some relay of the pass returned 1 (a handler
without auto-restart disposition ran) the call returns -1 with EINTR; otherwise
(no signal found, relay result 0, or auto-restart disposition) the pass jumps to
`RestartOperation`: the call has not returned, and with answers for a next pass
a second submission is made.  And whatever the pass, -1 with EINTR is returned
only when a relay of that pass returned 1. -/
theorem C5_restart_or_interrupted (c : Call) (s : Frame) (a b : Answers) (rest : List Answers) :
    ((a.submitOk = true ∨ reportedPending a = true → a.collectOk = false) →
      a.finalErr = kNtErrorOperationAborted →
      s.eagained = false ∧ ¬ (reportedPending a = true ∧ c.flags &&& _O_NONBLOCK ≠ 0) →
      s.canceled = false →
      noCancelObserved (attempt c s a).events = true →
      handlersReturn (attempt c s a).events = true →
        (interruptedBy (attempt c s a).events = true →
          (loop c s (a :: rest)).outcome = Outcome.ret (-1) (some Errno.EINTR))
        ∧ (interruptedBy (attempt c s a).events = false →
            (attempt c s a).step = Step.restart
            ∧ (loop c s [a]).outcome = Outcome.running
            ∧ 2 ≤ (loop c s (a :: b :: rest)).events.countP Event.isSubmit))
    ∧ (∀ rc, (attempt c s a).step = Step.done (Outcome.ret rc (some Errno.EINTR)) →
        interruptedBy (attempt c s a).events = true) := by
  refine ⟨?_, fun rc h => attempt_eintr c s a rc h⟩
  intro hfail herr hnb hc hcc hret
  have hstep := attempt_aborted_step c s a hfail herr hnb hc hcc hret
  refine ⟨fun hi => ?_, fun hi => ?_⟩
  · rw [hi] at hstep
    simp only [if_true] at hstep
    rw [loop_done c s a rest _ hstep]
  · rw [hi] at hstep
    simp only [Bool.false_eq_true, if_false] at hstep
    refine ⟨hstep, ?_, ?_⟩
    · rw [loop_restart c s a [] hstep]
      rfl
    · rw [loop_restart c s a (b :: rest) hstep]
      simp only [List.countP_append, (attempt_counts c s a).2.1]
      have h2 : 1 ≤ (loop c (attempt c s a).frame (b :: rest)).events.countP Event.isSubmit := by
        cases hst : (attempt c (attempt c s a).frame b).step with
        | restart =>
          rw [loop_restart _ _ b rest hst]
          simp only [List.countP_append, (attempt_counts c _ b).2.1]
          omega
        | done o =>
          rw [loop_done _ _ b rest o hst]
          simp only [(attempt_counts c _ b).2.1]
          omega
      omega

/-- C5 on the blocking pipe-like descriptor: with an auto-restart handler the
pass restarts and a second submission is made; with a handler without
auto-restart disposition the call returns -1 with EINTR. -/
theorem C5_restart_or_interrupted_witness :
    2 ≤ (loop (entryCall pipeFd 10 (-1) 3 0 0) (entryFrame pipeFd)
          [pendingSignalRestart, syncTen]).events.countP Event.isSubmit
    ∧ (loop (entryCall pipeFd 10 (-1) 3 0 0) (entryFrame pipeFd)
          [pendingSignalInterrupt]).outcome = Outcome.ret (-1) (some Errno.EINTR) :=
  ⟨(((C5_restart_or_interrupted (entryCall pipeFd 10 (-1) 3 0 0) (entryFrame pipeFd)
        pendingSignalRestart syncTen []).1
        (by decide) (by decide) (by decide) (by decide)
        (by decide)
        (by decide)).2
      (by decide)).2.2,
   ((C5_restart_or_interrupted (entryCall pipeFd 10 (-1) 3 0 0) (entryFrame pipeFd)
        pendingSignalInterrupt syncTen []).1
        (by decide) (by decide) (by decide) (by decide)
        (by decide)
        (by decide)).1
      (by decide)⟩

/-! ## C6: the restart after an auto-restart handler -/

/-- C6 fails as stated: the offset is not recomputed at the restart.  On the
regular file with its cursor at 100, the first pass is aborted by a signal
whose auto-restart handler leaves the cursor at 150: when the restart begins
the cursor stands at 150, yet the second submission is made at offset 100 and
its success sets the cursor to 110, not 160. -/
theorem C6_counterexample :
    (sys_readwrite_nt regularFile100 10 (-1) 3 0
        { fileType := kNtFileTypeDisk, attempts := [pendingSignalHandlerReads] }).outcome
      = Outcome.running
    ∧ (sys_readwrite_nt regularFile100 10 (-1) 3 0
        { fileType := kNtFileTypeDisk, attempts := [pendingSignalHandlerReads] }).pointer = 150
    ∧ submissions (sys_readwrite_nt regularFile100 10 (-1) 3 0
        { fileType := kNtFileTypeDisk,
          attempts := [pendingSignalHandlerReads, pendingWaitDone] }).events
      = [Event.ReadOrWriteFile 3 10 { hEvent := 7, Pointer := 100 },
         Event.ReadOrWriteFile 3 10 { hEvent := 7, Pointer := 100 }]
    ∧ (sys_readwrite_nt regularFile100 10 (-1) 3 0
        { fileType := kNtFileTypeDisk,
          attempts := [pendingSignalHandlerReads, pendingWaitDone] }).outcome
      = Outcome.ret 10 none
    ∧ (sys_readwrite_nt regularFile100 10 (-1) 3 0
        { fileType := kNtFileTypeDisk,
          attempts := [pendingSignalHandlerReads, pendingWaitDone] }).pointer = 110
    ∧ (sys_readwrite_nt regularFile100 10 (-1) 3 0
        { fileType := kNtFileTypeDisk,
          attempts := [pendingSignalHandlerReads, pendingWaitDone] }).pointer ≠ 150 + 10 := by
  decide

/-- C6 as amended: for a transfer that is not positional on a seekable
descriptor whose first pass is aborted because of a pending signal whose
handler has auto-restart disposition (`abortedWithAutoRestart`: the signal is
found at line 129 and the transfer cancelled, or the transfer is aborted while
the thread waits or at once and the signal is found at line 187): a second
submission is made at the same offset as the first, the cursor read at entry
(it is not read again at the restart, whatever the handler did to it); and
when the second transfer is collected as completed, with no cancelation
acknowledged or observed and a handler that returns if one is relayed in that
pass, the call returns the byte count of the second pass only and the cursor
becomes the cursor at entry plus that count, the sum being made in `ssize_t`
(the exact sum whenever that is a value of `ssize_t`). -/
theorem C6_restart_reuses_offset (f : Fd) (size : Nat) (handle : Int) (waitmask fileType : Nat)
    (a1 a2 : Answers) (rest : List Answers)
    (hseek : isSeekable f fileType = true)
    (habort : abortedWithAutoRestart f.flags a1)
    (hok2 : a2.collectOk = true ∧ (a2.submitOk = true ∨ reportedPending a2 = true))
    (hcancel2 : a2.cancel1 = CancelCheck.fine ∧ a2.cancel2 = CancelCheck.fine)
    (hret2 : a2.relay1.result ≠ none) :
    submissions (sys_readwrite_nt f size (-1) handle waitmask
        { fileType := fileType, attempts := a1 :: a2 :: rest }).events
      = [Event.ReadOrWriteFile handle (min size 0x7ffff000)
            { hEvent := a1.hEvent, Pointer := f.pointer },
         Event.ReadOrWriteFile handle (min size 0x7ffff000)
            { hEvent := a2.hEvent, Pointer := f.pointer }]
    ∧ (sys_readwrite_nt f size (-1) handle waitmask
        { fileType := fileType, attempts := a1 :: a2 :: rest }).outcome
      = Outcome.ret a2.exchanged none
    ∧ (sys_readwrite_nt f size (-1) handle waitmask
        { fileType := fileType, attempts := a1 :: a2 :: rest }).pointer
      = wrapSsize (f.pointer + a2.exchanged)
    ∧ (fitsSsize (f.pointer + a2.exchanged) →
        (sys_readwrite_nt f size (-1) handle waitmask
          { fileType := fileType, attempts := a1 :: a2 :: rest }).pointer
        = f.pointer + a2.exchanged) := by
  have hgo : ((-1 : Int) != -1 && !isSeekable f fileType) = false := by simp
  have hoff : (entryCall f size (-1) handle waitmask fileType).offset = f.pointer := by
    simp [entryCall, hseek]
  have hst1 : (attempt (entryCall f size (-1) handle waitmask fileType) (entryFrame f) a1).step
      = Step.restart :=
    attempt_aborted_restarts _ _ a1 rfl rfl rfl habort
  obtain ⟨-, hcan⟩ := attempt_restart_frame _ _ a1 hst1
  obtain ⟨q1, q2⟩ := attempt_completes (entryCall f size (-1) handle waitmask fileType)
    (attempt (entryCall f size (-1) handle waitmask fileType) (entryFrame f) a1).frame a2
    hcan (by simp [entryCall]) (by simp [entryCall, hseek]) hok2 hcancel2 hret2
  have hsub1 := attempt_submissions (entryCall f size (-1) handle waitmask fileType)
    (entryFrame f) a1
  have hsub2 := attempt_submissions (entryCall f size (-1) handle waitmask fileType)
    (attempt (entryCall f size (-1) handle waitmask fileType) (entryFrame f) a1).frame a2
  have hprobe : submissions (probe f handle) = [] := by
    unfold probe
    split_ifs <;> simp [submissions, Event.isSubmit, List.filter]
  rw [hoff] at q2 hsub1 hsub2
  have hptr : (sys_readwrite_nt f size (-1) handle waitmask
        { fileType := fileType, attempts := a1 :: a2 :: rest }).pointer
      = wrapSsize (f.pointer + a2.exchanged) := by
    rw [sys_loop f size (-1) handle waitmask _ hgo]
    rw [loop_restart _ _ a1 (a2 :: rest) hst1, loop_done _ _ a2 rest _ q1]
    exact q2
  refine ⟨?_, ?_, hptr, ?_⟩
  · rw [sys_loop f size (-1) handle waitmask _ hgo]
    rw [loop_restart _ _ a1 (a2 :: rest) hst1, loop_done _ _ a2 rest _ q1]
    unfold submissions at hprobe hsub1 hsub2 ⊢
    simp only [List.filter_append, hprobe, hsub1, hsub2]
    rfl
  · rw [sys_loop f size (-1) handle waitmask _ hgo]
    rw [loop_restart _ _ a1 (a2 :: rest) hst1, loop_done _ _ a2 rest _ q1]
  · intro hfit
    rw [hptr, wrapSsize_of_fits _ hfit]

/-- C6 as amended, on the regular file with its cursor at 100.  The signal is
found at line 129 and its handler leaves the cursor at 150; or the thread
waits, the transfer is aborted by another thread, the signal is found at
line 187 and its handler leaves the cursor at 150; or the submission fails at
once as aborted and the signal is found at line 187: every time both
submissions are made at offset 100, the call returns the 10 bytes of the
second pass and the cursor becomes 110. -/
theorem C6_restart_reuses_offset_witness :
    isSeekable regularFile100 kNtFileTypeDisk = true
    ∧ pendingSignalHandlerReads.relay1.seek = some 150
    ∧ (sys_readwrite_nt regularFile100 10 (-1) 3 0
        { fileType := kNtFileTypeDisk,
          attempts := [pendingSignalHandlerReads, pendingWaitDone] }).outcome
      = Outcome.ret 10 none
    ∧ (sys_readwrite_nt regularFile100 10 (-1) 3 0
        { fileType := kNtFileTypeDisk,
          attempts := [pendingSignalHandlerReads, pendingWaitDone] }).pointer = 100 + 10
    ∧ waitAbortedHandlerReads.sigGet1 = 0
    ∧ waitAbortedHandlerReads.relay2.seek = some 150
    ∧ submissions (sys_readwrite_nt regularFile100 10 (-1) 3 0
        { fileType := kNtFileTypeDisk,
          attempts := [waitAbortedHandlerReads, pendingWaitDone] }).events
      = [Event.ReadOrWriteFile 3 10 { hEvent := 7, Pointer := 100 },
         Event.ReadOrWriteFile 3 10 { hEvent := 7, Pointer := 100 }]
    ∧ (sys_readwrite_nt regularFile100 10 (-1) 3 0
        { fileType := kNtFileTypeDisk,
          attempts := [waitAbortedHandlerReads, pendingWaitDone] }).pointer = 100 + 10
    ∧ (sys_readwrite_nt regularFile100 10 (-1) 3 0
        { fileType := kNtFileTypeDisk,
          attempts := [syncAbortedSignalRestart, syncTenHandlerRuns] }).outcome
      = Outcome.ret 10 none
    ∧ (sys_readwrite_nt regularFile100 10 (-1) 3 0
        { fileType := kNtFileTypeDisk,
          attempts := [syncAbortedSignalRestart, syncTenHandlerRuns] }).pointer = 100 + 10 :=
  have h1 := C6_restart_reuses_offset regularFile100 10 3 0 kNtFileTypeDisk
    pendingSignalHandlerReads pendingWaitDone [] (by decide) (by decide) (by decide) (by decide)
    (by decide)
  have h2 := C6_restart_reuses_offset regularFile100 10 3 0 kNtFileTypeDisk
    waitAbortedHandlerReads pendingWaitDone [] (by decide) (by decide) (by decide) (by decide)
    (by decide)
  have h3 := C6_restart_reuses_offset regularFile100 10 3 0 kNtFileTypeDisk
    syncAbortedSignalRestart syncTenHandlerRuns [] (by decide) (by decide) (by decide)
    (by decide) (by decide)
  ⟨by decide, by decide, h1.2.1, h1.2.2.2 (by decide), by decide, by decide, h2.1,
    h2.2.2.2 (by decide), h3.2.1, h3.2.2.2 (by decide)⟩

/-! ## C7: a submission that completes at once -/

/-- C7: when the first submission of a call is reported complete at once and
its result is collected successfully, the call returns the byte count reported
by the platform and makes exactly the calls create, submit, collect, close:
it dequeues and relays no signal, does not consult the cancelation state and
issues no cancel, whatever `__sig_get`, `__sig_relay` and `_check_cancel` would
have answered. -/
theorem C7_immediate_completion (f : Fd) (size : Nat) (offset handle : Int) (waitmask : Nat)
    (fileType : Nat) (a : Answers) (rest : List Answers)
    (hsub : ¬ (offset ≠ -1 ∧ isSeekable f fileType = false))
    (hok : a.submitOk = true) (hcol : a.collectOk = true) :
    (sys_readwrite_nt f size offset handle waitmask
        { fileType := fileType, attempts := a :: rest }).outcome = Outcome.ret a.exchanged none
    ∧ (sys_readwrite_nt f size offset handle waitmask
        { fileType := fileType, attempts := a :: rest }).events.countP Event.isDequeue = 0
    ∧ (sys_readwrite_nt f size offset handle waitmask
        { fileType := fileType, attempts := a :: rest }).events.countP Event.isRelay = 0
    ∧ (sys_readwrite_nt f size offset handle waitmask
        { fileType := fileType, attempts := a :: rest }).events.countP Event.isCancelCheck = 0
    ∧ (sys_readwrite_nt f size offset handle waitmask
        { fileType := fileType, attempts := a :: rest }).events.countP Event.isCancel = 0
    ∧ (sys_readwrite_nt f size offset handle waitmask
        { fileType := fileType, attempts := a :: rest }).events.countP Event.isSubmit = 1 := by
  have hgo : (offset != -1 && !isSeekable f fileType) = false := by
    cases hs : isSeekable f fileType
    · by_cases ho : offset = -1
      · simp [ho]
      · exact absurd ⟨ho, hs⟩ hsub
    · simp
  have hp : reportedPending a = false := by simp [reportedPending, hok]
  have hat : ∀ c : Call, attempt c (entryFrame f) a
      = { events := [Event.CreateEvent a.hEvent,
                     Event.ReadOrWriteFile c.handle c.size { hEvent := a.hEvent, Pointer := c.offset },
                     Event.GetOverlappedResult c.handle { hEvent := a.hEvent, Pointer := c.offset } true,
                     Event.CloseHandle a.hEvent],
          frame := { sig := 0, eagained := false, canceled := false,
                     pointer := if !c.pwriting && c.seekable
                                then wrapSsize (c.offset + a.exchanged)
                                else f.pointer },
          step := Step.done (Outcome.ret a.exchanged none) } := by
    intro c
    simp [attempt, settle, hp, hok, hcol, reconcile, conclude, entryFrame]
  rw [sys_loop f size offset handle waitmask _ hgo]
  simp only []
  rw [loop_done _ _ a rest _ (by rw [hat])]
  by_cases hk : f.kind = FdKind.kFdFile <;>
    simp [hat, probe, hk, Event.isDequeue, Event.isRelay, Event.isCancelCheck, Event.isCancel,
      Event.isSubmit]

/-- C7 on the regular file with its cursor at 100: a signal is pending and a
cancelation is armed, the submission completes at once, the call returns 10. -/
theorem C7_immediate_completion_witness :
    syncTenSignalPending.sigGet1 ≠ 0
    ∧ (sys_readwrite_nt regularFile100 10 (-1) 3 0
        { fileType := kNtFileTypeDisk, attempts := [syncTenSignalPending] }).outcome
          = Outcome.ret 10 none
    ∧ (sys_readwrite_nt regularFile100 10 (-1) 3 0
        { fileType := kNtFileTypeDisk, attempts := [syncTenSignalPending] }).events.countP
          Event.isRelay = 0 :=
  ⟨by decide,
   (C7_immediate_completion regularFile100 10 (-1) 3 0 kNtFileTypeDisk syncTenSignalPending []
      (by decide) rfl rfl).1,
   (C7_immediate_completion regularFile100 10 (-1) 3 0 kNtFileTypeDisk syncTenSignalPending []
      (by decide) rfl rfl).2.2.1⟩

/-! ## C8: where signals are dequeued and relayed -/

/-- C8 fails as stated: when the first submission fails at once with
"operation aborted" (it is not reported pending), line 187 dequeues a signal
and line 188 relays it. -/
theorem C8_counterexample :
    reportedPending syncAbortedSignal = false
    ∧ (sys_readwrite_nt pipeFd 10 (-1) 3 0
        { fileType := 0, attempts := [syncAbortedSignal] }).events
        = [Event.CreateEvent 7, Event.ReadOrWriteFile 3 10 { hEvent := 7, Pointer := 0 },
           Event.GetLastError 995, Event.CloseHandle 7, Event.GetLastError 995,
           Event.__sig_get 0 14, Event.__sig_relay 14 SI_KERNEL 0 (some 1),
           Event._check_cancel CancelCheck.fine]
    ∧ (sys_readwrite_nt pipeFd 10 (-1) 3 0
        { fileType := 0, attempts := [syncAbortedSignal] }).events.countP Event.isDequeue = 1
    ∧ (sys_readwrite_nt pipeFd 10 (-1) 3 0
        { fileType := 0, attempts := [syncAbortedSignal] }).events.countP Event.isRelay = 1 := by
  decide

/-- C8 as amended: in every pass, a signal is dequeued (`__sig_get`) only if
the submission of that pass was reported pending, or the transfer of that pass
failed (at the submission or when its result was collected) and the platform
error then read is "operation aborted"; and in a pass entered with no signal
carried over from an earlier pass (as the first pass of a call is), a signal is
relayed (`__sig_relay`) only under the same condition. -/
theorem C8_signal_reachability (c : Call) (s : Frame) (a : Answers) :
    ((attempt c s a).events.countP Event.isDequeue ≠ 0 →
        reportedPending a = true
        ∨ ((a.submitOk = false ∨ a.collectOk = false)
            ∧ a.finalErr = kNtErrorOperationAborted))
    ∧ (s.sig = 0 → (attempt c s a).events.countP Event.isRelay ≠ 0 →
        reportedPending a = true
        ∨ ((a.submitOk = false ∨ a.collectOk = false)
            ∧ a.finalErr = kNtErrorOperationAborted)) := by
  by_cases hp : reportedPending a = true
  · exact ⟨fun _ => Or.inl hp, fun _ _ => Or.inl hp⟩
  · by_cases hq : (a.submitOk = false ∨ a.collectOk = false)
        ∧ a.finalErr = kNtErrorOperationAborted
    · exact ⟨fun _ => Or.inr hq, fun _ _ => Or.inr hq⟩
    · have hp2 : reportedPending a = false := by simpa using hp
      have hq2 : (a.submitOk = true ∧ a.collectOk = true)
          ∨ a.finalErr ≠ kNtErrorOperationAborted := by
        by_cases he : a.finalErr = kNtErrorOperationAborted
        · left
          cases hso : a.submitOk <;> cases hco : a.collectOk <;> simp_all
        · exact Or.inr he
      obtain ⟨q1, q2⟩ := attempt_quiet c s a hp2 hq2
      exact ⟨fun h => absurd q1 h, fun h0 h => absurd (q2 h0) h⟩

/-- C8 as amended, on the first pass of the call whose submission fails at
once with "operation aborted", and on one whose submission is pending. -/
theorem C8_signal_reachability_witness :
    (attempt (entryCall pipeFd 10 (-1) 3 0 0) (entryFrame pipeFd)
        syncAbortedSignal).events.countP Event.isDequeue ≠ 0
    ∧ (entryFrame pipeFd).sig = 0
    ∧ (attempt (entryCall pipeFd 10 (-1) 3 0 0) (entryFrame pipeFd)
        syncAbortedSignal).events.countP Event.isRelay ≠ 0
    ∧ (reportedPending syncAbortedSignal = true
        ∨ ((syncAbortedSignal.submitOk = false ∨ syncAbortedSignal.collectOk = false)
            ∧ syncAbortedSignal.finalErr = kNtErrorOperationAborted)) :=
  ⟨by decide, rfl, by decide,
   (C8_signal_reachability (entryCall pipeFd 10 (-1) 3 0 0) (entryFrame pipeFd)
      syncAbortedSignal).2 rfl (by decide)⟩

/-! ## C9: the completion event -/

/-- C9: along every execution of the function, whatever the environment
answers: the trace obeys the discipline of the completion event (an event is
created only when none is live, each submission is made with the live event,
the live event is the one that is closed, no event is live when a signal is
relayed nor when the trace ends: at a return, a thread exit, a handler jump or
a restart left without answers); as many events are created and closed as
submissions are made; each pass creates exactly one event, makes one
submission and closes one event; and a return of -1 with ESPIPE has created no
event. -/
theorem C9_event_lifecycle (f : Fd) (size : Nat) (offset handle : Int) (waitmask : Nat)
    (env : Env) (c : Call) (s : Frame) (a : Answers) :
    eventDiscipline none (sys_readwrite_nt f size offset handle waitmask env).events = true
    ∧ (sys_readwrite_nt f size offset handle waitmask env).events.countP Event.isCreate
        = (sys_readwrite_nt f size offset handle waitmask env).events.countP Event.isSubmit
    ∧ (sys_readwrite_nt f size offset handle waitmask env).events.countP Event.isClose
        = (sys_readwrite_nt f size offset handle waitmask env).events.countP Event.isSubmit
    ∧ ((attempt c s a).events.countP Event.isCreate = 1
        ∧ (attempt c s a).events.countP Event.isSubmit = 1
        ∧ (attempt c s a).events.countP Event.isClose = 1
        ∧ eventDiscipline none (attempt c s a).events = true)
    ∧ (∀ rc, (sys_readwrite_nt f size offset handle waitmask env).outcome
          = Outcome.ret rc (some Errno.ESPIPE) →
        (sys_readwrite_nt f size offset handle waitmask env).events.countP Event.isCreate = 0) := by
  have hprobe : ∀ e ∈ probe f handle, e.isPlatform = true ∧ e.isCreate = false
      ∧ e.isSubmit = false ∧ e.isClose = false := by
    intro e he
    unfold probe at he
    split_ifs at he <;> simp at he
    subst he
    simp [Event.isPlatform, Event.isCreate, Event.isSubmit, Event.isClose]
  have hpc : (probe f handle).countP Event.isCreate = 0 := by
    rw [List.countP_eq_zero]; intro e he; simp [(hprobe e he).2.1]
  have hps : (probe f handle).countP Event.isSubmit = 0 := by
    rw [List.countP_eq_zero]; intro e he; simp [(hprobe e he).2.2.1]
  have hpl : (probe f handle).countP Event.isClose = 0 := by
    rw [List.countP_eq_zero]; intro e he; simp [(hprobe e he).2.2.2]
  have hpd : ∀ tail, eventDiscipline none (probe f handle ++ tail) = eventDiscipline none tail := by
    intro tail
    unfold probe
    split_ifs <;> simp [eventDiscipline]
  have hpass : (attempt c s a).events.countP Event.isCreate = 1
        ∧ (attempt c s a).events.countP Event.isSubmit = 1
        ∧ (attempt c s a).events.countP Event.isClose = 1
        ∧ eventDiscipline none (attempt c s a).events = true := by
    obtain ⟨h1, h2, h3⟩ := attempt_counts c s a
    refine ⟨h1, h2, h3, ?_⟩
    have := attempt_discipline c s a []
    simpa [eventDiscipline] using this
  cases h : (offset != -1 && !isSeekable f env.fileType) with
  | true =>
    rw [sys_espipe _ _ _ _ _ _ h]
    refine ⟨?_, ?_, ?_, hpass, ?_⟩
    · have := hpd []
      simpa [eventDiscipline] using this
    · simp [hpc, hps]
    · simp [hpl, hps]
    · intro _ _
      exact hpc
  | false =>
    rw [sys_loop _ _ _ _ _ _ h]
    obtain ⟨i1, i2⟩ := loop_counts (entryCall f size offset handle waitmask env.fileType)
      env.attempts (entryFrame f)
    refine ⟨?_, ?_, ?_, hpass, ?_⟩
    · simp only []
      rw [hpd]
      exact loop_discipline _ _ _
    · simp only [List.countP_append, hpc, hps, i1]
    · simp only [List.countP_append, hpl, hps, i2]
    · intro rc hrc
      exact absurd hrc (loop_not_espipe _ _ _ rc)

/-! ## C10: cancel, then wait, then release -/

/-- C10: in every pass (whatever frame it is entered with and whatever the
environment answers) and in every call, each cancel `CancelIoEx(handle,
&overlap)` is followed at once by the blocking collection
`GetOverlappedResult(handle, &overlap, &got, true)` and then by
`CloseHandle(overlap.hEvent)`; the unwind hook `UnwindReadwrite` makes exactly
these three calls in this order; and in every pass whose submission is reported
pending (cancelled or waited for, returning Cancelled or not), the one
`CloseHandle` of the pass comes right after the blocking collection of the
operation's result. -/
theorem C10_cancel_wait_release (f : Fd) (size : Nat) (offset handle : Int) (waitmask : Nat)
    (env : Env) (c : Call) (s : Frame) (a : Answers) (rwc : ReadwriteResources) :
    cancelWaitRelease (attempt c s a).events = true
    ∧ cancelWaitRelease (sys_readwrite_nt f size offset handle waitmask env).events = true
    ∧ UnwindReadwrite rwc
        = [Event.CancelIoEx rwc.handle rwc.overlap,
           Event.GetOverlappedResult rwc.handle rwc.overlap true,
           Event.CloseHandle rwc.overlap.hEvent]
    ∧ cancelWaitRelease (UnwindReadwrite rwc) = true
    ∧ (reportedPending a = true →
        ∃ pre post, (attempt c s a).events
            = pre ++ Event.GetOverlappedResult c.handle
                        { hEvent := a.hEvent, Pointer := c.offset } true
                  :: Event.CloseHandle a.hEvent :: post
          ∧ pre.countP Event.isClose = 0 ∧ post.countP Event.isClose = 0) := by
  refine ⟨?_, ?_, rfl, ?_, ?_⟩
  · have := attempt_cancelWaitRelease c s a []
    simpa [cancelWaitRelease] using this
  · cases h : (offset != -1 && !isSeekable f env.fileType) with
    | true =>
      rw [sys_espipe _ _ _ _ _ _ h]
      unfold probe
      split_ifs <;> simp [cancelWaitRelease]
    | false =>
      rw [sys_loop _ _ _ _ _ _ h]
      have := loop_cancelWaitRelease (entryCall f size offset handle waitmask env.fileType)
        env.attempts (entryFrame f)
      unfold probe
      split_ifs <;> simpa [cancelWaitRelease] using this
  · simp [UnwindReadwrite, cancelWaitRelease, followsCancel]
  · intro hp
    obtain ⟨post, hev, hpost⟩ := attempt_events c s a
    obtain ⟨pre, hpre, hcount⟩ := settle_pending_shape c s a hp
    refine ⟨pre, post, ?_, hcount, countP_zero_of_not_platform _ isClose_platform _ hpost⟩
    rw [hev, hpre]
    simp

/-- C10 on the blocking pipe-like descriptor: a pass that cancels because a
cancelation is armed, and one that waits for the completion. -/
theorem C10_cancel_wait_release_witness :
    reportedPending pendingCanceledDone = true
    ∧ (attempt (entryCall pipeFd 10 (-1) 3 0 0) (entryFrame pipeFd) pendingCanceledDone).events
        = [Event.CreateEvent 7, Event.ReadOrWriteFile 3 10 { hEvent := 7, Pointer := 0 },
           Event.GetLastError 997, Event._check_cancel CancelCheck.masked,
           Event.CancelIoEx 3 { hEvent := 7, Pointer := 0 },
           Event.GetOverlappedResult 3 { hEvent := 7, Pointer := 0 } true,
           Event.CloseHandle 7]
    ∧ (∃ pre post, (attempt (entryCall pipeFd 10 (-1) 3 0 0) (entryFrame pipeFd)
            pendingWaitDone).events
          = pre ++ Event.GetOverlappedResult 3 { hEvent := 7, Pointer := 0 } true
                :: Event.CloseHandle 7 :: post
        ∧ pre.countP Event.isClose = 0 ∧ post.countP Event.isClose = 0) :=
  ⟨by decide, by decide,
   (C10_cancel_wait_release pipeFd 10 (-1) 3 0 { fileType := 0, attempts := [pendingWaitDone] }
      (entryCall pipeFd 10 (-1) 3 0 0) (entryFrame pipeFd) pendingWaitDone
      { handle := 3, overlap := { hEvent := 7, Pointer := 0 } }).2.2.2.2 (by decide)⟩

/-! ## C11: running the unwind hook twice -/

/-- C11 fails as stated: `UnwindReadwrite` has no guard, each invocation makes
its three calls; invoked twice on the same record it calls
`CloseHandle(rwc->overlap->hEvent)` twice, and the second close finds no live
event. -/
theorem C11_counterexample :
    (UnwindReadwrite sampleResources ++ UnwindReadwrite sampleResources).countP Event.isClose = 2
    ∧ ¬ (UnwindReadwrite sampleResources ++ UnwindReadwrite sampleResources).countP Event.isClose
          ≤ 1
    ∧ UnwindReadwrite sampleResources ++ UnwindReadwrite sampleResources
        = [Event.CancelIoEx 3 { hEvent := 7, Pointer := 0 },
           Event.GetOverlappedResult 3 { hEvent := 7, Pointer := 0 } true,
           Event.CloseHandle 7,
           Event.CancelIoEx 3 { hEvent := 7, Pointer := 0 },
           Event.GetOverlappedResult 3 { hEvent := 7, Pointer := 0 } true,
           Event.CloseHandle 7]
    ∧ eventDiscipline (some 7)
        (UnwindReadwrite sampleResources ++ UnwindReadwrite sampleResources) = false := by
  decide

/-- C11 as amended: every invocation of `UnwindReadwrite` closes the event of
its record exactly once (after one cancel), so two invocations on the same
record close it twice; the completion event is nevertheless released exactly
once in every pass of `sys_readwrite_nt`, because the hook is run at most once
per record: when `_check_cancel()` exits the thread inside the cleanup window
the hook makes the one close of the pass, and otherwise the hook is popped
without being run and line 151 makes it. -/
theorem C11_teardown_runs_once (rwc : ReadwriteResources) (c : Call) (s : Frame) (a : Answers) :
    (UnwindReadwrite rwc).countP Event.isClose = 1
    ∧ (UnwindReadwrite rwc).countP Event.isCancel = 1
    ∧ (UnwindReadwrite rwc ++ UnwindReadwrite rwc).countP Event.isClose = 2
    ∧ (attempt c s a).events.countP Event.isClose = 1
    ∧ eventDiscipline none (attempt c s a).events = true
    ∧ ((settle c s a).exited = true →
        ∃ pre, (attempt c s a).events
            = pre ++ UnwindReadwrite
                { handle := c.handle, overlap := { hEvent := a.hEvent, Pointer := c.offset } }
          ∧ pre.countP Event.isClose = 0)
    ∧ ((settle c s a).exited = false →
        ∃ pre post, (attempt c s a).events = pre ++ Event.CloseHandle a.hEvent :: post
          ∧ pre.countP Event.isClose = 0 ∧ post.countP Event.isClose = 0) := by
  refine ⟨by simp [UnwindReadwrite, Event.isClose, List.countP_cons],
    by simp [UnwindReadwrite, Event.isCancel, List.countP_cons],
    by simp [UnwindReadwrite, Event.isClose, List.countP_cons],
    (attempt_counts c s a).2.2, ?_, ?_, ?_⟩
  · have := attempt_discipline c s a []
    simpa [eventDiscipline] using this
  · intro h
    refine ⟨[Event.CreateEvent a.hEvent,
         Event.ReadOrWriteFile c.handle c.size { hEvent := a.hEvent, Pointer := c.offset },
         Event.GetLastError a.submitErr, Event._check_cancel CancelCheck.exits], ?_, ?_⟩
    · simp only [attempt, h, if_true]
      exact settle_exited c s a h
    · simp [Event.isClose, List.countP_cons]
  · intro _
    obtain ⟨post, hev, hpost⟩ := attempt_events c s a
    obtain ⟨pre, hpre, hcount⟩ := settle_close_last c s a
    refine ⟨pre, post, ?_, hcount, countP_zero_of_not_platform _ isClose_platform _ hpost⟩
    rw [hev, hpre]
    simp


/-! ## C12: the values returned -/

/-- C12: every value returned by the function is a byte count `>= 0` or -2,
with no errno raised, or -1 with one of ESPIPE, EAGAIN, ECANCELED, EINTR
raised.  And a pass whose transfer fails (the submission fails at once with an
error other than "pending", or the collection of its result fails), with a
platform error other than "operation aborted", entered with no acknowledged
cancelation, in which no `_check_cancel()` reports a cancelation and every
relayed handler returns, ends the call with -2: no further submission is made,
and the cursor is as it was before the pass when the handler relayed in that
pass, if any, did not write it. -/
theorem C12_return_values (f : Fd) (size : Nat) (offset handle : Int) (waitmask : Nat)
    (env : Env) (c : Call) (s : Frame) (a : Answers) (rest : List Answers) :
    (∀ rc raised,
        (sys_readwrite_nt f size offset handle waitmask env).outcome = Outcome.ret rc raised →
        (0 ≤ rc ∧ raised = none)
        ∨ (rc = -1 ∧ (raised = some Errno.ESPIPE ∨ raised = some Errno.EAGAIN
                      ∨ raised = some Errno.ECANCELED ∨ raised = some Errno.EINTR))
        ∨ (rc = -2 ∧ raised = none))
    ∧ ((a.submitOk = true ∨ reportedPending a = true → a.collectOk = false) →
        a.finalErr ≠ kNtErrorOperationAborted →
        s.canceled = false →
        noCancelObserved (attempt c s a).events = true →
        handlersReturn (attempt c s a).events = true →
          (loop c s (a :: rest)).outcome = Outcome.ret (-2) none
          ∧ (loop c s (a :: rest)).events.countP Event.isSubmit = 1
          ∧ (a.relay1.seek = none → (loop c s (a :: rest)).pointer = s.pointer)) := by
  constructor
  · intro rc raised hret
    cases h : (offset != -1 && !isSeekable f env.fileType) with
    | true =>
      rw [sys_espipe _ _ _ _ _ _ h] at hret
      simp only [Outcome.ret.injEq] at hret
      obtain ⟨h1, h2⟩ := hret
      subst h1 h2
      right; left
      exact ⟨rfl, Or.inl rfl⟩
    | false =>
      rw [sys_loop _ _ _ _ _ _ h] at hret
      simp only [] at hret
      rcases loop_passEnd (entryCall f size offset handle waitmask env.fileType) env.attempts
        (entryFrame f) with hrun | hend
      · rw [hrun] at hret
        exact Outcome.noConfusion hret
      · rw [hret] at hend
        cases raised with
        | none =>
          simp only [Outcome.isPassEnd] at hend
          rcases hend with h0 | h2
          · exact Or.inl ⟨h0, rfl⟩
          · exact Or.inr (Or.inr ⟨h2, rfl⟩)
        | some e =>
          simp only [Outcome.isPassEnd] at hend
          right; left
          refine ⟨hend.1, ?_⟩
          cases e <;> simp
  · intro hfail herr hc hcc hret
    obtain ⟨hstep, hptr⟩ := attempt_other_error c s a hfail herr hc hcc hret
    rw [loop_done c s a rest _ hstep]
    exact ⟨rfl, (attempt_counts c s a).2.1, hptr⟩

/-- C12 on the regular file with its cursor at 100, when the submission fails
at once with "access denied": the call returns -2 and the cursor stays 100. -/
theorem C12_return_values_witness :
    (sys_readwrite_nt regularFile100 10 (-1) 3 0
        { fileType := kNtFileTypeDisk, attempts := [syncFailsDenied] }).outcome
      = Outcome.ret (-2) none
    ∧ (loop (entryCall regularFile100 10 (-1) 3 0 kNtFileTypeDisk) (entryFrame regularFile100)
        [syncFailsDenied]).pointer = 100 :=
  ⟨(congrArg Run.outcome
      (sys_loop regularFile100 10 (-1) 3 0
        { fileType := kNtFileTypeDisk, attempts := [syncFailsDenied] } (by decide))).trans
     ((C12_return_values regularFile100 10 (-1) 3 0
        { fileType := kNtFileTypeDisk, attempts := [syncFailsDenied] }
        (entryCall regularFile100 10 (-1) 3 0 kNtFileTypeDisk) (entryFrame regularFile100)
        syncFailsDenied []).2 (by decide) (by decide) (by decide) (by decide) (by decide)).1,
   ((C12_return_values regularFile100 10 (-1) 3 0
        { fileType := kNtFileTypeDisk, attempts := [syncFailsDenied] }
        (entryCall regularFile100 10 (-1) 3 0 kNtFileTypeDisk) (entryFrame regularFile100)
        syncFailsDenied []).2 (by decide) (by decide) (by decide) (by decide)
        (by decide)).2.2 (by decide)⟩


/-! ## C19: the order of the checks on a pending submission -/

/-- C19: when the submission of a pass is reported pending, lines 111-151 make
exactly the following calls, in this order, according to the first condition
that holds.  On a non-blocking descriptor: one cancel, no cancelation check,
no dequeue.  Otherwise, when `_check_cancel()` reports a cancelation (masked:
the pass goes on and cancels; deferred: the thread exits and the unwind hook
cancels): one cancel, no dequeue.  Otherwise, when `__sig_get` finds a signal: the
dequeue, one cancel, no publication of blocked state and no wait.  Otherwise:
the blocked-on-i/o state is published with the mask, the handle and the
operation record of the pass, the thread waits on the completion event, no
cancel is issued, and the published state is cleared after the wait and before
the result is collected and the event closed. -/
theorem C19_pending_priority (c : Call) (s : Frame) (a : Answers)
    (hp : reportedPending a = true) :
    (c.flags &&& _O_NONBLOCK ≠ 0 →
      (settle c s a).events
        = [Event.CreateEvent a.hEvent,
           Event.ReadOrWriteFile c.handle c.size { hEvent := a.hEvent, Pointer := c.offset },
           Event.GetLastError a.submitErr,
           Event.CancelIoEx c.handle { hEvent := a.hEvent, Pointer := c.offset },
           Event.GetOverlappedResult c.handle { hEvent := a.hEvent, Pointer := c.offset } true,
           Event.CloseHandle a.hEvent]
      ∧ (settle c s a).events.countP Event.isCancel = 1
      ∧ (settle c s a).events.countP Event.isCancelCheck = 0
      ∧ (settle c s a).events.countP Event.isDequeue = 0)
    ∧ (c.flags &&& _O_NONBLOCK = 0 → a.cancel1 = CancelCheck.masked →
      (settle c s a).events
        = [Event.CreateEvent a.hEvent,
           Event.ReadOrWriteFile c.handle c.size { hEvent := a.hEvent, Pointer := c.offset },
           Event.GetLastError a.submitErr,
           Event._check_cancel CancelCheck.masked,
           Event.CancelIoEx c.handle { hEvent := a.hEvent, Pointer := c.offset },
           Event.GetOverlappedResult c.handle { hEvent := a.hEvent, Pointer := c.offset } true,
           Event.CloseHandle a.hEvent]
      ∧ (settle c s a).events.countP Event.isCancel = 1
      ∧ (settle c s a).events.countP Event.isDequeue = 0)
    ∧ (c.flags &&& _O_NONBLOCK = 0 → a.cancel1 = CancelCheck.exits →
      (settle c s a).events
        = [Event.CreateEvent a.hEvent,
           Event.ReadOrWriteFile c.handle c.size { hEvent := a.hEvent, Pointer := c.offset },
           Event.GetLastError a.submitErr,
           Event._check_cancel CancelCheck.exits,
           Event.CancelIoEx c.handle { hEvent := a.hEvent, Pointer := c.offset },
           Event.GetOverlappedResult c.handle { hEvent := a.hEvent, Pointer := c.offset } true,
           Event.CloseHandle a.hEvent]
      ∧ (settle c s a).events.countP Event.isCancel = 1
      ∧ (settle c s a).events.countP Event.isDequeue = 0)
    ∧ (c.flags &&& _O_NONBLOCK = 0 → a.cancel1 = CancelCheck.fine → a.sigGet1 ≠ 0 →
      (settle c s a).events
        = [Event.CreateEvent a.hEvent,
           Event.ReadOrWriteFile c.handle c.size { hEvent := a.hEvent, Pointer := c.offset },
           Event.GetLastError a.submitErr,
           Event._check_cancel CancelCheck.fine,
           Event.__sig_get c.waitmask a.sigGet1,
           Event.CancelIoEx c.handle { hEvent := a.hEvent, Pointer := c.offset },
           Event.GetOverlappedResult c.handle { hEvent := a.hEvent, Pointer := c.offset } true,
           Event.CloseHandle a.hEvent]
      ∧ (settle c s a).sig = a.sigGet1
      ∧ (settle c s a).events.countP Event.isCancel = 1
      ∧ (settle c s a).events.countP Event.isPublish = 0
      ∧ (settle c s a).events.countP Event.isWait = 0)
    ∧ (c.flags &&& _O_NONBLOCK = 0 → a.cancel1 = CancelCheck.fine → a.sigGet1 = 0 →
      (settle c s a).events
        = [Event.CreateEvent a.hEvent,
           Event.ReadOrWriteFile c.handle c.size { hEvent := a.hEvent, Pointer := c.offset },
           Event.GetLastError a.submitErr,
           Event._check_cancel CancelCheck.fine,
           Event.__sig_get c.waitmask 0,
           Event.publish c.waitmask c.handle { hEvent := a.hEvent, Pointer := c.offset },
           Event.WaitForSingleObject a.hEvent,
           Event.unpublish,
           Event.GetOverlappedResult c.handle { hEvent := a.hEvent, Pointer := c.offset } true,
           Event.CloseHandle a.hEvent]
      ∧ (settle c s a).events.countP Event.isCancel = 0
      ∧ (settle c s a).events.countP Event.isPublish = 1
      ∧ (settle c s a).events.countP Event.isWait = 1) := by
  have hok : a.submitOk = false := by
    unfold reportedPending at hp
    cases h : a.submitOk <;> simp_all
  refine ⟨fun hnb => ?_, fun hb hc => ?_, fun hb hc => ?_, fun hb hc hsg => ?_,
    fun hb hc hsg => ?_⟩
  · simp [settle, whenPending, hp, hok, hnb, Event.isCancel, Event.isCancelCheck,
      Event.isDequeue, List.countP_cons]
  · simp [settle, whenPending, hp, hok, hb, hc, Event.isCancel, Event.isDequeue,
      List.countP_cons]
  · simp [settle, whenPending, UnwindReadwrite, hp, hok, hb, hc, Event.isCancel,
      Event.isDequeue, List.countP_cons]
  · simp [settle, whenPending, hp, hok, hb, hc, hsg, Event.isCancel, Event.isPublish,
      Event.isWait, List.countP_cons]
  · simp [settle, whenPending, hp, hok, hb, hc, hsg, Event.isCancel, Event.isPublish,
      Event.isWait, List.countP_cons]

/-- C19 on the blocking pipe-like descriptor, for a pending submission with no
cancelation armed and no signal pending: the thread publishes, waits and clears;
and on the non-blocking descriptor: one cancel and nothing else is consulted. -/
theorem C19_pending_priority_witness :
    reportedPending pendingWaitDone = true
    ∧ (settle (entryCall pipeFd 10 (-1) 3 0 0) (entryFrame pipeFd) pendingWaitDone).events
        = [Event.CreateEvent 7, Event.ReadOrWriteFile 3 10 { hEvent := 7, Pointer := 0 },
           Event.GetLastError 997, Event._check_cancel CancelCheck.fine, Event.__sig_get 0 0,
           Event.publish 0 3 { hEvent := 7, Pointer := 0 }, Event.WaitForSingleObject 7,
           Event.unpublish,
           Event.GetOverlappedResult 3 { hEvent := 7, Pointer := 0 } true,
           Event.CloseHandle 7]
    ∧ (settle (entryCall nonblockFd 10 (-1) 3 0 0) (entryFrame nonblockFd)
        pendingThenAborted).events.countP Event.isCancel = 1 :=
  ⟨by decide,
   ((C19_pending_priority (entryCall pipeFd 10 (-1) 3 0 0) (entryFrame pipeFd) pendingWaitDone
      (by decide)).2.2.2.2 (by decide) (by decide) (by decide)).1,
   ((C19_pending_priority (entryCall nonblockFd 10 (-1) 3 0 0) (entryFrame nonblockFd)
      pendingThenAborted (by decide)).1 (by decide)).2.1⟩

/-! ## C20: dequeued signals and relays -/

/-- C20, the code at the failing input: on the blocking pipe-like descriptor
the first pass is reported pending, dequeues signal 14, cancels, and relays it
to a handler with auto-restart disposition; the restarted pass completes at
once, dequeues nothing, and line 161 relays signal 14 a second time because
`sig` still holds it.  The call makes one non-zero dequeue and two relays, and
the second relay passes a signal that was not dequeued in its pass. -/
theorem C20_stale_signal_relayed_again :
    (sys_readwrite_nt pipeFd 10 (-1) 3 0
        { fileType := 0, attempts := [pendingSignalRestart, syncTenHandlerRuns] }).events
      = [Event.CreateEvent 7, Event.ReadOrWriteFile 3 10 { hEvent := 7, Pointer := 0 },
         Event.GetLastError 997, Event._check_cancel CancelCheck.fine, Event.__sig_get 0 14,
         Event.CancelIoEx 3 { hEvent := 7, Pointer := 0 },
         Event.GetOverlappedResult 3 { hEvent := 7, Pointer := 0 } true,
         Event.CloseHandle 7,
         Event.__sig_relay 14 SI_KERNEL 0 (some 2), Event._check_cancel CancelCheck.fine,
         Event.GetLastError 995,
         Event.CreateEvent 7, Event.ReadOrWriteFile 3 10 { hEvent := 7, Pointer := 0 },
         Event.GetOverlappedResult 3 { hEvent := 7, Pointer := 0 } true,
         Event.CloseHandle 7,
         Event.__sig_relay 14 SI_KERNEL 0 (some 2), Event._check_cancel CancelCheck.fine]
    ∧ (sys_readwrite_nt pipeFd 10 (-1) 3 0
        { fileType := 0, attempts := [pendingSignalRestart, syncTenHandlerRuns] }).events.countP
          Event.isSignalFound = 1
    ∧ (sys_readwrite_nt pipeFd 10 (-1) 3 0
        { fileType := 0, attempts := [pendingSignalRestart, syncTenHandlerRuns] }).events.countP
          Event.isRelay = 2
    ∧ (attempt (entryCall pipeFd 10 (-1) 3 0 0)
        (attempt (entryCall pipeFd 10 (-1) 3 0 0) (entryFrame pipeFd) pendingSignalRestart).frame
        syncTenHandlerRuns).events.countP Event.isDequeue = 0
    ∧ (attempt (entryCall pipeFd 10 (-1) 3 0 0)
        (attempt (entryCall pipeFd 10 (-1) 3 0 0) (entryFrame pipeFd) pendingSignalRestart).frame
        syncTenHandlerRuns).events.countP Event.isRelay = 1
    ∧ (sys_readwrite_nt pipeFd 10 (-1) 3 0
        { fileType := 0, attempts := [pendingSignalRestart, syncTenHandlerRuns] }).outcome
      = Outcome.ret 10 none := by
  decide


end ReadwriteNt

namespace Http

/-! ## Lemmas on the parser -/

theorem scan_append (gm gh : List UInt8 → Int) (p s1 s2 : List UInt8) :
    ∀ r : HttpRequest, scan gm gh p (s1 ++ s2) r
      = match scan gm gh p s1 r with
        | (none, r1) => scan gm gh p s2 r1
        | (some ret, r1) => (some ret, r1) := by
  induction s1 with
  | nil => intro r; simp [scan]
  | cons c cs ih =>
    intro r
    simp only [List.cons_append, scan]
    cases body gm gh p c r with
    | next r1 => simpa using ih _
    | ret rc r1 => rfl
    | bad r1 => rfl

theorem scan_append_none (gm gh : List UInt8 → Int) (p s1 s2 : List UInt8) (r r1 : HttpRequest)
    (h : scan gm gh p s1 r = (none, r1)) :
    scan gm gh p (s1 ++ s2) r = scan gm gh p s2 r1 := by
  rw [scan_append, h]

theorem scan_append_some (gm gh : List UInt8 → Int) (p s1 s2 : List UInt8) (r r1 : HttpRequest)
    (ret : Ret) (h : scan gm gh p s1 r = (some ret, r1)) :
    scan gm gh p (s1 ++ s2) r = (some ret, r1) := by
  rw [scan_append, h]

theorem body_idle (gm gh : List UInt8 → Int) (p : List UInt8) (c : UInt8) (r : HttpRequest)
    (h : idle r.t c) : body gm gh p c r = Flow.next r := by
  unfold idle at h
  unfold body
  split at h <;> simp_all [caseMETHOD, caseHVAL]

theorem scan_idle (gm gh : List UInt8 → Int) (p s : List UInt8) :
    ∀ r : HttpRequest, (∀ c ∈ s, idle r.t c) →
      scan gm gh p s r = (none, { r with i := r.i + s.length }) := by
  induction s with
  | nil => intro r _; simp [scan]
  | cons c cs ih =>
    intro r h
    have hc := body_idle gm gh p c r (h c (List.mem_cons_self c cs))
    simp only [scan, hc]
    rw [ih { r with i := r.i + 1 } (fun d hd => h d (List.mem_cons_of_mem c hd))]
    simp [Nat.add_assoc, Nat.add_comm 1]

theorem scan_start (gm gh : List UInt8 → Int) (p : List UInt8) (c : UInt8) (cs : List UInt8)
    (r : HttpRequest) (ht : r.t = ParserState.START) (hc : c ≠ 13 ∧ c ≠ 10) :
    scan gm gh p (c :: cs) r = scan gm gh p (c :: cs) { r with t := ParserState.METHOD } := by
  simp [scan, body, ht, hc.1, hc.2]

theorem scan_request_line (gm gh : List UInt8 → Int) (p : List UInt8) (l : RequestLine)
    (hwf : l.wellFormed gm) (r : HttpRequest) (ht : r.t = ParserState.START)
    (ha : r.a = r.i) (hp : bytesAt p r.i l.method.length = l.method) :
    scan gm gh p l.encode r
      = (none, { r with
          t := ParserState.LF1,
          i := r.i + l.encode.length,
          method := gm l.method,
          uri := { a := r.i + l.method.length + 1,
                   b := r.i + l.method.length + 1 + l.uri.length },
          version := match l.version with
            | some v => { a := r.i + l.method.length + 1 + l.uri.length + 1,
                          b := r.i + l.method.length + 1 + l.uri.length + 1 + v.length }
            | none => r.version }) := by
  obtain ⟨hgm, hm, hm0, hu0, hu, hv⟩ := hwf
  have hstart : scan gm gh p l.encode r
      = scan gm gh p l.encode { r with t := ParserState.METHOD } := by
    unfold RequestLine.encode
    cases hM : l.method with
    | nil => exact scan_start gm gh p 32 _ r ht (by decide)
    | cons d ds =>
      rw [hM] at hm0
      exact scan_start gm gh p d _ r ht (hm0 d (by simp))
  rw [hstart]
  unfold RequestLine.encode
  rw [scan_append_none gm gh p _ _ _ _
    (scan_idle gm gh p l.method { r with t := ParserState.METHOD } (fun c hc => hm c hc))]
  have hlen : r.i + l.method.length - r.i = l.method.length := by omega
  have hulen : l.uri.length ≠ 0 := by
    intro h0
    exact hu0 (List.length_eq_zero.mp h0)
  have hne : ¬ (r.i + l.method.length + 1 + l.uri.length = r.i + l.method.length + 1) := by omega
  simp only [scan, body, caseMETHOD, if_true, hlen, ha, hp, hgm, ne_eq, not_false_eq_true]
  rw [scan_append_none gm gh p _ _ _ _
    (scan_idle gm gh p l.uri
      { i := r.i + l.method.length + 1, t := ParserState.URI, a := r.i, h := r.h,
        method := gm l.method, uri := { a := r.i + l.method.length + 1, b := r.uri.b },
        version := r.version, headers := r.headers } (fun c hc => hu c hc))]
  cases hver : l.version with
  | none =>
    cases hcr : l.crlf <;>
      simp [versionPart, eol, scan, body, hne]
    all_goals omega
  | some v =>
    have hvv := hv v (by simp [hver])
    simp only [versionPart, List.cons_append, scan, body, if_true, true_or, hne, if_false,
      List.append_eq]
    rw [scan_append_none gm gh p _ _ _ _
      (scan_idle gm gh p v
        { i := r.i + l.method.length + 1 + l.uri.length + 1, t := ParserState.VERSION, a := r.i,
          h := r.h, method := gm l.method,
          uri := { a := r.i + l.method.length + 1, b := r.i + l.method.length + 1 + l.uri.length },
          version := { a := r.i + l.method.length + 1 + l.uri.length + 1, b := r.version.b },
          headers := r.headers } (fun c hc => hvv c hc))]
    cases hcr : l.crlf <;>
      simp [eol, scan, body]
    all_goals omega

theorem scan_header_pieces (gm gh : List UInt8 → Int) (p name lead rest : List UInt8)
    (crlf : Bool) (r : HttpRequest) (ht : r.t = ParserState.LF1)
    (hn0 : ∀ c ∈ name.head?, c ≠ 32 ∧ c ≠ 9 ∧ c ≠ 58 ∧ c ≠ 13 ∧ c ≠ 10) (hne : name ≠ [])
    (hn : ∀ c ∈ name, c ≠ 58) (hlead : ∀ c ∈ lead, c = 32 ∨ c = 9)
    (hrest0 : ∀ c ∈ rest.head?, c ≠ 32 ∧ c ≠ 9) (hrest : ∀ c ∈ rest, c ≠ 13 ∧ c ≠ 10)
    (hp : bytesAt p r.i name.length = name) :
    scan gm gh p (name ++ 58 :: (lead ++ (rest ++ eol crlf))) r
      = (none, { r with
          t := ParserState.LF1,
          i := r.i + (name.length + 1 + lead.length + rest.length + (eol crlf).length),
          a := r.i + name.length + 1 + lead.length,
          h := gh name,
          headers := if gh name ≠ -1 then
              Function.update r.headers (gh name)
                { a := r.i + name.length + 1 + lead.length,
                  b := r.i + name.length + 1 + lead.length + rest.length }
            else r.headers }) := by
  cases hname : name with
  | nil => exact absurd hname hne
  | cons c cs =>
    rw [hname] at hn0 hn hp
    obtain ⟨c1, c2, c3, c4, c5⟩ := hn0 c (by simp)
    have hcs : ∀ d ∈ cs, d ≠ 58 := fun d hd => hn d (List.mem_cons_of_mem c hd)
    have hlen : r.i + 1 + cs.length - r.i = (c :: cs).length := by
      simp only [List.length_cons]; omega
    simp only [List.cons_append, scan, body, ht, c1, c2, c3, c4, c5, if_false, or_self,
      List.append_eq]
    rw [scan_append_none gm gh p _ _ _ _
      (scan_idle gm gh p cs
        { i := r.i + 1, t := ParserState.HKEY, a := r.i, h := r.h, method := r.method,
          uri := r.uri, version := r.version, headers := r.headers } hcs)]
    simp only [scan, body, if_true, hlen, hp]
    rw [scan_append_none gm gh p _ _ _ _
      (scan_idle gm gh p lead
        { i := r.i + 1 + cs.length + 1, t := ParserState.HSEP, a := r.i, h := gh (c :: cs),
          method := r.method, uri := r.uri, version := r.version, headers := r.headers } hlead)]
    cases hrest' : rest with
    | nil =>
      cases crlf <;>
        simp [eol, scan, body, caseHVAL, Nat.add_assoc, Nat.add_comm, Nat.add_left_comm]
    | cons d ds =>
      rw [hrest'] at hrest0 hrest
      obtain ⟨d1, d2⟩ := hrest0 d (by simp)
      obtain ⟨d3, d4⟩ := hrest d (by simp)
      have hds : ∀ e ∈ ds, e ≠ 13 ∧ e ≠ 10 := fun e he => hrest e (List.mem_cons_of_mem d he)
      simp only [List.cons_append, scan, body, caseHVAL, d1, d2, d3, d4, or_self, if_false,
        List.append_eq]
      rw [scan_append_none gm gh p _ _ _ _
        (scan_idle gm gh p ds
          { i := r.i + 1 + cs.length + 1 + lead.length + 1, t := ParserState.HVAL,
            a := r.i + 1 + cs.length + 1 + lead.length, h := gh (c :: cs),
            method := r.method, uri := r.uri, version := r.version, headers := r.headers } hds)]
      cases crlf <;>
        simp [eol, scan, body, caseHVAL, Nat.add_assoc, Nat.add_comm, Nat.add_left_comm]

theorem bytesAt_mid (pre tok post : List UInt8) :
    bytesAt (pre ++ (tok ++ post)) pre.length tok.length = tok := by
  simp [bytesAt]

theorem sliceOf_mid (pre tok post : List UInt8) (a b : Nat) (ha : a = pre.length)
    (hb : b = pre.length + tok.length) :
    sliceOf (pre ++ (tok ++ post)) { a := a, b := b } = tok := by
  subst ha hb
  simp [sliceOf]

theorem scan_header_line (gm gh : List UInt8 → Int) (p : List UInt8) (l : HeaderLine)
    (hwf : l.wellFormed) (r : HttpRequest) (ht : r.t = ParserState.LF1)
    (hp : bytesAt p r.i l.name.length = l.name) :
    scan gm gh p l.encode r
      = (none, { r with
          t := ParserState.LF1,
          i := r.i + l.encode.length,
          a := l.valueStart r.i,
          h := gh l.name,
          headers := if gh l.name ≠ -1 then
              Function.update r.headers (gh l.name)
                { a := l.valueStart r.i, b := l.valueEnd r.i }
            else r.headers }) := by
  obtain ⟨hn0, hne, hn, hows, hval⟩ := hwf
  have hsplit : l.value = l.value.takeWhile isBlank ++ l.value.dropWhile isBlank :=
    (List.takeWhile_append_dropWhile isBlank l.value).symm
  have hlead : ∀ c ∈ l.ows ++ l.value.takeWhile isBlank, c = 32 ∨ c = 9 := by
    intro c hc
    rcases List.mem_append.mp hc with h | h
    · exact hows c h
    · have := List.mem_takeWhile_imp h
      simpa [isBlank] using this
  have hrest0 : ∀ c ∈ (l.value.dropWhile isBlank).head?, c ≠ 32 ∧ c ≠ 9 := by
    intro c hc
    have := List.head?_dropWhile_not isBlank l.value
    rw [Option.mem_def.mp hc] at this
    simp [isBlank] at this
    exact this
  have hrest : ∀ c ∈ l.value.dropWhile isBlank, c ≠ 13 ∧ c ≠ 10 := by
    intro c hc
    apply hval c
    rw [hsplit]
    exact List.mem_append_right _ hc
  have henc : l.encode
      = l.name ++ 58 :: ((l.ows ++ l.value.takeWhile isBlank)
          ++ (l.value.dropWhile isBlank ++ eol l.crlf)) := by
    unfold HeaderLine.encode
    rw [List.append_assoc, ← List.append_assoc (l.value.takeWhile isBlank),
      List.takeWhile_append_dropWhile]
  have hvl : l.value.length
      = (l.value.takeWhile isBlank).length + (l.value.dropWhile isBlank).length := by
    rw [← List.length_append, List.takeWhile_append_dropWhile]
  rw [henc, scan_header_pieces gm gh p l.name _ _ l.crlf r ht hn0 hne hn hlead hrest0 hrest hp]
  simp only [HeaderLine.valueStart, HeaderLine.valueEnd, List.length_append, List.length_cons,
    hvl]
  simp [Nat.add_assoc, Nat.add_comm, Nat.add_left_comm]

theorem sliceOf_value (pre post : List UInt8) (l : HeaderLine) :
    sliceOf (pre ++ (l.encode ++ post))
        { a := l.valueStart pre.length, b := l.valueEnd pre.length }
      = stripBlanks l.value := by
  have hvl : l.value.length
      = (l.value.takeWhile isBlank).length + (l.value.dropWhile isBlank).length := by
    rw [← List.length_append, List.takeWhile_append_dropWhile]
  have hp : pre ++ (l.encode ++ post)
      = (pre ++ (l.name ++ 58 :: (l.ows ++ l.value.takeWhile isBlank)))
        ++ (l.value.dropWhile isBlank ++ (eol l.crlf ++ post)) := by
    unfold HeaderLine.encode
    simp
    rw [← List.append_assoc (l.value.takeWhile isBlank), List.takeWhile_append_dropWhile]
  rw [hp]
  unfold stripBlanks
  apply sliceOf_mid
  · simp [HeaderLine.valueStart]
    omega
  · simp [HeaderLine.valueEnd]
    omega

theorem scan_lines (gm gh : List UInt8 → Int) (hs : List HeaderLine) :
    ∀ (pre post : List UInt8) (r : HttpRequest),
      (∀ l ∈ hs, l.wellFormed) →
      r.t = ParserState.LF1 → r.i = pre.length →
      ∃ r1, scan gm gh (pre ++ (encodeLines hs ++ post)) (encodeLines hs) r = (none, r1)
        ∧ r1.t = ParserState.LF1
        ∧ r1.i = r.i + (encodeLines hs).length
        ∧ r1.method = r.method ∧ r1.uri = r.uri ∧ r1.version = r.version
        ∧ (∀ h, (∀ l ∈ hs, gh l.name ≠ h) → r1.headers h = r.headers h)
        ∧ (distinctHeaders gh hs → ∀ l ∈ hs, gh l.name ≠ -1 →
            sliceOf (pre ++ (encodeLines hs ++ post)) (r1.headers (gh l.name))
              = stripBlanks l.value) := by
  induction hs with
  | nil =>
    intro pre post r _ ht hi
    exact ⟨r, by simp [encodeLines, scan], ht, by simp [encodeLines], rfl, rfl, rfl,
      fun _ _ => rfl, fun _ l hl => absurd hl (List.not_mem_nil l)⟩
  | cons l ls ih =>
    intro pre post r hwf ht hi
    have hwl := hwf l (List.mem_cons_self l ls)
    have hwls : ∀ x ∈ ls, x.wellFormed := fun x hx => hwf x (List.mem_cons_of_mem l hx)
    have hp : pre ++ (encodeLines (l :: ls) ++ post)
        = pre ++ (l.encode ++ (encodeLines ls ++ post)) := by
      simp [encodeLines]
    have hp2 : pre ++ (encodeLines (l :: ls) ++ post)
        = (pre ++ l.encode) ++ (encodeLines ls ++ post) := by
      simp [encodeLines]
    have hname : bytesAt (pre ++ (encodeLines (l :: ls) ++ post)) r.i l.name.length = l.name := by
      rw [hi]
      have : pre ++ (encodeLines (l :: ls) ++ post)
          = pre ++ (l.name ++ (58 :: (l.ows ++ (l.value ++ eol l.crlf))
              ++ (encodeLines ls ++ post))) := by
        simp [encodeLines, HeaderLine.encode]
      rw [this]
      exact bytesAt_mid _ _ _
    have hline := scan_header_line gm gh (pre ++ (encodeLines (l :: ls) ++ post)) l hwl r ht hname
    obtain ⟨r2, h1, h2, h3, h4, h5, h6, h7, h8⟩ := ih (pre ++ l.encode) post
      { r with
          t := ParserState.LF1,
          i := r.i + l.encode.length,
          a := l.valueStart r.i,
          h := gh l.name,
          headers := if gh l.name ≠ -1 then
              Function.update r.headers (gh l.name)
                { a := l.valueStart r.i, b := l.valueEnd r.i }
            else r.headers }
      hwls rfl (by simp [hi])
    refine ⟨r2, ?_, h2, ?_, h4, h5, h6, ?_, ?_⟩
    · show scan gm gh _ (l.encode ++ encodeLines ls) r = _
      rw [scan_append_none gm gh _ _ _ _ _ hline, hp2]
      exact h1
    · rw [h3]
      simp [encodeLines, Nat.add_assoc]
    · intro h hh
      rw [h7 h (fun x hx => hh x (List.mem_cons_of_mem l hx))]
      have hl := hh l (List.mem_cons_self l ls)
      by_cases hk : gh l.name = -1
      · simp [hk]
      · simp only [ne_eq, hk, not_false_eq_true, if_true]
        exact Function.update_noteq (Ne.symm hl) _ _
    · intro hd x hx hxk
      obtain ⟨hdl, hdls⟩ := List.pairwise_cons.mp hd
      rw [hp2]
      rcases List.mem_cons.mp hx with hxl | hxls
      · subst hxl
        rw [h7 (gh x.name) (fun y hy => Ne.symm (hdl y hy hxk))]
        simp only [ne_eq, hxk, not_false_eq_true, if_true, Function.update_same]
        rw [hi, List.append_assoc]
        exact sliceOf_value pre (encodeLines ls ++ post) x
      · exact h8 hdls x hxls hxk

theorem parse_eq (gm gh : List UInt8 → Int) (m : List UInt8) :
    parse gm gh m
      = match scan gm gh m (m.take LIMIT) InitHttpRequest with
        | (some ret, r1) => (ret, r1)
        | (none, r1) => if r1.i < LIMIT then (Ret.value 0, r1) else (Ret.ebadmsg, r1) := by
  have h : (m.take (min m.length LIMIT)).drop InitHttpRequest.i = m.take LIMIT := by
    simp only [InitHttpRequest, List.drop_zero]
    rcases Nat.le_total m.length LIMIT with hl | hl
    · rw [Nat.min_eq_left hl, List.take_of_length_le (Nat.le_refl _), List.take_of_length_le hl]
    · rw [Nat.min_eq_right hl]
  unfold parse ParseHttpRequest
  rw [h]

theorem body_next_i (gm gh : List UInt8 → Int) (p : List UInt8) (c : UInt8)
    (r r1 : HttpRequest) (h : body gm gh p c r = Flow.next r1) : r1.i = r.i := by
  unfold body caseMETHOD caseHVAL at h
  split at h <;> split_ifs at h <;> cases h <;> rfl

theorem body_ret (gm gh : List UInt8 → Int) (p : List UInt8) (c : UInt8)
    (r r1 : HttpRequest) (rc : Int) (h : body gm gh p c r = Flow.ret rc r1) :
    c = 10 ∧ rc = ((r.i + 1 : Nat) : Int) ∧ r1 = { r with i := r.i + 1 } := by
  unfold body caseMETHOD caseHVAL at h
  split at h <;> split_ifs at h <;> cases h <;> simp_all

theorem scan_none_i (gm gh : List UInt8 → Int) (p s : List UInt8) :
    ∀ r r1 : HttpRequest, scan gm gh p s r = (none, r1) → r1.i = r.i + s.length := by
  induction s with
  | nil => intro r r1 h; simp [scan] at h; simp [h]
  | cons c cs ih =>
    intro r r1 h
    simp only [scan] at h
    cases hb : body gm gh p c r with
    | next r2 =>
      rw [hb] at h
      have h2 := ih _ _ h
      have h3 := body_next_i gm gh p c r r2 hb
      simp at h2
      simp [h2, h3]
      omega
    | ret rc r2 => rw [hb] at h; simp at h
    | bad r2 => rw [hb] at h; simp at h

theorem scan_some (gm gh : List UInt8 → Int) (p s : List UInt8) :
    ∀ (r r1 : HttpRequest) (ret : Ret), scan gm gh p s r = (some ret, r1) →
      ∃ s1 c s2 r0, s = s1 ++ c :: s2 ∧ scan gm gh p s1 r = (none, r0)
        ∧ ((∃ k, body gm gh p c r0 = Flow.ret k r1 ∧ ret = Ret.value k)
            ∨ (body gm gh p c r0 = Flow.bad r1 ∧ ret = Ret.ebadmsg)) := by
  induction s with
  | nil => intro r r1 ret h; simp [scan] at h
  | cons c cs ih =>
    intro r r1 ret h
    simp only [scan] at h
    cases hb : body gm gh p c r with
    | next r2 =>
      rw [hb] at h
      obtain ⟨s1, d, s2, r0, e1, e2, e3⟩ := ih _ _ _ h
      refine ⟨c :: s1, d, s2, r0, by simp [e1], ?_, e3⟩
      simp only [scan, hb]
      exact e2
    | ret rc r2 =>
      rw [hb] at h
      simp only [Prod.mk.injEq, Option.some.injEq] at h
      refine ⟨[], c, cs, r, rfl, by simp [scan], Or.inl ⟨rc, ?_, h.1.symm⟩⟩
      rw [hb, h.2]
    | bad r2 =>
      rw [hb] at h
      simp only [Prod.mk.injEq, Option.some.injEq] at h
      refine ⟨[], c, cs, r, rfl, by simp [scan], Or.inr ⟨?_, h.1.symm⟩⟩
      rw [hb, h.2]

theorem scan_take_none (gm gh : List UInt8 → Int) (p s : List UInt8) (j : Nat)
    (r r1 : HttpRequest) (h : scan gm gh p s r = (none, r1)) :
    ∃ r2, scan gm gh p (s.take j) r = (none, r2) := by
  have hs : s = s.take j ++ s.drop j := (List.take_append_drop j s).symm
  rw [hs, scan_append] at h
  cases hq : scan gm gh p (s.take j) r with
  | mk o r2 =>
    cases o with
    | none => exact ⟨r2, rfl⟩
    | some ret => rw [hq] at h; simp at h

theorem bytesAt_append (m x : List UInt8) (a i : Nat) (hi : i ≤ m.length) :
    bytesAt (m ++ x) a (i - a) = bytesAt m a (i - a) := by
  unfold bytesAt
  by_cases ha : a ≤ i
  · rw [List.drop_append_of_le_length (by omega), List.take_append_of_le_length]
    simp
    omega
  · have : i - a = 0 := by omega
    simp [this]

theorem body_congr (gm gh : List UInt8 → Int) (m x : List UInt8) (c : UInt8) (r : HttpRequest)
    (hi : r.i ≤ m.length) : body gm gh (m ++ x) c r = body gm gh m c r := by
  have hb := bytesAt_append m x r.a r.i hi
  unfold body caseMETHOD
  simp only [hb]

theorem scan_congr (gm gh : List UInt8 → Int) (m x s : List UInt8) :
    ∀ r : HttpRequest, r.i + s.length ≤ m.length →
      scan gm gh (m ++ x) s r = scan gm gh m s r := by
  induction s with
  | nil => intro r _; simp [scan]
  | cons c cs ih =>
    intro r h
    simp only [List.length_cons] at h
    simp only [scan]
    rw [body_congr gm gh m x c r (by omega)]
    cases hb : body gm gh m c r with
    | next r2 =>
      have h3 := body_next_i gm gh m c r r2 hb
      simp only
      apply ih
      simp only [h3]
      omega
    | ret rc r2 => rfl
    | bad r2 => rfl

theorem scan_request (gm gh : List UInt8 → Int) (rl : RequestLine) (hs : List HeaderLine)
    (post : List UInt8) (hrl : rl.wellFormed gm) (hhs : ∀ l ∈ hs, l.wellFormed) :
    ∃ r1, scan gm gh (rl.encode ++ (encodeLines hs ++ post)) (rl.encode ++ encodeLines hs)
          InitHttpRequest = (none, r1)
      ∧ r1.t = ParserState.LF1
      ∧ r1.i = rl.encode.length + (encodeLines hs).length
      ∧ r1.method = gm rl.method
      ∧ r1.uri = { a := rl.method.length + 1, b := rl.method.length + 1 + rl.uri.length }
      ∧ r1.version = (match rl.version with
          | some v => { a := rl.method.length + 1 + rl.uri.length + 1,
                        b := rl.method.length + 1 + rl.uri.length + 1 + v.length }
          | none => { a := 0, b := 0 })
      ∧ (∀ h, (∀ l ∈ hs, gh l.name ≠ h) → r1.headers h = { a := 0, b := 0 })
      ∧ (distinctHeaders gh hs → ∀ l ∈ hs, gh l.name ≠ -1 →
          sliceOf (rl.encode ++ (encodeLines hs ++ post)) (r1.headers (gh l.name))
            = stripBlanks l.value) := by
  have hname : bytesAt (rl.encode ++ (encodeLines hs ++ post)) InitHttpRequest.i
      rl.method.length = rl.method := by
    have : rl.encode ++ (encodeLines hs ++ post)
        = [] ++ (rl.method ++ (32 :: (rl.uri ++ (versionPart rl.version ++ eol rl.crlf))
            ++ (encodeLines hs ++ post))) := by
      simp [RequestLine.encode]
    rw [this]
    exact bytesAt_mid _ _ _
  have hline := scan_request_line gm gh (rl.encode ++ (encodeLines hs ++ post)) rl hrl
    InitHttpRequest rfl rfl hname
  obtain ⟨r1, h1, h2, h3, h4, h5, h6, h7, h8⟩ := scan_lines gm gh hs rl.encode post _ hhs
    (show ({ InitHttpRequest with
        t := ParserState.LF1,
        i := InitHttpRequest.i + rl.encode.length,
        method := gm rl.method,
        uri := { a := InitHttpRequest.i + rl.method.length + 1,
                 b := InitHttpRequest.i + rl.method.length + 1 + rl.uri.length },
        version := match rl.version with
          | some v => { a := InitHttpRequest.i + rl.method.length + 1 + rl.uri.length + 1,
                        b := InitHttpRequest.i + rl.method.length + 1 + rl.uri.length + 1
                          + v.length }
          | none => InitHttpRequest.version } : HttpRequest).t = ParserState.LF1 from rfl)
    (by simp [InitHttpRequest])
  refine ⟨r1, ?_, h2, ?_, ?_, ?_, ?_, ?_, h8⟩
  · rw [scan_append_none gm gh _ _ _ _ _ hline]
    exact h1
  · rw [h3]; simp [InitHttpRequest]
  · rw [h4]
  · rw [h5]; simp [InitHttpRequest]
  · rw [h6]; cases rl.version <;> simp [InitHttpRequest]
  · intro h hh
    rw [h7 h hh]
    rfl

theorem scan_eol (gm gh : List UInt8 → Int) (p : List UInt8) (crlf : Bool) (r : HttpRequest)
    (ht : r.t = ParserState.LF1) :
    scan gm gh p (eol crlf) r
      = (some (Ret.value ((r.i + (eol crlf).length : Nat) : Int)),
          { r with t := if crlf then ParserState.LF2 else ParserState.LF1,
                   i := r.i + (eol crlf).length }) := by
  cases crlf <;> simp [eol, scan, body, ht]
  all_goals omega

theorem encodeRequest_length (rl : RequestLine) (hs : List HeaderLine) (crlf : Bool) :
    (encodeRequest rl hs crlf).length
      = rl.encode.length + (encodeLines hs).length + (eol crlf).length := by
  simp [encodeRequest, Nat.add_assoc]

theorem parse_request (gm gh : List UInt8 → Int) (rl : RequestLine) (hs : List HeaderLine)
    (crlf : Bool) (hrl : rl.wellFormed gm) (hhs : ∀ l ∈ hs, l.wellFormed)
    (hlen : (encodeRequest rl hs crlf).length ≤ LIMIT) :
    (parse gm gh (encodeRequest rl hs crlf)).1
        = Ret.value ((encodeRequest rl hs crlf).length : Nat)
      ∧ (parse gm gh (encodeRequest rl hs crlf)).2.method = gm rl.method
      ∧ (parse gm gh (encodeRequest rl hs crlf)).2.uri
          = { a := rl.method.length + 1, b := rl.method.length + 1 + rl.uri.length }
      ∧ (parse gm gh (encodeRequest rl hs crlf)).2.version = (match rl.version with
          | some v => { a := rl.method.length + 1 + rl.uri.length + 1,
                        b := rl.method.length + 1 + rl.uri.length + 1 + v.length }
          | none => { a := 0, b := 0 })
      ∧ (∀ h, (∀ l ∈ hs, gh l.name ≠ h) →
          (parse gm gh (encodeRequest rl hs crlf)).2.headers h = { a := 0, b := 0 })
      ∧ (distinctHeaders gh hs → ∀ l ∈ hs, gh l.name ≠ -1 →
          sliceOf (encodeRequest rl hs crlf)
              ((parse gm gh (encodeRequest rl hs crlf)).2.headers (gh l.name))
            = stripBlanks l.value) := by
  obtain ⟨r1, h1, h2, h3, h4, h5, h6, h7, h8⟩ := scan_request gm gh rl hs (eol crlf) hrl hhs
  have hm : encodeRequest rl hs crlf = (rl.encode ++ encodeLines hs) ++ eol crlf := by
    simp [encodeRequest]
  have hp : parse gm gh (encodeRequest rl hs crlf)
      = (Ret.value ((encodeRequest rl hs crlf).length : Nat),
          { r1 with t := if crlf then ParserState.LF2 else ParserState.LF1,
                    i := r1.i + (eol crlf).length }) := by
    rw [parse_eq, List.take_of_length_le hlen]
    have hs2 : scan gm gh (encodeRequest rl hs crlf) (encodeRequest rl hs crlf) InitHttpRequest
        = (some (Ret.value ((r1.i + (eol crlf).length : Nat) : Int)),
          { r1 with t := if crlf then ParserState.LF2 else ParserState.LF1,
                    i := r1.i + (eol crlf).length }) := by
      conv_lhs => arg 4; rw [hm]
      unfold encodeRequest
      rw [scan_append_none gm gh _ _ _ _ _ h1]
      exact scan_eol gm gh _ crlf r1 h2
    rw [hs2, h3, encodeRequest_length]
  rw [hp]
  exact ⟨rfl, h4, h5, h6, h7, h8⟩

theorem parse_prefix_long (gm gh : List UInt8 → Int) (s y : List UInt8) (r : HttpRequest)
    (h : scan gm gh (s ++ y) s InitHttpRequest = (none, r)) (hl : LIMIT ≤ s.length) :
    (parse gm gh (s ++ y)).1 = Ret.ebadmsg := by
  obtain ⟨r2, h2⟩ := scan_take_none gm gh (s ++ y) s LIMIT InitHttpRequest r h
  have h3 := scan_none_i gm gh _ _ _ _ h2
  have h4 : r2.i = LIMIT := by
    rw [h3, List.length_take, Nat.min_eq_left hl]
    simp [InitHttpRequest]
  rw [parse_eq, List.take_append_of_le_length hl, h2]
  simp [h4]

theorem parse_request_long (gm gh : List UInt8 → Int) (rl : RequestLine) (hs : List HeaderLine)
    (crlf : Bool) (hrl : rl.wellFormed gm) (hhs : ∀ l ∈ hs, l.wellFormed)
    (hlen : LIMIT < (encodeRequest rl hs crlf).length) :
    (parse gm gh (encodeRequest rl hs crlf)).1 = Ret.ebadmsg := by
  obtain ⟨r1, h1, h2, h3, -⟩ := scan_request gm gh rl hs (eol crlf) hrl hhs
  rw [encodeRequest_length] at hlen
  cases crlf with
  | false =>
    have hm : encodeRequest rl hs false = (rl.encode ++ encodeLines hs) ++ [10] := by
      simp [encodeRequest, eol]
    rw [hm]
    have h1b : scan gm gh ((rl.encode ++ encodeLines hs) ++ [10]) (rl.encode ++ encodeLines hs)
        InitHttpRequest = (none, r1) := by
      rw [← h1]; simp [eol]
    refine parse_prefix_long gm gh _ _ r1 h1b ?_
    simp [eol] at hlen
    simp
    omega
  | true =>
    have hm : encodeRequest rl hs true = ((rl.encode ++ encodeLines hs) ++ [13]) ++ [10] := by
      simp [encodeRequest, eol]
    rw [hm]
    have h1b : scan gm gh (((rl.encode ++ encodeLines hs) ++ [13]) ++ [10])
        ((rl.encode ++ encodeLines hs) ++ [13]) InitHttpRequest
          = (none, { r1 with t := ParserState.LF2, i := r1.i + 1 }) := by
      have e : ((rl.encode ++ encodeLines hs) ++ [13]) ++ [10]
          = rl.encode ++ (encodeLines hs ++ eol true) := by simp [eol]
      rw [e, scan_append_none gm gh _ _ _ _ _ h1]
      simp [scan, body, h2]
    refine parse_prefix_long gm gh _ _ _ h1b ?_
    simp [eol] at hlen
    simp
    omega

theorem parse_line_start (gm gh : List UInt8 → Int) (rl : RequestLine) (hs : List HeaderLine)
    (c : UInt8) (post : List UInt8) (hrl : rl.wellFormed gm) (hhs : ∀ l ∈ hs, l.wellFormed)
    (hc : c = 32 ∨ c = 9 ∨ c = 58) :
    (parse gm gh (rl.encode ++ (encodeLines hs ++ c :: post))).1 = Ret.ebadmsg := by
  obtain ⟨r1, h1, h2, h3, -⟩ := scan_request gm gh rl hs (c :: post) hrl hhs
  have hm : rl.encode ++ (encodeLines hs ++ c :: post)
      = (rl.encode ++ encodeLines hs) ++ c :: post := by simp
  by_cases hl : LIMIT ≤ (rl.encode ++ encodeLines hs).length
  · rw [hm]
    rw [hm] at h1
    exact parse_prefix_long gm gh _ _ r1 h1 hl
  · have hbad : body gm gh (rl.encode ++ (encodeLines hs ++ c :: post)) c r1 = Flow.bad r1 := by
      rcases hc with hc | hc | hc <;> subst hc <;> simp [body, h2]
    have ht : (rl.encode ++ (encodeLines hs ++ c :: post)).take LIMIT
        = (rl.encode ++ encodeLines hs)
          ++ c :: post.take (LIMIT - (rl.encode ++ encodeLines hs).length - 1) := by
      rw [hm, List.take_append_eq_append_take, List.take_of_length_le (by omega)]
      congr 1
      have : LIMIT - (rl.encode ++ encodeLines hs).length
          = (LIMIT - (rl.encode ++ encodeLines hs).length - 1) + 1 := by omega
      rw [this, List.take_succ_cons]
      simp
    rw [parse_eq, ht, scan_append_none gm gh _ _ _ _ _ h1]
    simp [scan, hbad]

/-! ## C13: the request line -/

/-- C13: for a request `M SP U SP V CRLF CRLF` of at most 32766 bytes, where
`GetHttpMethod` knows `M`, `M` contains no space and does not start with CR or
LF, `U` is not empty and contains no space, CR or LF, and `V` contains no CR or
LF, `ParseHttpRequest` on a freshly initialised parser returns the length of
the request, sets `method` to `GetHttpMethod M`, and the uri and version slices
denote `U` and `V`; for `M SP U CRLF CRLF` it returns the length, the uri slice
denotes `U` and the version slice is left empty. -/
theorem C13_request_line (gm gh : List UInt8 → Int) (M U V : List UInt8)
    (hM : gm M ≠ -1) (hMsp : ∀ c ∈ M, c ≠ 32) (hMhd : ∀ c ∈ M.head?, c ≠ 13 ∧ c ≠ 10)
    (hU : U ≠ []) (hUc : ∀ c ∈ U, c ≠ 32 ∧ c ≠ 13 ∧ c ≠ 10)
    (hV : ∀ c ∈ V, c ≠ 13 ∧ c ≠ 10) :
    ((M ++ 32 :: (U ++ 32 :: (V ++ [13, 10, 13, 10]))).length ≤ LIMIT →
      (parse gm gh (M ++ 32 :: (U ++ 32 :: (V ++ [13, 10, 13, 10])))).1
          = Ret.value ((M ++ 32 :: (U ++ 32 :: (V ++ [13, 10, 13, 10]))).length : Nat)
        ∧ (parse gm gh (M ++ 32 :: (U ++ 32 :: (V ++ [13, 10, 13, 10])))).2.method = gm M
        ∧ sliceOf (M ++ 32 :: (U ++ 32 :: (V ++ [13, 10, 13, 10])))
            (parse gm gh (M ++ 32 :: (U ++ 32 :: (V ++ [13, 10, 13, 10])))).2.uri = U
        ∧ sliceOf (M ++ 32 :: (U ++ 32 :: (V ++ [13, 10, 13, 10])))
            (parse gm gh (M ++ 32 :: (U ++ 32 :: (V ++ [13, 10, 13, 10])))).2.version = V)
    ∧ ((M ++ 32 :: (U ++ [13, 10, 13, 10])).length ≤ LIMIT →
      (parse gm gh (M ++ 32 :: (U ++ [13, 10, 13, 10]))).1
          = Ret.value ((M ++ 32 :: (U ++ [13, 10, 13, 10])).length : Nat)
        ∧ (parse gm gh (M ++ 32 :: (U ++ [13, 10, 13, 10]))).2.method = gm M
        ∧ sliceOf (M ++ 32 :: (U ++ [13, 10, 13, 10]))
            (parse gm gh (M ++ 32 :: (U ++ [13, 10, 13, 10]))).2.uri = U
        ∧ (parse gm gh (M ++ 32 :: (U ++ [13, 10, 13, 10]))).2.version = { a := 0, b := 0 }
        ∧ sliceOf (M ++ 32 :: (U ++ [13, 10, 13, 10]))
            (parse gm gh (M ++ 32 :: (U ++ [13, 10, 13, 10]))).2.version = []) := by
  constructor
  · intro hlen
    have hm : M ++ 32 :: (U ++ 32 :: (V ++ [13, 10, 13, 10]))
        = encodeRequest { method := M, uri := U, version := some V, crlf := true } [] true := by
      simp [encodeRequest, RequestLine.encode, versionPart, eol, encodeLines]
    have hwf : RequestLine.wellFormed gm
        { method := M, uri := U, version := some V, crlf := true } :=
      ⟨hM, hMsp, hMhd, hU, hUc, by simpa using hV⟩
    rw [hm] at hlen ⊢
    obtain ⟨h1, h2, h3, h4, -⟩ := parse_request gm gh _ [] true hwf (by simp) hlen
    refine ⟨h1, h2, ?_, ?_⟩
    · rw [h3, ← hm]
      have e : M ++ 32 :: (U ++ 32 :: (V ++ [13, 10, 13, 10]))
          = (M ++ [32]) ++ (U ++ 32 :: (V ++ [13, 10, 13, 10])) := by simp
      rw [e]
      exact sliceOf_mid _ _ _ _ _ (by simp) (by simp)
    · rw [h4, ← hm]
      have e : M ++ 32 :: (U ++ 32 :: (V ++ [13, 10, 13, 10]))
          = (M ++ 32 :: (U ++ [32])) ++ (V ++ [13, 10, 13, 10]) := by simp
      rw [e]
      exact sliceOf_mid _ _ _ _ _ (by simp; omega) (by simp; omega)
  · intro hlen
    have hm : M ++ 32 :: (U ++ [13, 10, 13, 10])
        = encodeRequest { method := M, uri := U, version := none, crlf := true } [] true := by
      simp [encodeRequest, RequestLine.encode, versionPart, eol, encodeLines]
    have hwf : RequestLine.wellFormed gm
        { method := M, uri := U, version := none, crlf := true } :=
      ⟨hM, hMsp, hMhd, hU, hUc, by simp⟩
    rw [hm] at hlen ⊢
    obtain ⟨h1, h2, h3, h4, -⟩ := parse_request gm gh _ [] true hwf (by simp) hlen
    refine ⟨h1, h2, ?_, h4, ?_⟩
    · rw [h3, ← hm]
      have e : M ++ 32 :: (U ++ [13, 10, 13, 10])
          = (M ++ [32]) ++ (U ++ [13, 10, 13, 10]) := by simp
      rw [e]
      exact sliceOf_mid _ _ _ _ _ (by simp) (by simp)
    · rw [h4]
      simp [sliceOf]

set_option maxRecDepth 100000 in
/-- The requests of `testNoHeaders` and `testHttp009`, with the method table of
the tests. -/
theorem C13_request_line_witness :
    (bytes "GET" ++ 32 :: (bytes "/foo" ++ 32 :: (bytes "HTTP/1.0" ++ [13, 10, 13, 10]))
        = bytes "GET /foo HTTP/1.0\r\n\r\n"
      ∧ (parse sampleGetHttpMethod sampleGetHttpHeader
          (bytes "GET" ++ 32 :: (bytes "/foo" ++ 32 :: (bytes "HTTP/1.0"
            ++ [13, 10, 13, 10])))).1 = Ret.value 21
      ∧ (parse sampleGetHttpMethod sampleGetHttpHeader
          (bytes "GET" ++ 32 :: (bytes "/foo" ++ 32 :: (bytes "HTTP/1.0"
            ++ [13, 10, 13, 10])))).2.method = 1
      ∧ sliceOf (bytes "GET" ++ 32 :: (bytes "/foo" ++ 32 :: (bytes "HTTP/1.0"
            ++ [13, 10, 13, 10])))
          (parse sampleGetHttpMethod sampleGetHttpHeader
            (bytes "GET" ++ 32 :: (bytes "/foo" ++ 32 :: (bytes "HTTP/1.0"
              ++ [13, 10, 13, 10])))).2.uri = bytes "/foo"
      ∧ sliceOf (bytes "GET" ++ 32 :: (bytes "/foo" ++ 32 :: (bytes "HTTP/1.0"
            ++ [13, 10, 13, 10])))
          (parse sampleGetHttpMethod sampleGetHttpHeader
            (bytes "GET" ++ 32 :: (bytes "/foo" ++ 32 :: (bytes "HTTP/1.0"
              ++ [13, 10, 13, 10])))).2.version = bytes "HTTP/1.0")
    ∧ (bytes "GET" ++ 32 :: (bytes "/" ++ [13, 10, 13, 10]) = bytes "GET /\r\n\r\n"
      ∧ (parse sampleGetHttpMethod sampleGetHttpHeader
          (bytes "GET" ++ 32 :: (bytes "/" ++ [13, 10, 13, 10]))).1 = Ret.value 9
      ∧ sliceOf (bytes "GET" ++ 32 :: (bytes "/" ++ [13, 10, 13, 10]))
          (parse sampleGetHttpMethod sampleGetHttpHeader
            (bytes "GET" ++ 32 :: (bytes "/" ++ [13, 10, 13, 10]))).2.uri = bytes "/"
      ∧ sliceOf (bytes "GET" ++ 32 :: (bytes "/" ++ [13, 10, 13, 10]))
          (parse sampleGetHttpMethod sampleGetHttpHeader
            (bytes "GET" ++ 32 :: (bytes "/" ++ [13, 10, 13, 10]))).2.version = []) :=
  have h1 := (C13_request_line sampleGetHttpMethod sampleGetHttpHeader (bytes "GET")
    (bytes "/foo") (bytes "HTTP/1.0") (by decide) (by decide) (by decide) (by decide)
    (by decide) (by decide)).1 (by decide)
  have h2 := (C13_request_line sampleGetHttpMethod sampleGetHttpHeader (bytes "GET")
    (bytes "/") (bytes "HTTP/1.0") (by decide) (by decide) (by decide) (by decide)
    (by decide) (by decide)).2 (by decide)
  ⟨⟨by decide, h1.1, h1.2.1, h1.2.2.1, h1.2.2.2⟩, ⟨by decide, h2.1, h2.2.2.1, h2.2.2.2.2⟩⟩

/-! ## C14: the header slices -/

/-- C14: for a request made of a well-formed request line, header lines
`Name ":" optional-spaces-and-tabs Value` (each line ended by CRLF or by a bare
LF) in which every header that `GetHttpHeader` knows occurs at most once, and
the empty line: when `ParseHttpRequest` on a freshly initialised parser does
not fail, it returns the length of the request, the slice of every known
`Name` denotes `Value` without its leading spaces and tabs, and the slice of
every header that no line names is empty. -/
theorem C14_header_slices (gm gh : List UInt8 → Int) (rl : RequestLine)
    (hs : List HeaderLine) (crlf : Bool) (hrl : rl.wellFormed gm)
    (hhs : ∀ l ∈ hs, l.wellFormed) (hd : distinctHeaders gh hs)
    (hok : (parse gm gh (encodeRequest rl hs crlf)).1 ≠ Ret.ebadmsg) :
    (parse gm gh (encodeRequest rl hs crlf)).1
        = Ret.value ((encodeRequest rl hs crlf).length : Nat)
      ∧ (∀ l ∈ hs, gh l.name ≠ -1 →
          sliceOf (encodeRequest rl hs crlf)
              ((parse gm gh (encodeRequest rl hs crlf)).2.headers (gh l.name))
            = stripBlanks l.value)
      ∧ (∀ h, (∀ l ∈ hs, gh l.name ≠ h) →
          (parse gm gh (encodeRequest rl hs crlf)).2.headers h = { a := 0, b := 0 }
            ∧ sliceOf (encodeRequest rl hs crlf)
                ((parse gm gh (encodeRequest rl hs crlf)).2.headers h) = []) := by
  have hlen : (encodeRequest rl hs crlf).length ≤ LIMIT := by
    by_contra hcon
    exact hok (parse_request_long gm gh rl hs crlf hrl hhs (by omega))
  obtain ⟨h1, -, -, -, h5, h6⟩ := parse_request gm gh rl hs crlf hrl hhs hlen
  refine ⟨h1, h6 hd, ?_⟩
  intro h hh
  refine ⟨h5 h hh, ?_⟩
  rw [h5 h hh]
  simp [sliceOf]

set_option maxRecDepth 100000 in
/-- The request of `testSomeHeaders`, with the tables of the tests: Host is
header 0, Content-Length header 1, Etag header 2. -/
theorem C14_header_slices_witness :
    encodeRequest someHeadersLine someHeadersLines true
        = bytes "POST /foo?bar%20hi HTTP/1.0\r\nHost: foo.example\r\nContent-Length: 0\r\n\r\n"
      ∧ (parse sampleGetHttpMethod sampleGetHttpHeader
          (encodeRequest someHeadersLine someHeadersLines true)).1 = Ret.value 69
      ∧ sliceOf (encodeRequest someHeadersLine someHeadersLines true)
          ((parse sampleGetHttpMethod sampleGetHttpHeader
            (encodeRequest someHeadersLine someHeadersLines true)).2.headers 0)
          = bytes "foo.example"
      ∧ sliceOf (encodeRequest someHeadersLine someHeadersLines true)
          ((parse sampleGetHttpMethod sampleGetHttpHeader
            (encodeRequest someHeadersLine someHeadersLines true)).2.headers 1)
          = bytes "0"
      ∧ sliceOf (encodeRequest someHeadersLine someHeadersLines true)
          ((parse sampleGetHttpMethod sampleGetHttpHeader
            (encodeRequest someHeadersLine someHeadersLines true)).2.headers 2)
          = [] :=
  have h := C14_header_slices sampleGetHttpMethod sampleGetHttpHeader someHeadersLine
    someHeadersLines true (by decide) (by decide) (by decide) (by decide)
  ⟨by decide, h.1,
    h.2.1 { name := bytes "Host", ows := [32], value := bytes "foo.example", crlf := true }
      (by decide) (by decide),
    h.2.1 { name := bytes "Content-Length", ows := [32], value := bytes "0", crlf := true }
      (by decide) (by decide),
    (h.2.2 2 (by decide)).2⟩

/-! ## C16: a line that starts with a space, a tab or a colon -/

/-- C16: after a well-formed request line and any number of well-formed header
lines, a line that begins with a space, a horizontal tab or a colon makes
`ParseHttpRequest` fail with EBADMSG, whatever bytes follow that character. -/
theorem C16_line_start_rejected (gm gh : List UInt8 → Int) (rl : RequestLine)
    (hs : List HeaderLine) (c : UInt8) (post : List UInt8) (hrl : rl.wellFormed gm)
    (hhs : ∀ l ∈ hs, l.wellFormed) (hc : c = 32 ∨ c = 9 ∨ c = 58) :
    (parse gm gh (rl.encode ++ (encodeLines hs ++ c :: post))).1 = Ret.ebadmsg :=
  parse_line_start gm gh rl hs c post hrl hhs hc

set_option maxRecDepth 100000 in
/-- The requests of `testLineFolding_isRejected` and
`testEmptyHeaderName_isRejected`. -/
theorem C16_line_start_rejected_witness :
    (userAgentLine.encode ++ (encodeLines userAgentLines ++ 32 :: bytes "there\r\n\r\n")
        = bytes "GET /foo?bar%20hi HTTP/1.0\r\nUser-Agent: hi\r\n there\r\n\r\n"
      ∧ (parse sampleGetHttpMethod sampleGetHttpHeader
          (userAgentLine.encode ++ (encodeLines userAgentLines
            ++ 32 :: bytes "there\r\n\r\n"))).1 = Ret.ebadmsg)
    ∧ (userAgentLine.encode ++ (encodeLines userAgentLines ++ 58 :: bytes " hi\r\n\r\n")
        = bytes "GET /foo?bar%20hi HTTP/1.0\r\nUser-Agent: hi\r\n: hi\r\n\r\n"
      ∧ (parse sampleGetHttpMethod sampleGetHttpHeader
          (userAgentLine.encode ++ (encodeLines userAgentLines
            ++ 58 :: bytes " hi\r\n\r\n"))).1 = Ret.ebadmsg) :=
  ⟨⟨by decide, C16_line_start_rejected sampleGetHttpMethod sampleGetHttpHeader userAgentLine
      userAgentLines 32 (bytes "there\r\n\r\n") (by decide) (by decide) (by decide)⟩,
   ⟨by decide, C16_line_start_rejected sampleGetHttpMethod sampleGetHttpHeader userAgentLine
      userAgentLines 58 (bytes " hi\r\n\r\n") (by decide) (by decide) (by decide)⟩⟩

theorem scan_skip (gm gh : List UInt8 → Int) (p w : List UInt8) :
    ∀ r : HttpRequest, r.t = ParserState.START → (∀ c ∈ w, c = 13 ∨ c = 10) →
      scan gm gh p w r = (none, { r with i := r.i + w.length, a := r.a + w.length }) := by
  induction w with
  | nil => intro r _ _; simp [scan]
  | cons c cs ih =>
    intro r ht hw
    have hc := hw c (List.mem_cons_self c cs)
    have hb : body gm gh p c r = Flow.next { r with a := r.a + 1 } := by
      simp [body, ht, hc]
    simp only [scan, hb]
    rw [ih { r with a := r.a + 1, i := r.i + 1 } ht (fun d hd => hw d (List.mem_cons_of_mem c hd))]
    simp [Nat.add_assoc, Nat.add_comm 1]

theorem parse_none (gm gh : List UInt8 → Int) (m : List UInt8) (r : HttpRequest)
    (h : scan gm gh m (m.take LIMIT) InitHttpRequest = (none, r)) :
    r.i = min LIMIT m.length
      ∧ parse gm gh m = if m.length < LIMIT then (Ret.value 0, r) else (Ret.ebadmsg, r) := by
  have hi : r.i = min LIMIT m.length := by
    rw [scan_none_i gm gh _ _ _ _ h, List.length_take]
    simp [InitHttpRequest]
  refine ⟨hi, ?_⟩
  rw [parse_eq, h]
  simp only [hi]
  by_cases hl : m.length < LIMIT
  · have : min LIMIT m.length < LIMIT := by omega
    simp [hl, this]
  · have : ¬ min LIMIT m.length < LIMIT := by omega
    simp [hl, this]

theorem parse_success (gm gh : List UInt8 → Int) (m : List UInt8) (k : Int) (hk : 0 < k)
    (hok : (parse gm gh m).1 = Ret.value k) :
    ∃ s1 s2 r0, m.take LIMIT = s1 ++ 10 :: s2
      ∧ scan gm gh m s1 InitHttpRequest = (none, r0)
      ∧ body gm gh m 10 r0 = Flow.ret k (parse gm gh m).2
      ∧ k = ((s1.length + 1 : Nat) : Int)
      ∧ scan gm gh m (m.take LIMIT) InitHttpRequest = (some (Ret.value k), (parse gm gh m).2) := by
  rw [parse_eq] at hok ⊢
  cases hq : scan gm gh m (m.take LIMIT) InitHttpRequest with
  | mk o r1 =>
    rw [hq] at hok
    cases o with
    | none =>
      exfalso
      by_cases hl : r1.i < LIMIT
      · simp [hl] at hok; omega
      · simp [hl] at hok
    | some ret =>
      simp only at hok ⊢
      subst hok
      obtain ⟨s1, c, s2, r0, e1, e2, e3⟩ := scan_some gm gh _ _ _ _ _ hq
      rcases e3 with ⟨k2, e3, e4⟩ | ⟨_, e4⟩
      · injection e4 with e4
        subst e4
        obtain ⟨hc, hrc, -⟩ := body_ret gm gh m c r0 r1 _ e3
        subst hc
        have hi := scan_none_i gm gh _ _ _ _ e2
        refine ⟨s1, s2, r0, e1, e2, e3, ?_, rfl⟩
        rw [hrc, hi]
        simp [InitHttpRequest]
      · cases e4

/-! ## C15: nothing is read after the end of the header block -/

/-- C15: when `ParseHttpRequest` on a freshly initialised parser succeeds on
`m` with result `k > 0`, then `k` is at most `min(|m|, 32766)`, the byte before
position `k` is a line feed, and for every suffix `x` the call on `m ++ x`
returns the same result and leaves the same parser state (method, uri,
version and header slices included). -/
theorem C15_success_index (gm gh : List UInt8 → Int) (m : List UInt8) (k : Int) (hk : 0 < k)
    (hok : (parse gm gh m).1 = Ret.value k) :
    k ≤ ((min m.length LIMIT : Nat) : Int)
      ∧ m[k.toNat - 1]? = some 10
      ∧ ∀ x, parse gm gh (m ++ x) = (Ret.value k, (parse gm gh m).2) := by
  obtain ⟨s1, s2, r0, e1, -, -, e4, e5⟩ := parse_success gm gh m k hk hok
  have hlen : s1.length + 1 + s2.length = min LIMIT m.length := by
    have := congrArg List.length e1
    simp only [List.length_take, List.length_append, List.length_cons] at this
    omega
  refine ⟨?_, ?_, ?_⟩
  · rw [e4]
    have : s1.length + 1 ≤ min m.length LIMIT := by omega
    exact_mod_cast this
  · have hk2 : k.toNat - 1 = s1.length := by rw [e4]; simp
    rw [hk2]
    have h1 : (m.take LIMIT)[s1.length]? = some 10 := by
      rw [e1, List.getElem?_append_right (Nat.le_refl _)]; simp
    rw [List.getElem?_take] at h1
    split_ifs at h1
    exact h1
  · intro x
    have h1 : scan gm gh (m ++ x) (m.take LIMIT) InitHttpRequest
        = (some (Ret.value k), (parse gm gh m).2) := by
      rw [scan_congr gm gh m x _ _ (by simp [InitHttpRequest])]
      exact e5
    rw [parse_eq, List.take_append_eq_append_take, scan_append_some gm gh _ _ _ _ _ _ h1]

set_option maxRecDepth 100000 in
/-- The message of `testUnixNewlines`: 65 bytes ended by two line feeds,
followed by one more line feed. -/
theorem C15_success_index_witness :
    (bytes "POST /foo?bar%20hi HTTP/1.0\nHost: foo.example\nContent-Length: 0\n\n").length = 65
      ∧ parse sampleGetHttpMethod sampleGetHttpHeader
          (bytes "POST /foo?bar%20hi HTTP/1.0\nHost: foo.example\nContent-Length: 0\n\n"
            ++ bytes "\n")
        = (Ret.value 65, (parse sampleGetHttpMethod sampleGetHttpHeader
            (bytes "POST /foo?bar%20hi HTTP/1.0\nHost: foo.example\nContent-Length: 0\n\n")).2) :=
  ⟨by decide, (C15_success_index sampleGetHttpMethod sampleGetHttpHeader
    (bytes "POST /foo?bar%20hi HTTP/1.0\nHost: foo.example\nContent-Length: 0\n\n") 65
    (by decide) (by decide)).2.2 (bytes "\n")⟩

/-! ## C18: more data needed, or too long -/

/-- C18: when the loop of `ParseHttpRequest`, on a freshly initialised parser,
reads an input of fewer than 32766 bytes without reaching a `return`, the call
returns 0 and has consumed the whole input; so it does for the empty input and
for an input of fewer than 32766 bytes that are all CR or LF.  When the loop
reads the first 32766 bytes of an input at least that long without reaching a
`return`, the call fails with EBADMSG. -/
theorem C18_more_data_or_too_long (gm gh : List UInt8 → Int) :
    (∀ m r, m.length < LIMIT → scan gm gh m m InitHttpRequest = (none, r) →
        parse gm gh m = (Ret.value 0, r) ∧ r.i = m.length)
      ∧ (parse gm gh []).1 = Ret.value 0
      ∧ (∀ m, (∀ c ∈ m, c = 13 ∨ c = 10) → m.length < LIMIT →
          (parse gm gh m).1 = Ret.value 0 ∧ (parse gm gh m).2.i = m.length)
      ∧ (∀ m r, LIMIT ≤ m.length → scan gm gh m (m.take LIMIT) InitHttpRequest = (none, r) →
          (parse gm gh m).1 = Ret.ebadmsg) := by
  have hshort : ∀ m r, m.length < LIMIT → scan gm gh m m InitHttpRequest = (none, r) →
      parse gm gh m = (Ret.value 0, r) ∧ r.i = m.length := by
    intro m r hl h
    have ht : m.take LIMIT = m := List.take_of_length_le (by omega)
    obtain ⟨h1, h2⟩ := parse_none gm gh m r (by rw [ht]; exact h)
    refine ⟨?_, by omega⟩
    rw [h2]
    simp [hl]
  refine ⟨hshort, ?_, ?_, ?_⟩
  · have := hshort [] InitHttpRequest (by simp [LIMIT]) (by simp [scan])
    rw [this.1]
  · intro m hm hl
    have h := scan_skip gm gh m m InitHttpRequest rfl hm
    have := hshort m _ hl h
    rw [this.1]
    simp [InitHttpRequest]
  · intro m r hl h
    obtain ⟨-, h2⟩ := parse_none gm gh m r h
    rw [h2]
    have : ¬ m.length < LIMIT := by omega
    simp [this]

/-- The inputs of `testEmpty_tooShort` and `testTooShort`, and 32766 line
feeds. -/
theorem C18_more_data_or_too_long_witness :
    (parse sampleGetHttpMethod sampleGetHttpHeader []).1 = Ret.value 0
      ∧ (parse sampleGetHttpMethod sampleGetHttpHeader [13, 10]).1 = Ret.value 0
      ∧ (parse sampleGetHttpMethod sampleGetHttpHeader [13, 10]).2.i = 2
      ∧ (parse sampleGetHttpMethod sampleGetHttpHeader (List.replicate 32766 10)).1
          = Ret.ebadmsg :=
  have h := C18_more_data_or_too_long sampleGetHttpMethod sampleGetHttpHeader
  have h2 := h.2.2.1 [13, 10] (by decide) (by decide)
  ⟨h.2.1, h2.1, h2.2,
    h.2.2.2 (List.replicate 32766 10) _
      (by rw [List.length_replicate]; exact Nat.le_refl 32766)
      (scan_skip sampleGetHttpMethod sampleGetHttpHeader _ _ InitHttpRequest rfl
        (fun c hc => Or.inr (List.eq_of_mem_replicate (List.mem_of_mem_take hc))))⟩

theorem bytesAt_shift (w m : List UInt8) (a i : Nat) :
    bytesAt (w ++ m) (a + w.length) (i + w.length - (a + w.length)) = bytesAt m a (i - a) := by
  unfold bytesAt
  rw [Nat.add_comm a, List.drop_append]
  congr 1
  omega

theorem sliceOf_shift (w m : List UInt8) (s : HttpRequestSlice) (h : s.b ≠ 0 → s.a ≠ 0) :
    sliceOf (w ++ m) (shiftSlice w.length s) = sliceOf m s := by
  unfold sliceOf shiftSlice shiftIdx
  by_cases hb : s.b = 0
  · simp [hb]
  · have ha := h hb
    simp only [ha, hb, if_false]
    rw [Nat.add_comm s.a, List.drop_append]
    congr 1
    omega

theorem shiftSlice_pos (k a b : Nat) (ha : 1 ≤ a) (hb : 1 ≤ b) :
    shiftSlice k { a := a, b := b } = { a := a + k, b := b + k } := by
  have h1 : a ≠ 0 := by omega
  have h2 : b ≠ 0 := by omega
  simp [shiftSlice, shiftIdx, h1, h2]

theorem body_shift (gm gh : List UInt8 → Int) (w m : List UInt8) (c : UInt8) (r : HttpRequest)
    (hr : positive r) :
    body gm gh (w ++ m) c (shiftReq w.length r) = shiftFlow w.length (body gm gh m c r) := by
  have hb := bytesAt_shift w m r.a r.i
  obtain ⟨i, t, a, h, method, uri, version, headers⟩ := r
  obtain ⟨ua, ub⟩ := uri
  obtain ⟨va, vb⟩ := version
  obtain ⟨p1, p2, p3, p4, -⟩ := hr
  simp only at hb p1 p2 p3 p4
  cases t
  case START =>
    by_cases h1 : c = 13 ∨ c = 10
    · simp [body, shiftReq, shiftFlow, h1, Nat.add_right_comm]
    · by_cases h2 : c = 32
      · by_cases h3 : gm (bytesAt m a (i - a)) = -1
        · simp [body, caseMETHOD, shiftReq, shiftFlow, h2, h3, hb]
        · simp [body, caseMETHOD, shiftReq, shiftFlow, h2, h3, hb, shiftSlice, shiftIdx,
            Nat.add_right_comm]
      · simp [body, caseMETHOD, shiftReq, shiftFlow, h1, h2]
  case METHOD =>
    by_cases h2 : c = 32
    · by_cases h3 : gm (bytesAt m a (i - a)) = -1
      · simp [body, caseMETHOD, shiftReq, shiftFlow, h2, h3, hb]
      · simp [body, caseMETHOD, shiftReq, shiftFlow, h2, h3, hb, shiftSlice, shiftIdx,
          Nat.add_right_comm]
    · simp [body, caseMETHOD, shiftReq, shiftFlow, h2]
  case URI =>
    have q1 : 1 ≤ i := p1 (by simp) (by simp)
    have q2 : 1 ≤ ua := p2 rfl
    have q3 : ua ≠ 0 := by omega
    have q4 : i ≠ 0 := by omega
    by_cases h1 : c = 32 ∨ c = 13 ∨ c = 10
    · by_cases h2 : i = ua
      · simp [body, shiftReq, shiftFlow, h1, h2, shiftSlice, shiftIdx, q3]
      · by_cases h3 : c = 32
        · simp [body, shiftReq, shiftFlow, h2, h3, shiftSlice, shiftIdx, q3, q4,
            Nat.add_right_comm]
        · by_cases h4 : c = 13
          · simp [body, shiftReq, shiftFlow, h2, h4, shiftSlice, shiftIdx, q3, q4]
          · have h5 : c = 10 := by
              rcases h1 with h1 | h1 | h1
              · exact absurd h1 h3
              · exact absurd h1 h4
              · exact h1
            simp [body, shiftReq, shiftFlow, h2, h5, shiftSlice, shiftIdx, q3, q4]
    · simp [body, shiftReq, shiftFlow, h1]
  case VERSION =>
    have q1 : 1 ≤ i := p1 (by simp) (by simp)
    have q4 : i ≠ 0 := by omega
    by_cases h1 : c = 13 ∨ c = 10
    · simp [body, shiftReq, shiftFlow, h1, shiftSlice, shiftIdx, q4]
    · simp [body, shiftReq, shiftFlow, h1]
  case HKEY =>
    by_cases h1 : c = 58
    · simp [body, shiftReq, shiftFlow, h1, hb]
    · simp [body, shiftReq, shiftFlow, h1]
  case HSEP =>
    have q1 : 1 ≤ i := p1 (by simp) (by simp)
    by_cases h1 : c = 32 ∨ c = 9
    · simp [body, shiftReq, shiftFlow, h1]
    · by_cases h2 : c = 13 ∨ c = 10
      · by_cases h3 : h = -1
        · simp [body, caseHVAL, shiftReq, shiftFlow, h1, h2, h3]
        · simp [body, caseHVAL, shiftReq, shiftFlow, h1, h2, h3, Function.comp_update,
            shiftSlice_pos _ _ _ q1 q1]
      · simp [body, caseHVAL, shiftReq, shiftFlow, h1, h2]
  case HVAL =>
    have q1 : 1 ≤ i := p1 (by simp) (by simp)
    have q2 : 1 ≤ a := p4 rfl
    by_cases h2 : c = 13 ∨ c = 10
    · by_cases h3 : h = -1
      · simp [body, caseHVAL, shiftReq, shiftFlow, h2, h3]
      · simp [body, caseHVAL, shiftReq, shiftFlow, h2, h3, Function.comp_update,
          shiftSlice_pos _ _ _ q2 q1]
    · simp [body, caseHVAL, shiftReq, shiftFlow, h2]
  case CR1 =>
    by_cases h1 : c = 10
    · simp [body, shiftReq, shiftFlow, h1]
    · simp [body, shiftReq, shiftFlow, h1]
  case LF1 =>
    by_cases h1 : c = 13
    · simp [body, shiftReq, shiftFlow, h1]
    · by_cases h2 : c = 10
      · simp [body, shiftReq, shiftFlow, h2, Nat.add_right_comm]
        omega
      · by_cases h3 : c = 58
        · simp [body, shiftReq, shiftFlow, h3]
        · by_cases h4 : c = 32 ∨ c = 9
          · simp [body, shiftReq, shiftFlow, h1, h2, h3, h4]
          · simp [body, shiftReq, shiftFlow, h1, h2, h3, h4]
  case LF2 =>
    by_cases h1 : c = 10
    · simp [body, shiftReq, shiftFlow, h1, Nat.add_right_comm]
      omega
    · simp [body, shiftReq, shiftFlow, h1]

set_option maxHeartbeats 1000000 in
theorem body_positive (gm gh : List UInt8 → Int) (p : List UInt8) (c : UInt8)
    (r r1 : HttpRequest) (hr : positive r) (hb : body gm gh p c r = Flow.next r1) :
    positive { r1 with i := r1.i + 1 } := by
  obtain ⟨i, t, a, h, method, uri, version, headers⟩ := r
  obtain ⟨ua, ub⟩ := uri
  obtain ⟨va, vb⟩ := version
  obtain ⟨p1, p2, p3, p4, p5, p6, p7⟩ := hr
  simp only at p1 p2 p3 p4 p5 p6 p7
  unfold body caseMETHOD caseHVAL at hb
  cases t <;> simp at p1 p2 p3 p4 <;> simp only at hb <;> split_ifs at hb <;> cases hb <;>
    simp [positive, Function.update_apply] <;> (repeat' apply And.intro) <;>
    first
      | exact p5
      | exact p6
      | exact p7
      | omega
      | (intro h2; split_ifs <;> first | exact p7 h2 | (simp <;> omega))

theorem positive_advance (r : HttpRequest) (hr : positive r) :
    positive { r with i := r.i + 1 } := by
  obtain ⟨p1, p2, p3, p4, p5, p6, p7⟩ := hr
  exact ⟨fun _ _ => Nat.le_add_left 1 r.i, p2, p3, p4, p5, p6, p7⟩

theorem scan_shift (gm gh : List UInt8 → Int) (w m s : List UInt8) :
    ∀ (r r1 : HttpRequest) (rc : Int), positive r →
      scan gm gh m s r = (some (Ret.value rc), r1) →
      scan gm gh (w ++ m) s (shiftReq w.length r)
          = (some (Ret.value (rc + w.length)), shiftReq w.length r1)
        ∧ positive r1 := by
  induction s with
  | nil => intro r r1 rc _ h; simp [scan] at h
  | cons c cs ih =>
    intro r r1 rc hr h
    have hs := body_shift gm gh w m c r hr
    simp only [scan] at h ⊢
    cases hb : body gm gh m c r with
    | next r2 =>
      rw [hb] at h hs
      simp only [shiftFlow] at hs
      rw [hs]
      simp only at h ⊢
      have e : { shiftReq w.length r2 with i := (shiftReq w.length r2).i + 1 }
          = shiftReq w.length { r2 with i := r2.i + 1 } := by
        simp [shiftReq, Nat.add_right_comm]
      rw [e]
      exact ih _ _ _ (body_positive gm gh m c r r2 hr hb) h
    | ret rc2 r2 =>
      rw [hb] at h hs
      simp only [shiftFlow] at hs
      rw [hs]
      simp only [Prod.mk.injEq, Option.some.injEq, Ret.value.injEq] at h
      obtain ⟨h1, h2⟩ := h
      subst h1 h2
      refine ⟨rfl, ?_⟩
      obtain ⟨-, -, h3⟩ := body_ret gm gh m c r r2 rc2 hb
      rw [h3]
      exact positive_advance r hr
    | bad r2 =>
      rw [hb] at h
      simp at h

theorem positive_init : positive InitHttpRequest := by
  simp [positive, InitHttpRequest]

/-! ## C17: leading line terminators -/

/-- C17: when `ParseHttpRequest` on a freshly initialised parser succeeds on
`m` with result `k > 0`, and `w` is made of CR and LF bytes only with
`|w| + |m| ≤ 32766`, then on `w ++ m` it returns `|w| + k` with the same
method; the uri, version and header slices are those for `m` moved by `|w|`
positions (slices that were not recorded stay zero), and they denote the same
bytes.  The theorem does not need `m` to begin with a byte other than CR and
LF. -/
theorem C17_leading_line_terminators (gm gh : List UInt8 → Int) (w m : List UInt8) (k : Int)
    (hk : 0 < k) (hok : (parse gm gh m).1 = Ret.value k)
    (hw : ∀ c ∈ w, c = 13 ∨ c = 10) (hlen : w.length + m.length ≤ LIMIT) :
    (parse gm gh (w ++ m)).1 = Ret.value (w.length + k)
      ∧ (parse gm gh (w ++ m)).2.method = (parse gm gh m).2.method
      ∧ (parse gm gh (w ++ m)).2.uri = shiftSlice w.length (parse gm gh m).2.uri
      ∧ (parse gm gh (w ++ m)).2.version = shiftSlice w.length (parse gm gh m).2.version
      ∧ (∀ h, (parse gm gh (w ++ m)).2.headers h
          = shiftSlice w.length ((parse gm gh m).2.headers h))
      ∧ sliceOf (w ++ m) (parse gm gh (w ++ m)).2.uri = sliceOf m (parse gm gh m).2.uri
      ∧ sliceOf (w ++ m) (parse gm gh (w ++ m)).2.version
          = sliceOf m (parse gm gh m).2.version
      ∧ (∀ h, sliceOf (w ++ m) ((parse gm gh (w ++ m)).2.headers h)
          = sliceOf m ((parse gm gh m).2.headers h)) := by
  obtain ⟨_, _, _, -, -, -, -, e5⟩ := parse_success gm gh m k hk hok
  rw [List.take_of_length_le (by omega)] at e5
  have hskip : scan gm gh (w ++ m) w InitHttpRequest
      = (none, shiftReq w.length InitHttpRequest) := by
    rw [scan_skip gm gh (w ++ m) w InitHttpRequest rfl hw]
    rfl
  obtain ⟨hsh, p1, p2, p3, p4, p5, p6, p7⟩ :=
    scan_shift gm gh w m m InitHttpRequest _ k positive_init e5
  have hp : parse gm gh (w ++ m)
      = (Ret.value (k + w.length), shiftReq w.length (parse gm gh m).2) := by
    rw [parse_eq, List.take_of_length_le (by simp; omega),
      scan_append_none gm gh _ _ _ _ _ hskip, hsh]
  rw [hp]
  refine ⟨by rw [Int.add_comm], rfl, rfl, rfl, fun _ => rfl, ?_, ?_, ?_⟩
  · exact sliceOf_shift w m _ p5
  · exact sliceOf_shift w m _ p6
  · intro h
    exact sliceOf_shift w m _ (p7 h)

set_option maxRecDepth 100000 in
/-- The message of `testLeadingLineFeeds_areIgnored`: a CR LF before a request
of 46 bytes. -/
theorem C17_leading_line_terminators_witness :
    [13, 10] ++ bytes "GET /foo?bar%20hi HTTP/1.0\r\nUser-Agent: hi\r\n\r\n"
        = bytes "\r\nGET /foo?bar%20hi HTTP/1.0\r\nUser-Agent: hi\r\n\r\n"
      ∧ (parse sampleGetHttpMethod sampleGetHttpHeader
          ([13, 10] ++ bytes "GET /foo?bar%20hi HTTP/1.0\r\nUser-Agent: hi\r\n\r\n")).1
        = Ret.value 48
      ∧ sliceOf ([13, 10] ++ bytes "GET /foo?bar%20hi HTTP/1.0\r\nUser-Agent: hi\r\n\r\n")
          (parse sampleGetHttpMethod sampleGetHttpHeader
            ([13, 10] ++ bytes "GET /foo?bar%20hi HTTP/1.0\r\nUser-Agent: hi\r\n\r\n")).2.uri
        = bytes "/foo?bar%20hi" :=
  have h := C17_leading_line_terminators sampleGetHttpMethod sampleGetHttpHeader [13, 10]
    (bytes "GET /foo?bar%20hi HTTP/1.0\r\nUser-Agent: hi\r\n\r\n") 46 (by decide) (by decide)
    (by decide) (by decide)
  ⟨by decide, h.1, h.2.2.2.2.2.1.trans (by decide)⟩

/-! ## C21: resuming the parser -/

theorem parse_first (gm gh : List UInt8 → Int) (p : List UInt8) (n : Nat) :
    ParseHttpRequest gm gh InitHttpRequest p n
      = match scan gm gh p (p.take (min n LIMIT)) InitHttpRequest with
        | (some ret, r1) => (ret, r1)
        | (none, r1) => if r1.i < LIMIT then (Ret.value 0, r1) else (Ret.ebadmsg, r1) := by
  have h : (p.take (min n LIMIT)).drop InitHttpRequest.i = p.take (min n LIMIT) :=
    List.drop_zero _
  unfold ParseHttpRequest
  rw [h]

theorem parse_zero (gm gh : List UInt8 → Int) (p : List UInt8) (k : Nat)
    (h0 : (ParseHttpRequest gm gh InitHttpRequest p k).1 = Ret.value 0) :
    ∃ r, scan gm gh p (p.take (min k LIMIT)) InitHttpRequest = (none, r)
      ∧ ParseHttpRequest gm gh InitHttpRequest p k = (Ret.value 0, r) := by
  rw [parse_first] at h0 ⊢
  cases hq : scan gm gh p (p.take (min k LIMIT)) InitHttpRequest with
  | mk o r =>
    rw [hq] at h0
    cases o with
    | none =>
      refine ⟨r, rfl, ?_⟩
      by_cases hl : r.i < LIMIT
      · simp [hl]
      · simp [hl] at h0
    | some ret =>
      exfalso
      simp only at h0
      subst h0
      obtain ⟨s1, c, s2, r0, -, -, e3⟩ := scan_some gm gh _ _ _ _ _ hq
      rcases e3 with ⟨k2, e3, e4⟩ | ⟨-, e4⟩
      · injection e4 with e4
        obtain ⟨-, hrc, -⟩ := body_ret gm gh p c r0 r _ e3
        rw [← e4] at hrc
        omega
      · cases e4

theorem take_split (p : List UInt8) (K N : Nat) (h : K ≤ N) :
    p.take N = p.take K ++ (p.take N).drop (p.take K).length := by
  have h1 : p.take K = (p.take N).take K := by
    rw [List.take_take, Nat.min_eq_left h]
  rw [h1]
  generalize p.take N = l
  rw [List.length_take]
  rcases Nat.le_total K l.length with hl | hl
  · rw [Nat.min_eq_left hl, List.take_append_drop]
  · rw [Nat.min_eq_right hl, List.take_of_length_le hl, List.drop_length, List.append_nil]

/-- C21: if `ParseHttpRequest` on a freshly initialised parser with the first
`k` bytes of the buffer `p` returns 0, then for every `n ≥ k` the call on the
parser state it left, with the first `n` bytes of `p`, returns what a single
call with the first `n` bytes on a freshly initialised parser returns and
leaves the same parser state (position, state, method, uri, version and header
slices, and the fields `a` and `h` as well).  A first call that returns 0 has
read fewer than 32766 bytes, so the theorem does not need `k < 32766` as a
hypothesis. -/
theorem C21_resumable (gm gh : List UInt8 → Int) (p : List UInt8) (k n : Nat) (hkn : k ≤ n)
    (h0 : (ParseHttpRequest gm gh InitHttpRequest p k).1 = Ret.value 0) :
    ParseHttpRequest gm gh (ParseHttpRequest gm gh InitHttpRequest p k).2 p n
      = ParseHttpRequest gm gh InitHttpRequest p n := by
  obtain ⟨r, hs, hp⟩ := parse_zero gm gh p k h0
  rw [hp]
  simp only
  have hi : r.i = (p.take (min k LIMIT)).length := by
    rw [scan_none_i gm gh _ _ _ _ hs]
    simp [InitHttpRequest]
  have hsplit := take_split p (min k LIMIT) (min n LIMIT) (by omega)
  have hscan : scan gm gh p (p.take (min n LIMIT)) InitHttpRequest
      = scan gm gh p ((p.take (min n LIMIT)).drop r.i) r := by
    conv_lhs => rw [hsplit]
    rw [scan_append_none gm gh _ _ _ _ _ hs, hi]
  rw [parse_first, hscan]
  rfl

set_option maxRecDepth 100000 in
/-- The request of `testNoHeaders` given in two pieces: its first 10 bytes,
then all 21. -/
theorem C21_resumable_witness :
    (10 : Nat) ≤ 21
      ∧ (ParseHttpRequest sampleGetHttpMethod sampleGetHttpHeader InitHttpRequest
          (bytes "GET /foo HTTP/1.0\r\n\r\n") 10).1 = Ret.value 0
      ∧ (ParseHttpRequest sampleGetHttpMethod sampleGetHttpHeader InitHttpRequest
          (bytes "GET /foo HTTP/1.0\r\n\r\n") 10).2.i = 10
      ∧ ParseHttpRequest sampleGetHttpMethod sampleGetHttpHeader
          (ParseHttpRequest sampleGetHttpMethod sampleGetHttpHeader InitHttpRequest
            (bytes "GET /foo HTTP/1.0\r\n\r\n") 10).2
          (bytes "GET /foo HTTP/1.0\r\n\r\n") 21
        = ParseHttpRequest sampleGetHttpMethod sampleGetHttpHeader InitHttpRequest
          (bytes "GET /foo HTTP/1.0\r\n\r\n") 21
      ∧ (ParseHttpRequest sampleGetHttpMethod sampleGetHttpHeader InitHttpRequest
          (bytes "GET /foo HTTP/1.0\r\n\r\n") 21).1 = Ret.value 21 :=
  ⟨by decide, by decide, by decide,
    C21_resumable sampleGetHttpMethod sampleGetHttpHeader (bytes "GET /foo HTTP/1.0\r\n\r\n")
      10 21 (by decide) (by decide),
    by decide⟩

end Http
